import Mathlib

/-!
VapourSynth-butteraugli: a shallow embedding of `vsbutteraugli.cpp`

The finite values of the C++ types `double` and `float` are modelled by the elements of
one ordered field `K` with a floor function, and `std::pow` is passed to the functions that
call it as the argument `pow`.  The floating-point arithmetic of the source is embedded at
three levels:

* in exact arithmetic (`ScoreToRgb_remap`, `ScoreToRgb_clamp`, `ScoreToRgb_channel`,
  `ScoreToRgb`, `NewSrgbToLinearTable`): every operation is the operation of the field; the
  numeric theorems at this level take `K = ℝ` and `pow = Real.rpow`;
* with the special values of IEEE 754 (`Double`, `ScoreToRgb_score`, `ScoreToRgb_ieee`): a
  division by zero gives an infinity or a NaN, and at a NaN position the gradient lookup of
  `ScoreToRgb` is undefined;
* with rounding (`round_to_format`, `static_cast_float`, `round_double`,
  `ScoreToRgb_remap_rounded`, `ScoreToRgb_clamp_rounded`, `ScoreToRgb_channel_rounded`,
  `ScoreToRgb_rounded`): every literal and the result of every operation is rounded to the
  nearest value of the format, a tie going to the even significand; an overflow is not
  modelled.

The store of a `double` table entry into a `float` sample in `FromSrgbToLinear` rounds the
entry to binary32.  The theorems about loops, buffers and host calls hold for every such
field and every `pow`.  An access outside a buffer, a null dereference and `vector::at` out
of range make a function return `none`.
-/

namespace Butteraugli

/-! ## Definitions -/

/-- Counted loop `for (i = 0; i < n; ++i) body`, threading the state the body updates;
`none` as soon as one iteration fails. -/
def forLoop {σ : Type} (n : Nat) (body : Nat → σ → Option σ) (s : σ) : Option σ :=
  (List.range n).foldlM (fun st i => body i st) s

/-- An 8-bit sample, `uint8_t`. -/
abbrev uint8_t : Type := Fin 256

section Numeric

variable {K : Type} [LinearOrderedField K] [FloorRing K]

/-- The local array `heatmap[12][3]` of `ScoreToRgb` (lines 25-39). -/
def heatmap : List (List K) :=
  [ [0, 0, 0],
    [0, 0, 1],
    [0, 1, 1],
    [0, 1, 0],
    [1, 1, 0],
    [1, 0, 0],
    [1, 0, 1],
    [0.5, 0.5, 1.0],
    [1.0, 0.5, 0.5],
    [1.0, 1.0, 0.5],
    [1, 1, 1],
    [1, 1, 1] ]

/-- The constant `kTableSize = sizeof(heatmap) / sizeof(heatmap[0])`, the number of
gradient stops. -/
def kTableSize : Int := 12

/-- The score remap at the start of `ScoreToRgb` (lines 41-54) in exact arithmetic: the new
value of `score`, where the divisor of the branch taken is not zero.  `ScoreToRgb_score`
gives the IEEE 754 result of a division by zero, `ScoreToRgb_remap_rounded` the rounding
of each operation. -/
def ScoreToRgb_remap (score good_threshold bad_threshold : K) : K :=
  if score < good_threshold then
    (score / good_threshold) * 0.3
  else if score < bad_threshold then
    0.3 + (score - good_threshold) / (bad_threshold - good_threshold) * 0.15
  else
    0.45 + (score - bad_threshold) / (bad_threshold * 12) * 0.5

/-- The clamp of lines 58-59:
`std::min<double>(std::max<double>(score * (kTableSize - 1), 0.0), kTableSize - 2)`. -/
def ScoreToRgb_clamp (score : K) : K :=
  min (max (score * ((kTableSize - 1 : Int) : K)) 0.0) ((kTableSize - 2 : Int) : K)

/-- The conversion `static_cast<int>(x)` of a floating-point value: truncation toward zero. -/
def static_cast_int (x : K) : Int := if 0 ≤ x then ⌊x⌋ else ⌈x⌉

/-- The conversion `static_cast<uint8_t>(x)` of a floating-point value: truncation toward
zero, then reduction modulo 256. -/
def static_cast_uint8_t (x : K) : uint8_t :=
  ⟨(static_cast_int x % 256).toNat, by omega⟩

/-- Rounding of `q` to the nearest integer, a tie going to the even integer. -/
def round_half_even (q : K) : Int :=
  if q - (⌊q⌋ : K) < 1 / 2 then ⌊q⌋
  else if 1 / 2 < q - (⌊q⌋ : K) then ⌊q⌋ + 1
  else if ⌊q⌋ % 2 = 0 then ⌊q⌋ else ⌊q⌋ + 1

/-- The IEEE 754 rounding of a real number to the nearest value of a binary format with a
significand of `p` bits and least normal exponent `emin`, a tie going to the even
significand: `x` is rounded to a multiple of the unit in the last place
`2 ^ (e - (p - 1))` of its binade `2 ^ e <= |x| < 2 ^ (e + 1)`, and below `2 ^ emin` to a
multiple of the subnormal spacing.  The format has no largest value here: a result too
large for the real format (an overflow to infinity) is not modelled. -/
def round_to_format (p : Nat) (emin : Int) (x : K) : K :=
  let e : Int := max (Int.log 2 |x|) emin
  let ulp : K := (2 : K) ^ (e - ((p : Int) - 1))
  (round_half_even (x / ulp) : K) * ulp

/-- The conversion of a `double` to `float`, as in the assignment of a `double` to a
`float` sample: rounding to binary32 (24 significand bits, least normal exponent -126). -/
def static_cast_float (x : K) : K := round_to_format 24 (-126) x

/-- The rounding of the exact result of an arithmetic operation on `double` operands, and of
a decimal literal, to binary64 (53 significand bits, least normal exponent -1022). -/
def round_double (x : K) : K := round_to_format 53 (-1022) x

/-- The read `heatmap[ix][c]`; `none` when an index is outside the array. -/
def heatmapAt (ix : Int) (c : Nat) : Option K :=
  if 0 ≤ ix then ((heatmap (K := K))[ix.toNat]?).bind (fun row => row[c]?) else none

/-- One colour channel of `ScoreToRgb` (lines 67-68, 71-72, 75-76) in exact arithmetic:
`v = mix * heatmap[ix + 1][c] + (1 - mix) * heatmap[ix][c]` and then
`static_cast<uint8_t>(255 * pow(v, 0.5) + 0.5)`.  `ScoreToRgb_channel_rounded` rounds each
operation. -/
def ScoreToRgb_channel (pow : K → K → K) (ix : Int) (mix : K) (c : Nat) : Option uint8_t := do
  let hi ← heatmapAt (ix + 1) c
  let lo ← heatmapAt ix c
  let v : K := mix * hi + (1 - mix) * lo
  pure (static_cast_uint8_t (255 * pow v 0.5 + 0.5))

/-- The function `ScoreToRgb` (lines 22-77) in exact arithmetic; the result is the triple
`(r, g, b)`.  `ScoreToRgb_ieee` adds the special values of IEEE 754, `ScoreToRgb_rounded`
the rounding of each operation. -/
def ScoreToRgb (pow : K → K → K) (score good_threshold bad_threshold : K) :
    Option (uint8_t × uint8_t × uint8_t) :=
  let score := ScoreToRgb_remap score good_threshold bad_threshold
  let score := ScoreToRgb_clamp score
  let ix : Int := static_cast_int score
  let mix : K := score - (ix : K)
  do
    let r ← ScoreToRgb_channel pow ix mix 0
    let g ← ScoreToRgb_channel pow ix mix 1
    let b ← ScoreToRgb_channel pow ix mix 2
    pure (r, g, b)

/-! ### `ScoreToRgb` in IEEE 754 arithmetic: special values and rounding -/

/-- A value of type `double` together with the special values of IEEE 754: a finite number,
an infinity of either sign, or a NaN. -/
inductive Double (K : Type) where
  | finite (x : K)
  | infinity (negative : Bool)
  | nan

/-- The IEEE 754 quotient `x / y` of two finite values, the zero of `K` being `+0.0`: the
field quotient for a divisor other than zero, an infinity of the sign of `x` for a nonzero
`x` divided by zero, and a NaN for zero divided by zero. -/
def Double.div (x y : K) : Double K :=
  if y = 0 then (if x = 0 then Double.nan else Double.infinity (decide (x < 0)))
  else Double.finite (x / y)

/-- The IEEE 754 product `a * c` with a finite value `c`: an infinity keeps or changes its
sign with the sign of `c`, infinity times zero is a NaN, and a NaN stays a NaN. -/
def Double.mul (a : Double K) (c : K) : Double K :=
  match a with
  | Double.finite x => Double.finite (x * c)
  | Double.infinity negative =>
    if c = 0 then Double.nan else Double.infinity (if c < 0 then !negative else negative)
  | Double.nan => Double.nan

/-- The IEEE 754 sum `c + a` with a finite value `c`. -/
def Double.add (c : K) (a : Double K) : Double K :=
  match a with
  | Double.finite x => Double.finite (c + x)
  | Double.infinity negative => Double.infinity negative
  | Double.nan => Double.nan

/-- The comparison `a < b` with a finite value `b`; false when `a` is a NaN. -/
def Double.lt (a : Double K) (b : K) : Bool :=
  match a with
  | Double.finite x => decide (x < b)
  | Double.infinity negative => negative
  | Double.nan => false

/-- The comparison `b < a` with a finite value `b`; false when `a` is a NaN. -/
def Double.gt (a : Double K) (b : K) : Bool :=
  match a with
  | Double.finite x => decide (b < x)
  | Double.infinity negative => !negative
  | Double.nan => false

/-- The call `std::max<double>(a, b)`, which is `(a < b) ? b : a`. -/
def Double.max (a : Double K) (b : K) : Double K :=
  if a.lt b then Double.finite b else a

/-- The call `std::min<double>(a, b)`, which is `(b < a) ? b : a`. -/
def Double.min (a : Double K) (b : K) : Double K :=
  if a.gt b then Double.finite b else a

/-- The variable `score` of `ScoreToRgb` after lines 41-59, the gradient position, with the
special values of IEEE 754 that a division by zero produces: the remap of lines 41-54 and
the clamp of lines 58-59 on finite arguments `score`, `good_threshold`, `bad_threshold`. -/
def ScoreToRgb_score (score good_threshold bad_threshold : K) : Double K :=
  let score : Double K :=
    if score < good_threshold then
      (Double.div score good_threshold).mul 0.3
    else if score < bad_threshold then
      Double.add 0.3
        ((Double.div (score - good_threshold) (bad_threshold - good_threshold)).mul 0.15)
    else
      Double.add 0.45 ((Double.div (score - bad_threshold) (bad_threshold * 12)).mul 0.5)
  ((score.mul ((kTableSize - 1 : Int) : K)).max 0.0).min ((kTableSize - 2 : Int) : K)

/-- The conversion `static_cast<int>(a)` of line 61 on a value that may be special: the
truncation of a finite value; the behaviour is undefined for a NaN and for an infinity
(`none`). -/
def Double.toInt (a : Double K) : Option Int :=
  match a with
  | Double.finite x => some (static_cast_int x)
  | Double.infinity _ => none
  | Double.nan => none

/-- The function `ScoreToRgb` (lines 22-77) with the special values of IEEE 754: on a
finite gradient position the index `ix`, the fraction `mix` and the three channels as in
`ScoreToRgb`; at a NaN position `ix` is undefined and the reads `heatmap[ix][c]` are
outside the array (`none`). -/
def ScoreToRgb_ieee (pow : K → K → K) (score good_threshold bad_threshold : K) :
    Option (uint8_t × uint8_t × uint8_t) :=
  match ScoreToRgb_score score good_threshold bad_threshold with
  | Double.finite score =>
    match (Double.finite score).toInt with
    | none => none
    | some ix =>
      let mix : K := score - (ix : K)
      do
        let r ← ScoreToRgb_channel pow ix mix 0
        let g ← ScoreToRgb_channel pow ix mix 1
        let b ← ScoreToRgb_channel pow ix mix 2
        pure (r, g, b)
  | Double.infinity _ => none
  | Double.nan => none

/-- The score remap at the start of `ScoreToRgb` (lines 41-54) as floating-point arithmetic
evaluates it: every decimal literal and the result of every arithmetic operation is rounded
by `rnd`.  With `rnd = round_double` this is the binary64 evaluation of the remap on
in-range values, with the identity it is `ScoreToRgb_remap`. -/
def ScoreToRgb_remap_rounded (rnd : K → K) (score good_threshold bad_threshold : K) : K :=
  if score < good_threshold then
    rnd (rnd (score / good_threshold) * rnd 0.3)
  else if score < bad_threshold then
    rnd (rnd 0.3 + rnd (rnd (rnd (score - good_threshold)
      / rnd (bad_threshold - good_threshold)) * rnd 0.15))
  else
    rnd (rnd 0.45 + rnd (rnd (rnd (score - bad_threshold)
      / rnd (bad_threshold * 12)) * rnd 0.5))

/-- The clamp of lines 58-59 with the product `score * (kTableSize - 1)` rounded by `rnd`. -/
def ScoreToRgb_clamp_rounded (rnd : K → K) (score : K) : K :=
  min (max (rnd (score * ((kTableSize - 1 : Int) : K))) 0.0) ((kTableSize - 2 : Int) : K)

/-- One colour channel of `ScoreToRgb` (lines 67-68, 71-72, 75-76) as floating-point
arithmetic evaluates it: the result of every operation is rounded by `rnd`; the gradient
entries and the constants 1, 255 and 0.5 are values of the format, and `pow` returns one. -/
def ScoreToRgb_channel_rounded (rnd : K → K) (pow : K → K → K) (ix : Int) (mix : K)
    (c : Nat) : Option uint8_t := do
  let hi ← heatmapAt (ix + 1) c
  let lo ← heatmapAt ix c
  let v : K := rnd (rnd (mix * hi) + rnd (rnd (1 - mix) * lo))
  pure (static_cast_uint8_t (rnd (rnd (255 * pow v 0.5) + 0.5)))

/-- The function `ScoreToRgb` (lines 22-77) as floating-point arithmetic evaluates it, on
arguments at which no division is by zero: every literal and the result of every operation
is rounded by `rnd`.  With the identity for `rnd` it is `ScoreToRgb`. -/
def ScoreToRgb_rounded (rnd : K → K) (pow : K → K → K)
    (score good_threshold bad_threshold : K) : Option (uint8_t × uint8_t × uint8_t) :=
  let score := ScoreToRgb_remap_rounded rnd score good_threshold bad_threshold
  let score := ScoreToRgb_clamp_rounded rnd score
  let ix : Int := static_cast_int score
  let mix : K := rnd (score - (ix : K))
  do
    let r ← ScoreToRgb_channel_rounded rnd pow ix mix 0
    let g ← ScoreToRgb_channel_rounded rnd pow ix mix 1
    let b ← ScoreToRgb_channel_rounded rnd pow ix mix 2
    pure (r, g, b)

/-! ### The sRGB-to-linear table -/

/-- The function `NewSrgbToLinearTable` (lines 98-110) in exact arithmetic: the 256 entries
`table[0..255]`. -/
def NewSrgbToLinearTable (pow : K → K → K) : List K :=
  (List.range 256).map fun (i : Nat) =>
    let srgb : K := (i : K) / 255.0
    255.0 * (if srgb ≤ 0.04045 then srgb / 12.92 else pow ((srgb + 0.055) / 1.055) 2.4)

/-- The closed-form sRGB transfer function in the words of the specification:
`srgb / 12.92` when `srgb <= 0.04045`, otherwise `((srgb + 0.055) / 1.055) ^ 2.4`. -/
def srgbTransfer (pow : K → K → K) (srgb : K) : K :=
  if srgb ≤ 0.04045 then srgb / 12.92 else pow ((srgb + 0.055) / 1.055) 2.4

end Numeric

/-! ### Planar images -/

/-- Modelled from the spec: the planar image buffer `Image<T>` of butteraugli.h, which is
not among the sources: an ordered row-major 2D grid of samples for one channel, with its
dimensions `xsize()` and `ysize()`; `rows` holds what `Row(y)` reaches. -/
structure Image (α : Type) where
  xsize : Nat
  ysize : Nat
  rows : List (List α)

/-- An image whose grid really has `ysize` rows of `xsize` samples each. -/
def Image.HasShape {α : Type} (img : Image α) (xsize ysize : Nat) : Prop :=
  img.xsize = xsize ∧ img.ysize = ysize ∧ img.rows.length = ysize ∧
    ∀ row ∈ img.rows, row.length = xsize

instance {α : Type} (img : Image α) (xsize ysize : Nat) :
    Decidable (img.HasShape xsize ysize) := by
  unfold Image.HasShape
  infer_instance

/-- Modelled from the spec: the constructor `Image<T>(xsize, ysize)` of butteraugli.h; the
samples of a fresh image are indeterminate in C++ and are given the value `fill` here. -/
def Image.create {α : Type} (xsize ysize : Nat) (fill : α) : Image α :=
  { xsize := xsize, ysize := ysize, rows := List.replicate ysize (List.replicate xsize fill) }

/-- Modelled from the spec: `CreatePlanes<T>(xsize, ysize, num_planes)` of butteraugli.h,
a vector of `num_planes` fresh images of the given dimensions. -/
def CreatePlanes {α : Type} (xsize ysize num_planes : Nat) (fill : α) : List (Image α) :=
  List.replicate num_planes (Image.create xsize ysize fill)

/-- The read `img.Row(y)[x]`. -/
def Image.get {α : Type} (img : Image α) (y x : Nat) : Option α :=
  (img.rows[y]?).bind (fun row => row[x]?)

/-- The store `img.Row(y)[x] = v`. -/
def Image.set {α : Type} (img : Image α) (y x : Nat) (v : α) : Option (Image α) :=
  match img.rows[y]? with
  | none => none
  | some row => if x < row.length then some { img with rows := img.rows.set y (row.set x v) }
      else none

/-- The read `planes[c].Row(y)[x]` in a vector of images. -/
def planesGet {α : Type} (planes : List (Image α)) (c y x : Nat) : Option α :=
  (planes[c]?).bind (fun img => img.get y x)

/-- The store `planes[c].Row(y)[x] = v` in a vector of images. -/
def planesSet {α : Type} (planes : List (Image α)) (c y x : Nat) (v : α) :
    Option (List (Image α)) :=
  match planes[c]? with
  | none => none
  | some img =>
    match img.set y x v with
    | none => none
    | some img2 => some (planes.set c img2)

section Linearization

variable {K : Type} [LinearOrderedField K] [FloorRing K]

/-- The third loop of `FromSrgbToLinear` (lines 126-130), over the columns of row `y` of
channel `c`: `row_linear[x] = kSrgbToLinearTable[row_rgb[x]]`, where the table entry is a
`double` and the sample `row_linear[x]` a `float`, so that the store converts the entry to
`float`. -/
def FromSrgbToLinear_row (kSrgbToLinearTable : List K) (row_rgb : List uint8_t)
    (xsize c y : Nat) (linear : List (Image K)) : Option (List (Image K)) :=
  forLoop xsize (fun x linear =>
    match row_rgb[x]? with
    | none => none
    | some value =>
      match kSrgbToLinearTable[value.val]? with
      | none => none
      | some entry => planesSet linear c y x (static_cast_float entry)) linear

/-- The second loop of `FromSrgbToLinear` (lines 122-131), over the rows of channel `c`. -/
def FromSrgbToLinear_plane (kSrgbToLinearTable : List K) (rgb : List (Image uint8_t))
    (xsize ysize c : Nat) (linear : List (Image K)) : Option (List (Image K)) :=
  forLoop ysize (fun y linear =>
    match rgb[c]? with
    | none => none
    | some img =>
      match img.rows[y]? with
      | none => none
      | some row_rgb => FromSrgbToLinear_row kSrgbToLinearTable row_rgb xsize c y linear) linear

/-- The function `FromSrgbToLinear` (lines 112-133); the result is the pair of the two
vectors `rgb` and `linear` after the call.  The loop state carries both vectors: each
iteration reads the planes of `rgb` in the state and stores into `linear` only. -/
def FromSrgbToLinear (pow : K → K → K) (rgb : List (Image uint8_t))
    (linear : List (Image K)) (_background : Int) :
    Option (List (Image uint8_t) × List (Image K)) :=
  match rgb[0]? with
  | none => none
  | some rgb0 =>
    let xsize := rgb0.xsize
    let ysize := rgb0.ysize
    let kSrgbToLinearTable := NewSrgbToLinearTable pow
    forLoop 3 (fun c (st : List (Image uint8_t) × List (Image K)) =>
      match FromSrgbToLinear_plane kSrgbToLinearTable st.1 xsize ysize c
          (st.2 ++ [Image.create xsize ysize 0]) with
      | none => none
      | some linear => some (st.1, linear)) (rgb, linear)

end Linearization

/-! ### The heat map -/

/-- The store `buf[i] = v` through a byte pointer; `none` outside the buffer. -/
def storeByte (buf : List uint8_t) (i : Nat) (v : uint8_t) : Option (List uint8_t) :=
  if i < buf.length then some (buf.set i v) else none

section HeatMap

variable {K : Type} [LinearOrderedField K] [FloorRing K]

/-- The inner loop of `CreateHeatMapImage` (lines 85-90), over the columns of row `y`; the
three row pointers `dst_r`, `dst_g`, `dst_b` stand at offset `off` of their buffers. -/
def CreateHeatMapImage_row (pow : K → K → K) (distmap : Image K)
    (good_threshold bad_threshold : K) (xsize y off : Nat)
    (bufs : List uint8_t × List uint8_t × List uint8_t) :
    Option (List uint8_t × List uint8_t × List uint8_t) :=
  forLoop xsize (fun x bufs =>
    match distmap.get y x with
    | none => none
    | some d =>
      match ScoreToRgb pow d good_threshold bad_threshold with
      | none => none
      | some (r, g, b) =>
        match storeByte bufs.1 (off + x) r, storeByte bufs.2.1 (off + x) g,
            storeByte bufs.2.2 (off + x) b with
        | some br, some bg, some bb => some (br, bg, bb)
        | _, _, _ => none) bufs

/-- The function `CreateHeatMapImage` (lines 79-96); the result is the contents of the three
destination buffers after the call.  The loop state carries the buffers and the offset the
three row pointers have reached (`dst_r += stride` and so on). -/
def CreateHeatMapImage (pow : K → K → K) (distmap : Image K)
    (good_threshold bad_threshold : K) (xsize ysize : Nat)
    (dst_r dst_g dst_b : List uint8_t) (stride : Nat) :
    Option (List uint8_t × List uint8_t × List uint8_t) :=
  (forLoop ysize (fun y (st : (List uint8_t × List uint8_t × List uint8_t) × Nat) =>
    match CreateHeatMapImage_row pow distmap good_threshold bad_threshold xsize y st.2 st.1 with
    | none => none
    | some bufs => some (bufs, st.2 + stride)) ((dst_r, dst_g, dst_b), 0)).map (fun st => st.1)

end HeatMap

/-! ### The VapourSynth host interface -/

/-- Modelled from the spec: `VSFormat` of vapoursynth/VapourSynth.h, which is not among the
sources; only the fields the filter reads. -/
structure VSFormat where
  id : Int
  numPlanes : Nat
deriving DecidableEq, Repr

/-- Modelled from the spec: `VSVideoInfo` of vapoursynth/VapourSynth.h; `format` is the
pointer `const VSFormat *`, null (`none`) for a clip of variable format.  The host keeps one
`VSFormat` object per format, so equal pointers are equal formats. -/
structure VSVideoInfo where
  format : Option VSFormat
  width : Int
  height : Int
deriving DecidableEq, Repr

/-- Modelled from the spec: a node handle `VSNodeRef *`; `id` tells handles apart and `vi`
is what `getVideoInfo` returns for it. -/
structure VSNodeRef where
  id : Nat
  vi : VSVideoInfo
deriving DecidableEq, Repr

/-- Modelled from the spec: the preset format id `pfRGB24` of vapoursynth/VapourSynth.h
(`cmRGB + 10`). -/
def pfRGB24 : Int := 2000010

/-- Modelled from the spec: `isConstantFormat` of vapoursynth/VSHelper.h: constant format
and dimensions, that is `height > 0`, `width > 0` and a known format. -/
def isConstantFormat (vi : VSVideoInfo) : Bool :=
  decide (vi.height > 0) && decide (vi.width > 0) && vi.format.isSome

/-- Modelled from the spec: `isSameFormat` of vapoursynth/VSHelper.h: the same height,
width and format. -/
def isSameFormat (v1 v2 : VSVideoInfo) : Bool :=
  decide (v1.height = v2.height) && decide (v1.width = v2.width) &&
    decide (v1.format = v2.format)

/-- The struct `butteraugliData` (lines 135-140). -/
structure butteraugliData where
  node1 : VSNodeRef
  node2 : VSNodeRef
  vi : VSVideoInfo
deriving DecidableEq, Repr

/-- The argument map `in` of `butteraugliCreate`: the registration string
`clipa:clip;clipb:clip;` makes both clips mandatory, so the map holds a handle for each. -/
structure VSMapIn where
  clipa : VSNodeRef
  clipb : VSNodeRef
deriving DecidableEq, Repr

/-- The calls of `butteraugliCreate` that acquire, release or change state (host calls and
the allocation of the instance data), in order; `getVideoInfo` only reads. -/
inductive SetupEvent where
  | propGetNode (key : String) (node : VSNodeRef)
  | setError (msg : String)
  | freeNode (node : VSNodeRef)
  | malloc (data : butteraugliData)
  | createFilter (name : String) (data : butteraugliData)
deriving DecidableEq, Repr

/-- The function `butteraugliCreate` (lines 231-262): the trace of its host calls; `none`
would be the dereference of a null `format`. -/
def butteraugliCreate (inp : VSMapIn) : Option (List SetupEvent) :=
  let node1 := inp.clipa
  let node2 := inp.clipb
  let vi := node1.vi
  let got := [SetupEvent.propGetNode "clipa" node1, SetupEvent.propGetNode "clipb" node2]
  if !isConstantFormat vi || !isSameFormat vi node2.vi then
    some (got ++
      [SetupEvent.setError
        "butteraugli: both clips must have constant format and dimensions, and the same format and dimensions",
       SetupEvent.freeNode node1,
       SetupEvent.freeNode node2])
  else
    match vi.format with
    | none => none
    | some format =>
      if format.id ≠ pfRGB24 then
        some (got ++
          [SetupEvent.setError "butteraugli: only RGB24 clip supported",
           SetupEvent.freeNode node1,
           SetupEvent.freeNode node2])
      else
        let data : butteraugliData := { node1 := node1, node2 := node2, vi := vi }
        some (got ++ [SetupEvent.malloc data, SetupEvent.createFilter "Butteraugli" data])

/-- Whether a trace of `butteraugliCreate` holds a `createFilter` call. -/
def filterCreated (evs : List SetupEvent) : Bool :=
  evs.any fun e => match e with
    | SetupEvent.createFilter _ _ => true
    | _ => false

/-- Whether a trace of `butteraugliCreate` holds a `setError` call. -/
def errorSet (evs : List SetupEvent) : Bool :=
  evs.any fun e => match e with
    | SetupEvent.setError _ => true
    | _ => false

/-- Whether a trace of `butteraugliCreate` allocates instance data. -/
def dataAllocated (evs : List SetupEvent) : Bool :=
  evs.any fun e => match e with
    | SetupEvent.malloc _ => true
    | _ => false

/-- The handles released by the `freeNode` calls of a trace, in order. -/
def releasedNodes (evs : List SetupEvent) : List VSNodeRef :=
  evs.filterMap fun e => match e with
    | SetupEvent.freeNode node => some node
    | _ => none

/-- The condition under which the specification says the filter is created: clip A has
constant format and dimensions, clip B has the same width, height and format, and the
format id is `pfRGB24`. -/
def acceptable (inp : VSMapIn) : Prop :=
  (0 < inp.clipa.vi.width ∧ 0 < inp.clipa.vi.height ∧ inp.clipa.vi.format ≠ none) ∧
  (inp.clipb.vi.width = inp.clipa.vi.width ∧ inp.clipb.vi.height = inp.clipa.vi.height ∧
    inp.clipb.vi.format = inp.clipa.vi.format) ∧
  inp.clipa.vi.format.map VSFormat.id = some pfRGB24

instance (inp : VSMapIn) : Decidable (acceptable inp) := by
  unfold acceptable
  infer_instance

/-- A clip handle of the given id, format id and dimensions (three planes). -/
def sampleNode (id : Nat) (formatId : Int) (width height : Int) : VSNodeRef :=
  { id := id, vi := { format := some { id := formatId, numPlanes := 3 },
                      width := width, height := height } }

/-! ### Frames and `butteraugliGetFrame` -/

/-- Modelled from the spec: one plane of a host frame, a byte buffer (what `getReadPtr` or
`getWritePtr` points to) with its row stride (`getStride`). -/
structure VSPlane where
  stride : Nat
  data : List uint8_t
deriving DecidableEq, Repr

/-- Modelled from the spec: the value of a frame property. -/
inductive PropValue (K : Type) where
  | int (v : Int)
  | float (v : K)
  | data (v : String)

/-- Modelled from the spec: a host frame `VSFrameRef` of an RGB clip: format, the
dimensions `getFrameWidth` and `getFrameHeight` return (the planes of an RGB frame are not
subsampled), the planes and the property map. -/
structure VSFrame (K : Type) where
  format : VSFormat
  width : Nat
  height : Nat
  planes : List VSPlane
  props : List (String × PropValue K)

/-- Modelled from the spec: the collaborators of `butteraugliGetFrame` that are outside the
sources: the host calls `getFrameFilter` and `newVideoFrame`, and the oracle of
butteraugli.h, `ButteraugliInterface` (`none` when it returns false, otherwise the
distortion map and the aggregate score) and `ButteraugliFuzzyInverse`. -/
structure Env (K : Type) where
  getFrameFilter : Int → VSNodeRef → VSFrame K
  newVideoFrame : VSFormat → Nat → Nat → VSFrame K → VSFrame K
  ButteraugliInterface : List (Image K) → List (Image K) → K → Option (Image K × K)
  ButteraugliFuzzyInverse : K → K

/-- The host calls of `butteraugliGetFrame` that acquire, release or change state, in
order; the accessors (`getReadPtr`, `getWritePtr`, `getStride`, `getFrameWidth`,
`getFrameHeight`, `getFramePropsRW`) only read. -/
inductive FrameEvent (K : Type) where
  | requestFrameFilter (n : Int) (node : VSNodeRef)
  | getFrameFilter (n : Int) (node : VSNodeRef)
  | newVideoFrame (format : VSFormat) (width height : Nat)
  | setFilterError (msg : String)
  | propSetFloat (key : String) (v : K)
  | freeFrame (frame : VSFrame K)

/-- Modelled from the spec: the activation reason `arInitial` of vapoursynth/VapourSynth.h. -/
def arInitial : Int := 0

/-- Modelled from the spec: the activation reason `arAllFramesReady` of
vapoursynth/VapourSynth.h. -/
def arAllFramesReady : Int := 2

/-- The bytes `memcpy` reads: `n` bytes at offset `off` of a buffer; `none` when the read
leaves the buffer. -/
def readBytes (data : List uint8_t) (off n : Nat) : Option (List uint8_t) :=
  if off + n ≤ data.length then some ((data.drop off).take n) else none

/-- The call `memcpy(planes.at(plane).Row(y), bytes, bytes.length)`; `none` when `at` is out
of range or the row is absent or too short. -/
def copyIntoRow {α : Type} (planes : List (Image α)) (plane y : Nat) (bytes : List α) :
    Option (List (Image α)) :=
  match planes[plane]? with
  | none => none
  | some img =>
    match img.rows[y]? with
    | none => none
    | some row =>
      if bytes.length ≤ row.length then
        some (planes.set plane
          { img with rows := img.rows.set y (bytes ++ row.drop bytes.length) })
      else none

/-- The row loop of the plane copy of `butteraugliGetFrame` (lines 180-186) for one plane:
`srcp1` and `srcp2` are the buffers of frame A and frame B, the state carries `rgb1`, `rgb2`
and the offsets the two read pointers have reached; both advance by `src_stride`. -/
def butteraugliGetFrame_copyRows (srcp1 srcp2 : List uint8_t)
    (src_stride width height plane : Nat)
    (rgb1 rgb2 : List (Image uint8_t)) :
    Option (List (Image uint8_t) × List (Image uint8_t)) :=
  (forLoop height
    (fun y (st : (List (Image uint8_t) × List (Image uint8_t)) × (Nat × Nat)) =>
      match readBytes srcp1 st.2.1 width, readBytes srcp2 st.2.2 width with
      | some bytes1, some bytes2 =>
        match copyIntoRow st.1.1 plane y bytes1, copyIntoRow st.1.2 plane y bytes2 with
        | some rgb1, some rgb2 =>
          some ((rgb1, rgb2), (st.2.1 + src_stride, st.2.2 + src_stride))
        | _, _ => none
      | _, _ => none)
    ((rgb1, rgb2), (0, 0))).map (fun st => st.1)

/-- The plane loop of `butteraugliGetFrame` (lines 173-187): for each plane the read
pointers of both frames, and the stride of frame A (`getStride(src1, plane)`). -/
def butteraugliGetFrame_copyPlanes {K : Type} (src1 src2 : VSFrame K)
    (numPlanes width height : Nat) (rgb1 rgb2 : List (Image uint8_t)) :
    Option (List (Image uint8_t) × List (Image uint8_t)) :=
  forLoop numPlanes (fun plane (st : List (Image uint8_t) × List (Image uint8_t)) =>
    match src1.planes[plane]?, src2.planes[plane]? with
    | some p1, some p2 =>
      butteraugliGetFrame_copyRows p1.data p2.data p1.stride width height plane st.1 st.2
    | _, _ => none) (rgb1, rgb2)

/-- The call `propSetFloat(props, key, v, paReplace)`: the key then holds `v` alone. -/
def propSetFloat {K : Type} (props : List (String × PropValue K)) (key : String) (v : K) :
    List (String × PropValue K) :=
  props.filter (fun kv => kv.1 != key) ++ [(key, PropValue.float v)]

/-- The value a property map holds under a key. -/
def propGet {K : Type} (props : List (String × PropValue K)) (key : String) :
    Option (PropValue K) :=
  (props.find? (fun kv => kv.1 == key)).map (fun kv => kv.2)

section GetFrame

variable {K : Type} [LinearOrderedField K] [FloorRing K]

/-- The first part of the `arAllFramesReady` branch of `butteraugliGetFrame` (lines 161-191):
the plane copy into `rgb1` and `rgb2` and their linearization; the result is
`(rgb1, rgb2, linear1, linear2)`. -/
def butteraugliGetFrame_inputs (env : Env K) (pow : K → K → K) (n : Int)
    (d : butteraugliData) :
    Option (List (Image uint8_t) × List (Image uint8_t) × List (Image K) × List (Image K)) :=
  let src1 := env.getFrameFilter n d.node1
  let src2 := env.getFrameFilter n d.node2
  match d.vi.format with
  | none => none
  | some fi =>
    let height := src1.height
    let width := src1.width
    match butteraugliGetFrame_copyPlanes src1 src2 fi.numPlanes width height
        (CreatePlanes width height 3 0) (CreatePlanes width height 3 0) with
    | none => none
    | some (rgb1, rgb2) =>
      match FromSrgbToLinear pow rgb1 [] 0, FromSrgbToLinear pow rgb2 [] 0 with
      | some (rgb1, linear1), some (rgb2, linear2) => some (rgb1, rgb2, linear1, linear2)
      | _, _ => none

/-- The function `butteraugliGetFrame` (lines 148-220): the returned frame (`none` for a
null result) and the trace of host calls; the outer `none` is an access out of bounds, a
null `format` or a plane the frame does not have. -/
def butteraugliGetFrame (env : Env K) (pow : K → K → K) (n : Int) (activationReason : Int)
    (d : butteraugliData) : Option (Option (VSFrame K) × List (FrameEvent K)) :=
  if activationReason = arInitial then
    some (none, [FrameEvent.requestFrameFilter n d.node1,
                 FrameEvent.requestFrameFilter n d.node2])
  else if activationReason = arAllFramesReady then
    let src1 := env.getFrameFilter n d.node1
    let src2 := env.getFrameFilter n d.node2
    match d.vi.format with
    | none => none
    | some fi =>
      let height := src1.height
      let width := src1.width
      let dst := env.newVideoFrame fi width height src1
      let calls := [FrameEvent.getFrameFilter n d.node1, FrameEvent.getFrameFilter n d.node2,
                    FrameEvent.newVideoFrame fi width height]
      match butteraugliGetFrame_inputs env pow n d with
      | none => none
      | some (rgb1, rgb2, linear1, linear2) =>
        match env.ButteraugliInterface linear1 linear2 1.0 with
        | none =>
          some (none, calls ++ [FrameEvent.setFilterError "butteraugli: Fail to compare."])
        | some (diff_map, diff_value) =>
          let good_quality := env.ButteraugliFuzzyInverse 1.5
          let bad_quality := env.ButteraugliFuzzyInverse 0.5
          match dst.planes[0]?, dst.planes[1]?, dst.planes[2]?, rgb1[0]?, rgb2[0]? with
          | some pr, some pg, some pb, some rgb1_0, some rgb2_0 =>
            let dst_stride := pr.stride
            match CreateHeatMapImage pow diff_map good_quality bad_quality
                rgb1_0.xsize rgb2_0.ysize pr.data pg.data pb.data dst_stride with
            | none => none
            | some (r, g, b) =>
              let out : VSFrame K :=
                { dst with
                  planes := ((dst.planes.set 0 { pr with data := r }).set 1
                    { pg with data := g }).set 2 { pb with data := b }
                  props := propSetFloat dst.props "_Diff" diff_value }
              some (some out,
                calls ++ [FrameEvent.propSetFloat "_Diff" diff_value,
                          FrameEvent.freeFrame src1, FrameEvent.freeFrame src2])
          | _, _, _, _, _ => none
  else
    some (none, [])

end GetFrame

/-- The `height` rows of `width` bytes that a row loop with the given stride touches, the
row `y` at offset `y * stride`, all lie inside the buffer. -/
def RowsInBuffer (data : List uint8_t) (stride width height : Nat) : Prop :=
  ∀ y, y < height → y * stride + width ≤ data.length

instance (data : List uint8_t) (stride width height : Nat) :
    Decidable (RowsInBuffer data stride width height) := by
  unfold RowsInBuffer
  infer_instance

/-- The reads of the plane copy of `butteraugliGetFrame` stay inside the buffers of both
frames: the first `numPlanes` planes exist in both, and the rows read from each, with the
dimensions and the stride of frame A, lie inside it. -/
def CopyInBounds {K : Type} (src1 src2 : VSFrame K) (numPlanes : Nat) : Prop :=
  ∀ plane, plane < numPlanes →
    ∃ p1 p2, src1.planes[plane]? = some p1 ∧ src2.planes[plane]? = some p2 ∧
      RowsInBuffer p1.data p1.stride src1.width src1.height ∧
      RowsInBuffer p2.data p1.stride src1.width src1.height

/-- The writes of `CreateHeatMapImage` stay inside the three planes of the destination
frame: the frame has planes 0, 1 and 2 and the rows written to each, with the stride of
plane 0, lie inside it. -/
def HeatMapInBounds {K : Type} (dst : VSFrame K) (width height : Nat) : Prop :=
  ∃ pr pg pb, dst.planes[0]? = some pr ∧ dst.planes[1]? = some pg ∧
    dst.planes[2]? = some pb ∧
    RowsInBuffer pr.data pr.stride width height ∧
    RowsInBuffer pg.data pr.stride width height ∧
    RowsInBuffer pb.data pr.stride width height

/-- A host frame of three planes with the given width, height and stride, every byte `v`. -/
def sampleFrame (K : Type) (width height stride : Nat) (v : uint8_t) : VSFrame K :=
  { format := { id := pfRGB24, numPlanes := 3 }, width := width, height := height,
    planes := List.replicate 3 { stride := stride, data := List.replicate (stride * height) v },
    props := [] }

/-- A sample environment: the node of id 1 delivers `frameA` and every other node `frameB`;
`newVideoFrame` gives a frame of the asked format and dimensions whose stride is its width
and which inherits the properties of the source frame; the oracle returns, for `ok`, an
all-zero distortion map of the dimensions of its first input plane and the score `score`,
and fails otherwise. -/
def sampleEnv {K : Type} [LinearOrderedField K] (frameA frameB : VSFrame K) (ok : Bool)
    (score : K) :
    Env K :=
  { getFrameFilter := fun _ node => if node.id = 1 then frameA else frameB
    newVideoFrame := fun fi width height src =>
      { format := fi, width := width, height := height,
        planes := List.replicate fi.numPlanes
          { stride := width, data := List.replicate (width * height) 0 },
        props := src.props }
    ButteraugliInterface := fun linear1 _ _ =>
      match ok, linear1[0]? with
      | true, some img => some (Image.create img.xsize img.ysize 0, score)
      | _, _ => none
    ButteraugliFuzzyInverse := fun x => 3 - x }

/-- The instance data `butteraugliCreate` stores for two RGB24 clips of the given
dimensions, with handles of id 1 and 2. -/
def sampleData (width height : Int) : butteraugliData :=
  { node1 := sampleNode 1 pfRGB24 width height, node2 := sampleNode 2 pfRGB24 width height,
    vi := (sampleNode 1 pfRGB24 width height).vi }

/-- Whether a trace of `butteraugliGetFrame` holds a `setFilterError` call. -/
def filterErrorSet {K : Type} (evs : List (FrameEvent K)) : Bool :=
  evs.any fun e => match e with
    | FrameEvent.setFilterError _ => true
    | _ => false

/-- Three 8-bit planes of two columns and one row. -/
def sampleRgb : List (Image uint8_t) :=
  [ { xsize := 2, ysize := 1, rows := [[0, 255]] },
    { xsize := 2, ysize := 1, rows := [[10, 11]] },
    { xsize := 2, ysize := 1, rows := [[128, 64]] } ]

/-- A host frame of three planes of the given width, height and stride, each plane holding
the bytes `data`. -/
def sampleFrameOf (K : Type) (width height stride : Nat) (data : List uint8_t) : VSFrame K :=
  { format := { id := pfRGB24, numPlanes := 3 }, width := width, height := height,
    planes := List.replicate 3 { stride := stride, data := data },
    props := [] }

/-! ## Theorems -/

/-! ### Rounding to a binary floating-point format -/

theorem round_half_even_of_near {K : Type} [LinearOrderedField K] [FloorRing K] (q : K)
    (n : Int) (h1 : (n : K) - 1 / 2 < q) (h2 : q < (n : K) + 1 / 2) :
    round_half_even q = n := by
  unfold round_half_even
  by_cases hq : (n : K) ≤ q
  · have hf : ⌊q⌋ = n := Int.floor_eq_iff.2 ⟨hq, by linarith⟩
    rw [hf, if_pos (by linarith)]
  · have hq2 : q < (n : K) := lt_of_not_le hq
    have hf : ⌊q⌋ = n - 1 := by
      apply Int.floor_eq_iff.2
      push_cast
      constructor <;> linarith
    rw [hf]
    push_cast
    rw [if_neg (by linarith), if_pos (by linarith)]
    ring

theorem round_half_even_tie {K : Type} [LinearOrderedField K] [FloorRing K] (q : K)
    (n : Int) (h : q = (n : K) + 1 / 2) :
    round_half_even q = if n % 2 = 0 then n else n + 1 := by
  unfold round_half_even
  have hf : ⌊q⌋ = n := Int.floor_eq_iff.2 ⟨by linarith, by linarith⟩
  rw [hf, if_neg (by linarith), if_neg (by linarith)]

theorem round_half_even_bounds {K : Type} [LinearOrderedField K] [FloorRing K] (q : K) :
    ⌊q⌋ ≤ round_half_even q ∧ round_half_even q ≤ ⌊q⌋ + 1 := by
  unfold round_half_even
  split_ifs <;> constructor <;> omega

theorem round_half_even_intCast {K : Type} [LinearOrderedField K] [FloorRing K] (n : Int) :
    round_half_even (n : K) = n :=
  round_half_even_of_near _ n (by linarith) (by linarith)

theorem round_half_even_mono {K : Type} [LinearOrderedField K] [FloorRing K] (q1 q2 : K)
    (h : q1 ≤ q2) : round_half_even q1 ≤ round_half_even q2 := by
  have hfl : ⌊q1⌋ ≤ ⌊q2⌋ := Int.floor_mono h
  rcases lt_or_eq_of_le hfl with hlt | heq
  · have b1 := (round_half_even_bounds q1).2
    have b2 := (round_half_even_bounds q2).1
    omega
  · unfold round_half_even
    rw [← heq]
    have hr : q1 - (⌊q1⌋ : K) ≤ q2 - (⌊q1⌋ : K) := by linarith
    split_ifs <;> first | omega | (exfalso; linarith)

theorem round_to_format_eval {K : Type} [LinearOrderedField K] [FloorRing K] (p : Nat)
    (emin : Int) (x : K) (e n : Int) (h1 : (2 : K) ^ e ≤ |x|) (h2 : |x| < (2 : K) ^ (e + 1))
    (he : emin ≤ e) (hn : round_half_even (x / (2 : K) ^ (e - ((p : Int) - 1))) = n) :
    round_to_format p emin x = (n : K) * (2 : K) ^ (e - ((p : Int) - 1)) := by
  have hpos : 0 < |x| := lt_of_lt_of_le (zpow_pos (by norm_num) e) h1
  have hlog : Int.log 2 |x| = e := by
    have a : e ≤ Int.log 2 |x| :=
      (Int.zpow_le_iff_le_log (by norm_num) hpos).1 (by simpa using h1)
    have b : Int.log 2 |x| < e + 1 :=
      (Int.lt_zpow_iff_log_lt (by norm_num) hpos).1 (by simpa using h2)
    omega
  unfold round_to_format
  simp only [hlog, max_eq_left he, hn]

theorem round_to_format_zero {K : Type} [LinearOrderedField K] [FloorRing K] (p : Nat)
    (emin : Int) : round_to_format p emin (0 : K) = 0 := by
  unfold round_to_format
  simp only [zero_div]
  have h : round_half_even (0 : K) = 0 := by
    have := round_half_even_intCast (K := K) 0
    simpa using this
  rw [h]
  simp

theorem round_to_format_nonneg {K : Type} [LinearOrderedField K] [FloorRing K] (p : Nat)
    (emin : Int) (x : K) (hx : 0 ≤ x) : 0 ≤ round_to_format p emin x := by
  unfold round_to_format
  have hu : (0 : K) < (2 : K) ^ (max (Int.log 2 |x|) emin - ((p : Int) - 1)) :=
    zpow_pos (by norm_num) _
  have hq : (0 : K) ≤ x / (2 : K) ^ (max (Int.log 2 |x|) emin - ((p : Int) - 1)) :=
    div_nonneg hx hu.le
  have h0 : (0 : Int)
      ≤ round_half_even (x / (2 : K) ^ (max (Int.log 2 |x|) emin - ((p : Int) - 1))) :=
    le_trans (Int.floor_nonneg.2 hq) (round_half_even_bounds _).1
  exact mul_nonneg (by exact_mod_cast h0) hu.le

theorem round_to_format_mono {K : Type} [LinearOrderedField K] [FloorRing K] (p : Nat)
    (emin : Int) (hp : 1 ≤ p) (x y : K) (hx : 0 ≤ x) (hxy : x ≤ y) :
    round_to_format p emin x ≤ round_to_format p emin y := by
  rcases eq_or_lt_of_le hx with h0 | hpos
  · rw [← h0, round_to_format_zero]
    exact round_to_format_nonneg p emin y (le_trans hx hxy)
  have hypos : 0 < y := lt_of_lt_of_le hpos hxy
  have hlog : Int.log 2 x ≤ Int.log 2 y := Int.log_mono_right hpos hxy
  have h2 : (0 : K) < 2 := by norm_num
  have h2' : (1 : K) ≤ 2 := by norm_num
  unfold round_to_format
  rw [abs_of_pos hpos, abs_of_pos hypos]
  rcases eq_or_lt_of_le (max_le_max hlog (le_refl emin)) with heq | hlt
  · rw [← heq]
    have hu : (0 : K) < (2 : K) ^ (max (Int.log 2 x) emin - ((p : Int) - 1)) :=
      zpow_pos h2 _
    have hq := round_half_even_mono _ _ (div_le_div_of_nonneg_right hxy hu.le)
    exact mul_le_mul_of_nonneg_right (by exact_mod_cast hq) hu.le
  · -- the exponents differ: a power of two lies between the two roundings
    have hey : max (Int.log 2 y) emin = Int.log 2 y := by
      rcases le_total (Int.log 2 y) emin with h | h
      · exfalso
        rw [max_eq_right h] at hlt
        have := le_max_right (Int.log 2 x) emin
        omega
      · exact max_eq_left h
    rw [hey] at hlt ⊢
    set ex := max (Int.log 2 x) emin with hex
    set ey := Int.log 2 y with hey2
    have hux : (0 : K) < (2 : K) ^ (ex - ((p : Int) - 1)) := zpow_pos h2 _
    have huy : (0 : K) < (2 : K) ^ (ey - ((p : Int) - 1)) := zpow_pos h2 _
    -- upper bound for x
    have hxlt : x < (2 : K) ^ (ex + 1) := by
      have h1 : x < (2 : K) ^ (Int.log 2 x + 1) := by
        simpa using Int.lt_zpow_succ_log_self (b := 2) (by norm_num) x
      refine lt_of_lt_of_le h1 (zpow_le_zpow_right₀ h2' ?_)
      have := le_max_left (Int.log 2 x) emin
      omega
    have hqx : x / (2 : K) ^ (ex - ((p : Int) - 1)) ≤ (((2 : Int) ^ p : Int) : K) := by
      rw [div_le_iff₀ hux]
      push_cast
      rw [← zpow_natCast, ← zpow_add₀ (by norm_num : (2 : K) ≠ 0)]
      have : (p : Int) + (ex - ((p : Int) - 1)) = ex + 1 := by ring
      rw [this]
      exact hxlt.le
    have hrx : round_half_even (x / (2 : K) ^ (ex - ((p : Int) - 1))) ≤ (2 : Int) ^ p := by
      have := round_half_even_mono _ _ hqx
      rwa [round_half_even_intCast] at this
    have hRx : (round_half_even (x / (2 : K) ^ (ex - ((p : Int) - 1))) : K)
        * (2 : K) ^ (ex - ((p : Int) - 1)) ≤ (2 : K) ^ (ex + 1) := by
      have h3 : ((round_half_even (x / (2 : K) ^ (ex - ((p : Int) - 1))) : Int) : K)
          ≤ (((2 : Int) ^ p : Int) : K) := by exact_mod_cast hrx
      calc _ ≤ (((2 : Int) ^ p : Int) : K) * (2 : K) ^ (ex - ((p : Int) - 1)) :=
            mul_le_mul_of_nonneg_right h3 hux.le
        _ = (2 : K) ^ (ex + 1) := by
            push_cast
            rw [← zpow_natCast, ← zpow_add₀ (by norm_num : (2 : K) ≠ 0)]
            congr 1
            ring
    -- lower bound for y
    have hyge : (2 : K) ^ ey ≤ y := by
      simpa using Int.zpow_log_le_self (b := 2) (by norm_num) hypos
    have hqy : (((2 : Int) ^ (p - 1) : Int) : K) ≤ y / (2 : K) ^ (ey - ((p : Int) - 1)) := by
      rw [le_div_iff₀ huy]
      push_cast
      rw [← zpow_natCast, ← zpow_add₀ (by norm_num : (2 : K) ≠ 0)]
      have : ((p - 1 : Nat) : Int) + (ey - ((p : Int) - 1)) = ey := by
        have : ((p - 1 : Nat) : Int) = (p : Int) - 1 := by omega
        rw [this]; ring
      rw [this]
      exact hyge
    have hry : (2 : Int) ^ (p - 1) ≤ round_half_even (y / (2 : K) ^ (ey - ((p : Int) - 1))) := by
      have := round_half_even_mono _ _ hqy
      rwa [round_half_even_intCast] at this
    have hRy : (2 : K) ^ ey ≤ (round_half_even (y / (2 : K) ^ (ey - ((p : Int) - 1))) : K)
        * (2 : K) ^ (ey - ((p : Int) - 1)) := by
      have h3 : (((2 : Int) ^ (p - 1) : Int) : K)
          ≤ ((round_half_even (y / (2 : K) ^ (ey - ((p : Int) - 1))) : Int) : K) := by
        exact_mod_cast hry
      calc (2 : K) ^ ey = (((2 : Int) ^ (p - 1) : Int) : K) * (2 : K) ^ (ey - ((p : Int) - 1)) := by
            push_cast
            rw [← zpow_natCast, ← zpow_add₀ (by norm_num : (2 : K) ≠ 0)]
            congr 1
            have : ((p - 1 : Nat) : Int) = (p : Int) - 1 := by omega
            rw [this]; ring
        _ ≤ _ := mul_le_mul_of_nonneg_right h3 huy.le
    calc _ ≤ (2 : K) ^ (ex + 1) := hRx
      _ ≤ (2 : K) ^ ey := zpow_le_zpow_right₀ h2' (by omega)
      _ ≤ _ := hRy

/-- Entry `i` of the table, for every pow function. -/
theorem NewSrgbToLinearTable_getElem? {K : Type} [LinearOrderedField K] (pow : K → K → K)
    (i : Nat) (hi : i < 256) :
    (NewSrgbToLinearTable pow)[i]? =
      some (255.0 * (if (i : K) / 255.0 ≤ 0.04045 then (i : K) / 255.0 / 12.92
        else pow (((i : K) / 255.0 + 0.055) / 1.055) 2.4)) := by
  rw [NewSrgbToLinearTable, List.getElem?_map, List.getElem?_range hi]
  rfl

theorem NewSrgbToLinearTable_length {K : Type} [LinearOrderedField K] (pow : K → K → K) :
    (NewSrgbToLinearTable pow).length = 256 := by
  rw [NewSrgbToLinearTable, List.length_map, List.length_range]

/-- The linear branch of the table is taken exactly by the indices `0..10`. -/
theorem srgb_branch_iff (i : Nat) : (i : ℝ) / 255.0 ≤ 0.04045 ↔ i ≤ 10 := by
  constructor
  · intro h
    by_contra hcon
    have h11 : (11 : ℝ) ≤ (i : ℝ) := by exact_mod_cast (by omega : 11 ≤ i)
    norm_num at h
    linarith
  · intro h
    have h10 : (i : ℝ) ≤ 10 := by exact_mod_cast h
    norm_num
    linarith

/-- The step across the branch switch: entry 10 (linear branch) is below entry 11
(power branch). -/
theorem srgb_switch_le :
    (10 : ℝ) / 255.0 / 12.92 ≤ Real.rpow (((11 : ℝ) / 255.0 + 0.055) / 1.055) 2.4 := by
  have hx : (0 : ℝ) ≤ ((11 : ℝ) / 255.0 + 0.055) / 1.055 := by norm_num
  have hc : (0 : ℝ) ≤ (10 : ℝ) / 255.0 / 12.92 := by norm_num
  have h1 : Real.rpow (((11 : ℝ) / 255.0 + 0.055) / 1.055) 2.4
      = ((((11 : ℝ) / 255.0 + 0.055) / 1.055) ^ (12 : ℕ)) ^ ((1 : ℝ) / 5) := by
    rw [Real.rpow_eq_pow, ← Real.rpow_natCast, ← Real.rpow_mul hx]
    norm_num
  have h2 : (10 : ℝ) / 255.0 / 12.92 = (((10 : ℝ) / 255.0 / 12.92) ^ (5 : ℕ)) ^ ((1 : ℝ) / 5) := by
    rw [← Real.rpow_natCast, ← Real.rpow_mul hc]
    norm_num
  rw [h1, h2]
  exact Real.rpow_le_rpow (by positivity) (by norm_num) (by norm_num)

/-- Two table values over the reals are ordered as their indices. -/
theorem srgb_entry_mono (i j : Nat) (hij : i ≤ j) :
    (if (i : ℝ) / 255.0 ≤ 0.04045 then (i : ℝ) / 255.0 / 12.92
        else Real.rpow (((i : ℝ) / 255.0 + 0.055) / 1.055) 2.4)
      ≤ (if (j : ℝ) / 255.0 ≤ 0.04045 then (j : ℝ) / 255.0 / 12.92
        else Real.rpow (((j : ℝ) / 255.0 + 0.055) / 1.055) 2.4) := by
  have hijR : (i : ℝ) ≤ (j : ℝ) := by exact_mod_cast hij
  have hi0 : (0 : ℝ) ≤ (i : ℝ) := by positivity
  have hpow : ∀ a b : ℝ, 0 ≤ a → a ≤ b →
      Real.rpow ((a / 255.0 + 0.055) / 1.055) 2.4 ≤ Real.rpow ((b / 255.0 + 0.055) / 1.055) 2.4 := by
    intro a b ha hab
    apply Real.rpow_le_rpow
    · have : 0 ≤ a / 255.0 := by positivity
      positivity
    · have : a / 255.0 ≤ b / 255.0 := by
        apply div_le_div_of_nonneg_right hab; norm_num
      apply div_le_div_of_nonneg_right _ (by norm_num)
      linarith
    · norm_num
  by_cases hi : (i : ℝ) / 255.0 ≤ 0.04045
  · by_cases hj : (j : ℝ) / 255.0 ≤ 0.04045
    · rw [if_pos hi, if_pos hj]
      apply div_le_div_of_nonneg_right _ (by norm_num)
      apply div_le_div_of_nonneg_right hijR (by norm_num)
    · rw [if_pos hi, if_neg hj]
      have hi10 : i ≤ 10 := (srgb_branch_iff i).1 hi
      have hj11 : 11 ≤ j := by
        have := (srgb_branch_iff j).not.1 hj
        omega
      have hiR : (i : ℝ) ≤ 10 := by exact_mod_cast hi10
      have hjR : (11 : ℝ) ≤ (j : ℝ) := by exact_mod_cast hj11
      calc (i : ℝ) / 255.0 / 12.92 ≤ (10 : ℝ) / 255.0 / 12.92 := by
            apply div_le_div_of_nonneg_right _ (by norm_num)
            apply div_le_div_of_nonneg_right hiR (by norm_num)
        _ ≤ Real.rpow (((11 : ℝ) / 255.0 + 0.055) / 1.055) 2.4 := srgb_switch_le
        _ ≤ Real.rpow (((j : ℝ) / 255.0 + 0.055) / 1.055) 2.4 := hpow 11 j (by norm_num) hjR
  · have hj : ¬ (j : ℝ) / 255.0 ≤ 0.04045 := by
      intro hj
      have := (srgb_branch_iff j).1 hj
      have := (srgb_branch_iff i).not.1 hi
      omega
    rw [if_neg hi, if_neg hj]
    exact hpow i j hi0 hijR

/-- Every table value over the reals, before the scaling by 255, lies in `[0, 1]`. -/
theorem srgb_entry_range (i : Nat) (hi : i < 256) :
    0 ≤ (if (i : ℝ) / 255.0 ≤ 0.04045 then (i : ℝ) / 255.0 / 12.92
        else Real.rpow (((i : ℝ) / 255.0 + 0.055) / 1.055) 2.4)
    ∧ (if (i : ℝ) / 255.0 ≤ 0.04045 then (i : ℝ) / 255.0 / 12.92
        else Real.rpow (((i : ℝ) / 255.0 + 0.055) / 1.055) 2.4) ≤ 1 := by
  have hi0 : (0 : ℝ) ≤ (i : ℝ) := by positivity
  have hi255 : (i : ℝ) ≤ 255 := by exact_mod_cast (by omega : i ≤ 255)
  have hd0 : (0 : ℝ) ≤ (i : ℝ) / 255.0 := by positivity
  have hd1 : (i : ℝ) / 255.0 ≤ 1 := by
    rw [div_le_one (by norm_num)]; norm_num; exact_mod_cast hi255
  split_ifs with h
  · constructor
    · positivity
    · rw [div_le_one (by norm_num)]
      linarith
  · have hb0 : (0 : ℝ) ≤ ((i : ℝ) / 255.0 + 0.055) / 1.055 := by positivity
    have hb1 : ((i : ℝ) / 255.0 + 0.055) / 1.055 ≤ 1 := by
      rw [div_le_one (by norm_num)]
      norm_num at hd1 ⊢
      linarith
    exact ⟨Real.rpow_nonneg hb0 _, Real.rpow_le_one hb0 hb1 (by norm_num)⟩

/-- C6: over the reals, entry `i` of the table built by `NewSrgbToLinearTable` is 255 times
the closed-form sRGB transfer function at `i / 255`, for every `i` in `0..255`; entry 0 is 0
and entry 255 is 255. -/
theorem NewSrgbToLinearTable_closed_form (i : Nat) (hi : i < 256) :
    (NewSrgbToLinearTable Real.rpow)[i]? = some (255 * srgbTransfer Real.rpow ((i : ℝ) / 255))
    ∧ (NewSrgbToLinearTable Real.rpow)[0]? = some (0 : ℝ)
    ∧ (NewSrgbToLinearTable Real.rpow)[255]? = some (255 : ℝ) := by
  refine ⟨?_, ?_, ?_⟩
  · rw [NewSrgbToLinearTable_getElem? Real.rpow i hi, srgbTransfer]
    norm_num
  · rw [NewSrgbToLinearTable_getElem? Real.rpow 0 (by norm_num)]
    norm_num
  · rw [NewSrgbToLinearTable_getElem? Real.rpow 255 (by norm_num)]
    norm_num

/-- Witness of C6 at index 17. -/
theorem NewSrgbToLinearTable_closed_form_witness :
    17 < 256 ∧
    ((NewSrgbToLinearTable Real.rpow)[17]?
        = some (255 * srgbTransfer Real.rpow (((17 : Nat) : ℝ) / 255))
      ∧ (NewSrgbToLinearTable Real.rpow)[0]? = some (0 : ℝ)
      ∧ (NewSrgbToLinearTable Real.rpow)[255]? = some (255 : ℝ)) :=
  ⟨by decide, NewSrgbToLinearTable_closed_form 17 (by decide)⟩

/-- C7: over the reals the sRGB-to-linear table is monotonically non-decreasing on the whole
8-bit domain, for all indices `i <= j <= 255` on either side of the branch switch (the
linear branch is taken exactly by the indices up to 10), and every entry lies in
`[0, 255]`. -/
theorem NewSrgbToLinearTable_monotone (i j : Nat) (hij : i ≤ j) (hj : j < 256) :
    ∃ a b : ℝ, (NewSrgbToLinearTable Real.rpow)[i]? = some a
      ∧ (NewSrgbToLinearTable Real.rpow)[j]? = some b
      ∧ a ≤ b ∧ 0 ≤ a ∧ a ≤ 255 ∧ 0 ≤ b ∧ b ≤ 255
      ∧ (((i : ℝ) / 255.0 ≤ 0.04045 ↔ i ≤ 10) ∧ ((j : ℝ) / 255.0 ≤ 0.04045 ↔ j ≤ 10)) := by
  have hi : i < 256 := lt_of_le_of_lt hij hj
  refine ⟨_, _, NewSrgbToLinearTable_getElem? Real.rpow i hi,
    NewSrgbToLinearTable_getElem? Real.rpow j hj, ?_, ?_, ?_, ?_, ?_,
    srgb_branch_iff i, srgb_branch_iff j⟩
  · exact mul_le_mul_of_nonneg_left (srgb_entry_mono i j hij) (by norm_num)
  · exact mul_nonneg (by norm_num) (srgb_entry_range i hi).1
  · calc _ ≤ (255.0 : ℝ) * 1 :=
          mul_le_mul_of_nonneg_left (srgb_entry_range i hi).2 (by norm_num)
      _ = 255 := by norm_num
  · exact mul_nonneg (by norm_num) (srgb_entry_range j hj).1
  · calc _ ≤ (255.0 : ℝ) * 1 :=
          mul_le_mul_of_nonneg_left (srgb_entry_range j hj).2 (by norm_num)
      _ = 255 := by norm_num

/-- Witness of C7 across the branch switch, at indices 10 and 11. -/
theorem NewSrgbToLinearTable_monotone_witness :
    10 ≤ 11 ∧ 11 < 256 ∧
    ∃ a b : ℝ, (NewSrgbToLinearTable Real.rpow)[10]? = some a
      ∧ (NewSrgbToLinearTable Real.rpow)[11]? = some b
      ∧ a ≤ b ∧ 0 ≤ a ∧ a ≤ 255 ∧ 0 ≤ b ∧ b ≤ 255
      ∧ ((((10 : Nat) : ℝ) / 255.0 ≤ 0.04045 ↔ 10 ≤ 10) ∧
          (((11 : Nat) : ℝ) / 255.0 ≤ 0.04045 ↔ 11 ≤ 10)) :=
  ⟨by decide, by decide, NewSrgbToLinearTable_monotone 10 11 (by decide) (by decide)⟩

/-! ### The score remap of `ScoreToRgb` -/

/-- The remap as a function of the distortion is continuous on the whole real line when
`0 < good < bad`. -/
theorem ScoreToRgb_remap_continuous (good bad : ℝ) (hgood : 0 < good) (hlt : good < bad) :
    Continuous (fun d : ℝ => ScoreToRgb_remap d good bad) := by
  have hfun : (fun d : ℝ => ScoreToRgb_remap d good bad) = fun d : ℝ =>
      if good ≤ d then
        (if bad ≤ d then 0.45 + (d - bad) / (bad * 12) * 0.5
          else 0.3 + (d - good) / (bad - good) * 0.15)
      else (d / good) * 0.3 := by
    funext d
    unfold ScoreToRgb_remap
    split_ifs <;> first | rfl | (exfalso; linarith)
  rw [hfun]
  have hne : bad - good ≠ 0 := by linarith
  refine Continuous.if_le ?_ ?_ continuous_const continuous_id ?_
  · refine Continuous.if_le ?_ ?_ continuous_const continuous_id ?_
    · fun_prop
    · fun_prop
    · intro x hx
      simp only [id] at hx
      subst hx
      rw [div_self hne]
      norm_num
  · fun_prop
  · intro x hx
    simp only [id] at hx
    subst hx
    have hx' : ¬ bad ≤ good := by linarith
    rw [if_neg hx', div_self (ne_of_gt hgood)]
    norm_num

/-- C9: for all real thresholds with `0 < good < bad` the score remap at the start of
`ScoreToRgb` sends `d = good` to exactly 0.3 and `d = bad` to exactly 0.45. -/
theorem ScoreToRgb_remap_at_thresholds (good bad : ℝ) (_hgood : 0 < good) (hlt : good < bad) :
    ScoreToRgb_remap good good bad = 0.3 ∧ ScoreToRgb_remap bad good bad = 0.45 := by
  constructor
  · simp [ScoreToRgb_remap, hlt]
  · have h : ¬ bad < good := by linarith
    simp [ScoreToRgb_remap, h]

/-- Witness of C9 at the thresholds 1 and 2. -/
theorem ScoreToRgb_remap_at_thresholds_witness :
    (0 : ℝ) < 1 ∧ (1 : ℝ) < 2 ∧
    ScoreToRgb_remap (1 : ℝ) 1 2 = 0.3 ∧ ScoreToRgb_remap (2 : ℝ) 1 2 = 0.45 :=
  ⟨by norm_num, by norm_num, ScoreToRgb_remap_at_thresholds 1 2 (by norm_num) (by norm_num)⟩

/-- C10: for all real thresholds with `0 < good < bad` the score remap of `ScoreToRgb`, as a
function of the distortion `d`, is continuous at `d = good` and at `d = bad`; the branch
below each threshold tends, from the left, to the value the remap takes at the threshold. -/
theorem ScoreToRgb_remap_continuous_at_thresholds (good bad : ℝ) (hgood : 0 < good)
    (hlt : good < bad) :
    ContinuousAt (fun d : ℝ => ScoreToRgb_remap d good bad) good
    ∧ ContinuousAt (fun d : ℝ => ScoreToRgb_remap d good bad) bad
    ∧ Filter.Tendsto (fun d : ℝ => (d / good) * 0.3) (nhdsWithin good (Set.Iio good))
        (nhds (ScoreToRgb_remap good good bad))
    ∧ Filter.Tendsto (fun d : ℝ => 0.3 + (d - good) / (bad - good) * 0.15)
        (nhdsWithin bad (Set.Iio bad)) (nhds (ScoreToRgb_remap bad good bad)) := by
  have hc := ScoreToRgb_remap_continuous good bad hgood hlt
  refine ⟨hc.continuousAt, hc.continuousAt, ?_, ?_⟩
  · have hval : ScoreToRgb_remap good good bad = (good / good) * 0.3 := by
      rw [div_self (ne_of_gt hgood)]
      simp [ScoreToRgb_remap, hlt]
    rw [hval]
    have hcont : Continuous (fun d : ℝ => (d / good) * 0.3) := by fun_prop
    exact hcont.continuousAt.tendsto.mono_left nhdsWithin_le_nhds
  · have hne : bad - good ≠ 0 := by linarith
    have h : ¬ bad < good := by linarith
    have hval : ScoreToRgb_remap bad good bad = 0.3 + (bad - good) / (bad - good) * 0.15 := by
      rw [div_self hne]
      simp [ScoreToRgb_remap, h]
      norm_num
    rw [hval]
    have hcont : Continuous (fun d : ℝ => 0.3 + (d - good) / (bad - good) * 0.15) := by fun_prop
    exact hcont.continuousAt.tendsto.mono_left nhdsWithin_le_nhds

/-- Witness of C10 at the thresholds 1 and 2. -/
theorem ScoreToRgb_remap_continuous_at_thresholds_witness :
    (0 : ℝ) < 1 ∧ (1 : ℝ) < 2 ∧
    ContinuousAt (fun d : ℝ => ScoreToRgb_remap d 1 2) 1
    ∧ ContinuousAt (fun d : ℝ => ScoreToRgb_remap d 1 2) 2
    ∧ Filter.Tendsto (fun d : ℝ => (d / 1) * 0.3) (nhdsWithin 1 (Set.Iio 1))
        (nhds (ScoreToRgb_remap (1 : ℝ) 1 2))
    ∧ Filter.Tendsto (fun d : ℝ => 0.3 + (d - 1) / (2 - 1) * 0.15)
        (nhdsWithin 2 (Set.Iio 2)) (nhds (ScoreToRgb_remap (2 : ℝ) 1 2)) :=
  ⟨by norm_num, by norm_num,
    ScoreToRgb_remap_continuous_at_thresholds 1 2 (by norm_num) (by norm_num)⟩

/-! ### Loops and planar images -/

theorem forLoop_zero {σ : Type} (body : Nat → σ → Option σ) (s : σ) :
    forLoop 0 body s = some s := rfl

theorem forLoop_succ {σ : Type} (n : Nat) (body : Nat → σ → Option σ) (s : σ) :
    forLoop (n + 1) body s = (forLoop n body s).bind (body n) := by
  unfold forLoop
  rw [List.range_succ, List.foldlM_append]
  cases h : List.foldlM (fun st i => body i st) s (List.range n) with
  | none => rfl
  | some st => simp [List.foldlM_cons, List.foldlM_nil]

/-- Loop invariant rule: an invariant that holds at the start and is carried by every
iteration, each of which succeeds, holds at the end of the loop, which succeeds. -/
theorem forLoop_inv {σ : Type} (P : Nat → σ → Prop) (n : Nat) (body : Nat → σ → Option σ)
    (s : σ) (h0 : P 0 s)
    (hstep : ∀ i st, i < n → P i st → ∃ st2, body i st = some st2 ∧ P (i + 1) st2) :
    ∃ st2, forLoop n body s = some st2 ∧ P n st2 := by
  induction n with
  | zero => exact ⟨s, rfl, h0⟩
  | succ k ih =>
    obtain ⟨st, hst, hP⟩ := ih (fun i st hi hp => hstep i st (Nat.lt_succ_of_lt hi) hp)
    obtain ⟨st2, hb, hP2⟩ := hstep k st (Nat.lt_succ_self k) hP
    exact ⟨st2, by rw [forLoop_succ, hst]; exact hb, hP2⟩

theorem Image.HasShape.row {α : Type} {img : Image α} {xs ys y : Nat}
    (h : img.HasShape xs ys) (hy : y < ys) :
    ∃ row, img.rows[y]? = some row ∧ row.length = xs := by
  obtain ⟨_, _, hlen, hrows⟩ := h
  have hy2 : y < img.rows.length := by omega
  exact ⟨img.rows[y], List.getElem?_eq_getElem hy2, hrows _ (List.getElem_mem hy2)⟩

theorem Image.create_hasShape {α : Type} (xs ys : Nat) (fill : α) :
    (Image.create xs ys fill).HasShape xs ys := by
  refine ⟨rfl, rfl, by simp [Image.create], ?_⟩
  intro row hrow
  simp only [Image.create, List.mem_replicate] at hrow
  rw [hrow.2, List.length_replicate]

theorem Image.get_of_hasShape {α : Type} {img : Image α} {xs ys y x : Nat}
    (h : img.HasShape xs ys) (hy : y < ys) (hx : x < xs) :
    ∃ v, img.get y x = some v := by
  obtain ⟨row, hrow, hlen⟩ := h.row hy
  have hx2 : x < row.length := by omega
  exact ⟨row[x], by simp [Image.get, hrow, List.getElem?_eq_getElem hx2]⟩

theorem Image.set_spec {α : Type} {img : Image α} {xs ys y x : Nat}
    (h : img.HasShape xs ys) (hy : y < ys) (hx : x < xs) (v : α) :
    ∃ img2, img.set y x v = some img2 ∧ img2.HasShape xs ys ∧
      ∀ y2 x2, img2.get y2 x2 = if y2 = y ∧ x2 = x then some v else img.get y2 x2 := by
  obtain ⟨row, hrow, hlen⟩ := h.row hy
  have hx2 : x < row.length := by omega
  obtain ⟨h1, h2, h3, h4⟩ := h
  have hy2 : y < img.rows.length := by omega
  refine ⟨{ img with rows := img.rows.set y (row.set x v) }, ?_, ?_, ?_⟩
  · simp [Image.set, hrow, hx2]
  · refine ⟨h1, h2, by simp [h3], ?_⟩
    intro r hr
    rcases List.mem_or_eq_of_mem_set hr with hr2 | hr2
    · exact h4 r hr2
    · rw [hr2, List.length_set]; exact hlen
  · intro y2 x2
    simp only [Image.get, List.getElem?_set]
    by_cases hy3 : y = y2
    · subst hy3
      simp only [if_pos, hy2, hrow, Option.bind_some, List.getElem?_set, true_and]
      by_cases hx3 : x = x2
      · subst hx3
        simp [hx2]
      · have hx4 : ¬ x2 = x := fun h => hx3 h.symm
        simp [hx3, hx4]
    · have hy4 : ¬ y2 = y := fun h => hy3 h.symm
      simp [hy3, hy4]

theorem planesSet_spec {α : Type} {planes : List (Image α)} {xs ys c y x : Nat}
    (hc : c < planes.length) (hs : ∀ im ∈ planes, im.HasShape xs ys)
    (hy : y < ys) (hx : x < xs) (v : α) :
    ∃ p2, planesSet planes c y x v = some p2 ∧ p2.length = planes.length ∧
      (∀ im ∈ p2, im.HasShape xs ys) ∧
      ∀ c2 y2 x2, planesGet p2 c2 y2 x2 =
        if c2 = c ∧ y2 = y ∧ x2 = x then some v else planesGet planes c2 y2 x2 := by
  have himg : planes[c]? = some planes[c] := List.getElem?_eq_getElem hc
  obtain ⟨img2, hset, hshape, hget⟩ :=
    Image.set_spec (hs _ (List.getElem_mem hc)) hy hx v
  refine ⟨planes.set c img2, ?_, List.length_set _ _ _, ?_, ?_⟩
  · simp [planesSet, himg, hset]
  · intro im him
    rcases List.mem_or_eq_of_mem_set him with h | h
    · exact hs im h
    · rw [h]; exact hshape
  · intro c2 y2 x2
    simp only [planesGet, List.getElem?_set]
    by_cases hc3 : c = c2
    · subst hc3
      simp only [if_pos, hc, himg, Option.bind_some, hget, true_and, Option.some_bind]
    · have hc4 : ¬ c2 = c := fun h => hc3 h.symm
      simp [hc3, hc4]

/-! ### `FromSrgbToLinear` -/

theorem FromSrgbToLinear_row_spec {K : Type} [LinearOrderedField K] [FloorRing K]
    (tbl : List K)
    (htbl : tbl.length = 256) (row_rgb : List uint8_t) {xs ys c y : Nat}
    (hrow : row_rgb.length = xs) (linear : List (Image K)) (hc : c < linear.length)
    (hs : ∀ im ∈ linear, im.HasShape xs ys) (hy : y < ys) :
    ∃ l2, FromSrgbToLinear_row tbl row_rgb xs c y linear = some l2 ∧
      l2.length = linear.length ∧ (∀ im ∈ l2, im.HasShape xs ys) ∧
      ∀ c2 y2 x2, planesGet l2 c2 y2 x2 =
        if c2 = c ∧ y2 = y ∧ x2 < xs then
          (row_rgb[x2]?).bind (fun v => (tbl[v.val]?).map static_cast_float)
        else planesGet linear c2 y2 x2 := by
  unfold FromSrgbToLinear_row
  apply forLoop_inv (fun x (st : List (Image K)) =>
      st.length = linear.length ∧ (∀ im ∈ st, im.HasShape xs ys) ∧
      ∀ c2 y2 x2, planesGet st c2 y2 x2 =
        if c2 = c ∧ y2 = y ∧ x2 < x then
          (row_rgb[x2]?).bind (fun v => (tbl[v.val]?).map static_cast_float)
        else planesGet linear c2 y2 x2)
  · refine ⟨rfl, hs, ?_⟩
    intro c2 y2 x2
    simp
  · intro i st hi ⟨hlen, hshape, hget⟩
    have hi2 : i < row_rgb.length := by omega
    have hval : row_rgb[i]? = some row_rgb[i] := List.getElem?_eq_getElem hi2
    have hidx : (row_rgb[i]).val < tbl.length := by rw [htbl]; exact (row_rgb[i]).isLt
    have hent : tbl[(row_rgb[i]).val]? = some tbl[(row_rgb[i]).val] :=
      List.getElem?_eq_getElem hidx
    obtain ⟨p2, hp2, hlen2, hshape2, hget2⟩ :=
      planesSet_spec (by omega : c < st.length) hshape hy hi
        (static_cast_float tbl[(row_rgb[i]).val])
    refine ⟨p2, ?_, by omega, hshape2, ?_⟩
    · simp only [hval, hent, hp2]
    · intro c2 y2 x2
      rw [hget2, hget]
      by_cases h1 : c2 = c ∧ y2 = y ∧ x2 = i
      · obtain ⟨rfl, rfl, rfl⟩ := h1
        simp [hval, hent]
      · rw [if_neg h1]
        by_cases h2 : c2 = c ∧ y2 = y ∧ x2 < i
        · have h3 : c2 = c ∧ y2 = y ∧ x2 < i + 1 := ⟨h2.1, h2.2.1, by omega⟩
          rw [if_pos h2, if_pos h3]
        · have h3 : ¬ (c2 = c ∧ y2 = y ∧ x2 < i + 1) := by
            rintro ⟨a, b, d⟩
            by_cases h4 : x2 = i
            · exact h1 ⟨a, b, h4⟩
            · exact h2 ⟨a, b, by omega⟩
          rw [if_neg h2, if_neg h3]

theorem FromSrgbToLinear_plane_spec {K : Type} [LinearOrderedField K] [FloorRing K]
    (tbl : List K)
    (htbl : tbl.length = 256) (rgb : List (Image uint8_t)) (img : Image uint8_t)
    {xs ys c : Nat} (hrgb : rgb[c]? = some img) (himg : img.HasShape xs ys)
    (linear : List (Image K)) (hc : c < linear.length)
    (hs : ∀ im ∈ linear, im.HasShape xs ys) :
    ∃ l2, FromSrgbToLinear_plane tbl rgb xs ys c linear = some l2 ∧
      l2.length = linear.length ∧ (∀ im ∈ l2, im.HasShape xs ys) ∧
      ∀ c2 y2 x2, planesGet l2 c2 y2 x2 =
        if c2 = c ∧ y2 < ys ∧ x2 < xs then
          (img.get y2 x2).bind (fun v => (tbl[v.val]?).map static_cast_float)
        else planesGet linear c2 y2 x2 := by
  unfold FromSrgbToLinear_plane
  apply forLoop_inv (fun y (st : List (Image K)) =>
      st.length = linear.length ∧ (∀ im ∈ st, im.HasShape xs ys) ∧
      ∀ c2 y2 x2, planesGet st c2 y2 x2 =
        if c2 = c ∧ y2 < y ∧ x2 < xs then
          (img.get y2 x2).bind (fun v => (tbl[v.val]?).map static_cast_float)
        else planesGet linear c2 y2 x2)
  · refine ⟨rfl, hs, ?_⟩
    intro c2 y2 x2
    simp
  · intro i st hi ⟨hlen, hshape, hget⟩
    obtain ⟨row, hrow, hrowlen⟩ := himg.row hi
    obtain ⟨l2, hl2, hlen2, hshape2, hget2⟩ :=
      FromSrgbToLinear_row_spec tbl htbl row hrowlen st (by omega : c < st.length) hshape hi
    refine ⟨l2, ?_, by omega, hshape2, ?_⟩
    · simp only [hrgb, hrow, hl2]
    · intro c2 y2 x2
      rw [hget2, hget]
      by_cases h1 : c2 = c ∧ y2 = i ∧ x2 < xs
      · obtain ⟨rfl, rfl, hx⟩ := h1
        have h3 : c2 = c2 ∧ y2 < y2 + 1 ∧ x2 < xs := ⟨rfl, by omega, hx⟩
        rw [if_pos ⟨rfl, rfl, hx⟩, if_pos h3]
        simp [Image.get, hrow]
      · rw [if_neg h1]
        by_cases h2 : c2 = c ∧ y2 < i ∧ x2 < xs
        · have h3 : c2 = c ∧ y2 < i + 1 ∧ x2 < xs := ⟨h2.1, by omega, h2.2.2⟩
          rw [if_pos h2, if_pos h3]
        · have h3 : ¬ (c2 = c ∧ y2 < i + 1 ∧ x2 < xs) := by
            rintro ⟨a, b, d⟩
            by_cases h4 : y2 = i
            · exact h1 ⟨a, h4, d⟩
            · exact h2 ⟨a, by omega, d⟩
          rw [if_neg h2, if_neg h3]

/-- What `FromSrgbToLinear` computes from three planes of one shape, whatever the table's
pow function: it succeeds, leaves `rgb` as it was, appends three planes of that shape to
`linear`, and sample `(c, y, x)` of the appended planes is the table entry indexed by the
input sample, converted to `float`. -/
theorem FromSrgbToLinear_spec {K : Type} [LinearOrderedField K] [FloorRing K]
    (pow : K → K → K) (rgb : List (Image uint8_t)) (xs ys : Nat) (hlen : rgb.length = 3)
    (hshape : ∀ im ∈ rgb, im.HasShape xs ys) (background : Int) :
    ∃ linear, FromSrgbToLinear pow rgb [] background = some (rgb, linear) ∧
      linear.length = 3 ∧ (∀ im ∈ linear, im.HasShape xs ys) ∧
      ∀ c y x, c < 3 → y < ys → x < xs →
        planesGet linear c y x =
          (planesGet rgb c y x).bind
            (fun v => ((NewSrgbToLinearTable pow)[v.val]?).map static_cast_float) := by
  have h0 : rgb[0]? = some rgb[0] := List.getElem?_eq_getElem (by omega)
  have hs0 : (rgb[0]).HasShape xs ys := hshape _ (List.getElem_mem (by omega))
  have hloop : ∃ st, forLoop 3 (fun c (st : List (Image uint8_t) × List (Image K)) =>
        match FromSrgbToLinear_plane (NewSrgbToLinearTable pow) st.1 xs ys c
            (st.2 ++ [Image.create xs ys 0]) with
        | none => none
        | some linear => some (st.1, linear)) (rgb, []) = some st ∧
      (st.1 = rgb ∧ st.2.length = 3 ∧ (∀ im ∈ st.2, im.HasShape xs ys) ∧
      ∀ c2 y x, c2 < 3 → y < ys → x < xs →
        planesGet st.2 c2 y x =
          (planesGet rgb c2 y x).bind
            (fun v => ((NewSrgbToLinearTable pow)[v.val]?).map static_cast_float)) := by
    apply forLoop_inv (fun c (st : List (Image uint8_t) × List (Image K)) =>
        st.1 = rgb ∧ st.2.length = c ∧ (∀ im ∈ st.2, im.HasShape xs ys) ∧
        ∀ c2 y x, c2 < c → y < ys → x < xs →
          planesGet st.2 c2 y x =
            (planesGet rgb c2 y x).bind
              (fun v => ((NewSrgbToLinearTable pow)[v.val]?).map static_cast_float))
    · refine ⟨rfl, rfl, by simp, ?_⟩
      intro c2 y x hc2
      omega
    · rintro i ⟨st1, st⟩ hi ⟨hst1, hlen2, hshape2, hget⟩
      simp only at hst1 hlen2 hshape2 hget
      subst hst1
      have hci : st1[i]? = some st1[i] := List.getElem?_eq_getElem (by omega)
      have hsi : (st1[i]).HasShape xs ys := hshape _ (List.getElem_mem (by omega))
      have hshape3 : ∀ im ∈ st ++ [Image.create xs ys (0 : K)], im.HasShape xs ys := by
        intro im him
        rcases List.mem_append.1 him with h | h
        · exact hshape2 im h
        · rw [List.mem_singleton.1 h]; exact Image.create_hasShape xs ys 0
      obtain ⟨l2, hl2, hlen3, hshape4, hget2⟩ :=
        FromSrgbToLinear_plane_spec (NewSrgbToLinearTable pow)
          (NewSrgbToLinearTable_length pow) st1 (st1[i]) hci hsi
          (st ++ [Image.create xs ys (0 : K)]) (by simp [hlen2]) hshape3
      refine ⟨(st1, l2), by simp only [hl2], rfl, by simp [hlen3, hlen2], hshape4, ?_⟩
      intro c2 y x hc2 hy hx
      show planesGet l2 c2 y x = _
      rw [hget2]
      by_cases h1 : c2 = i
      · subst h1
        rw [if_pos ⟨rfl, hy, hx⟩]
        simp [planesGet, hci]
      · have h2 : ¬ (c2 = i ∧ y < ys ∧ x < xs) := fun h => h1 h.1
        rw [if_neg h2, ← hget c2 y x (by omega) hy hx]
        simp only [planesGet]
        rw [List.getElem?_append_left (by omega)]
  obtain ⟨⟨st1, linear⟩, hrun, hst1, hl, hs, hget⟩ := hloop
  simp only at hst1 hl hs hget
  subst hst1
  refine ⟨linear, ?_, hl, hs, hget⟩
  unfold FromSrgbToLinear
  simp only [h0, hs0.1, hs0.2.1]
  exact hrun

/-! ### `butteraugliCreate` -/

/-- The trace of `butteraugliCreate` on an acceptable input. -/
theorem butteraugliCreate_of_acceptable (inp : VSMapIn) (h : acceptable inp) :
    butteraugliCreate inp = some
      [SetupEvent.propGetNode "clipa" inp.clipa, SetupEvent.propGetNode "clipb" inp.clipb,
       SetupEvent.malloc { node1 := inp.clipa, node2 := inp.clipb, vi := inp.clipa.vi },
       SetupEvent.createFilter "Butteraugli"
         { node1 := inp.clipa, node2 := inp.clipb, vi := inp.clipa.vi }] := by
  obtain ⟨⟨hw, hh, hf⟩, ⟨hw2, hh2, hf2⟩, hid⟩ := h
  cases hfmt : inp.clipa.vi.format with
  | none => exact absurd hfmt hf
  | some format =>
    rw [hfmt] at hid
    simp only [Option.map_some', Option.some.injEq] at hid
    simp [butteraugliCreate, isConstantFormat, isSameFormat, hw, hh, hfmt, hw2, hh2, hf2, hid]

/-- The trace of `butteraugliCreate` on an input that is not acceptable: one `setError`
and the release of both handles. -/
theorem butteraugliCreate_of_not_acceptable (inp : VSMapIn) (h : ¬ acceptable inp) :
    ∃ msg, butteraugliCreate inp = some
      [SetupEvent.propGetNode "clipa" inp.clipa, SetupEvent.propGetNode "clipb" inp.clipb,
       SetupEvent.setError msg, SetupEvent.freeNode inp.clipa,
       SetupEvent.freeNode inp.clipb] := by
  by_cases hc : (!isConstantFormat inp.clipa.vi || !isSameFormat inp.clipa.vi inp.clipb.vi) = true
  · refine ⟨"butteraugli: both clips must have constant format and dimensions, and the same format and dimensions", ?_⟩
    simp only [butteraugliCreate, hc, if_true, List.cons_append, List.nil_append]
  · cases hfmt : inp.clipa.vi.format with
    | none =>
      exfalso
      apply hc
      simp [isConstantFormat, hfmt]
    | some format =>
      by_cases hid : format.id = pfRGB24
      · exfalso
        apply h
        simp only [Bool.or_eq_true, Bool.not_eq_true', not_or, Bool.not_eq_false] at hc
        obtain ⟨h1, h2⟩ := hc
        simp only [isConstantFormat, isSameFormat, Bool.and_eq_true, decide_eq_true_eq] at h1 h2
        refine ⟨⟨h1.1.2, h1.1.1, by simp [hfmt]⟩, ⟨h2.1.2.symm, h2.1.1.symm, h2.2.symm⟩, ?_⟩
        simp [hfmt, hid]
      · refine ⟨"butteraugli: only RGB24 clip supported", ?_⟩
        simp [butteraugliCreate, hc, hfmt, hid]

/-- Two RGB24 clips of 4 by 4: the filter is created and no handle is released. -/
theorem butteraugliCreate_sample_accepted :
    butteraugliCreate { clipa := sampleNode 1 pfRGB24 4 4, clipb := sampleNode 2 pfRGB24 4 4 }
      = some
        [SetupEvent.propGetNode "clipa" (sampleNode 1 pfRGB24 4 4),
         SetupEvent.propGetNode "clipb" (sampleNode 2 pfRGB24 4 4),
         SetupEvent.malloc (sampleData 4 4),
         SetupEvent.createFilter "Butteraugli" (sampleData 4 4)] := by
  decide

/-- Two RGB24 clips of different heights: an error is set and both handles are released. -/
theorem butteraugliCreate_sample_mismatch :
    butteraugliCreate { clipa := sampleNode 1 pfRGB24 4 4, clipb := sampleNode 2 pfRGB24 4 5 }
      = some
        [SetupEvent.propGetNode "clipa" (sampleNode 1 pfRGB24 4 4),
         SetupEvent.propGetNode "clipb" (sampleNode 2 pfRGB24 4 5),
         SetupEvent.setError
           "butteraugli: both clips must have constant format and dimensions, and the same format and dimensions",
         SetupEvent.freeNode (sampleNode 1 pfRGB24 4 4),
         SetupEvent.freeNode (sampleNode 2 pfRGB24 4 5)] := by
  decide

/-- Two clips of one format that is not RGB24: an error is set and both handles are
released. -/
theorem butteraugliCreate_sample_not_rgb24 :
    butteraugliCreate { clipa := sampleNode 1 3000010 4 4, clipb := sampleNode 2 3000010 4 4 }
      = some
        [SetupEvent.propGetNode "clipa" (sampleNode 1 3000010 4 4),
         SetupEvent.propGetNode "clipb" (sampleNode 2 3000010 4 4),
         SetupEvent.setError "butteraugli: only RGB24 clip supported",
         SetupEvent.freeNode (sampleNode 1 3000010 4 4),
         SetupEvent.freeNode (sampleNode 2 3000010 4 4)] := by
  decide

/-- C1: `butteraugliCreate` creates the filter if and only if clip A has constant format and
dimensions (width > 0, height > 0, format known), clip B has the same width, height and
format, and the format id is `pfRGB24`; on every other input it sets an error on the output
map and creates no filter. -/
theorem butteraugliCreate_creates_iff (inp : VSMapIn) :
    ∃ evs, butteraugliCreate inp = some evs ∧
      (filterCreated evs = true ↔ acceptable inp) ∧
      (errorSet evs = true ↔ ¬ acceptable inp) := by
  by_cases h : acceptable inp
  · refine ⟨_, butteraugliCreate_of_acceptable inp h, ?_, ?_⟩
    · simp [filterCreated, h]
    · simp [errorSet, h]
  · obtain ⟨msg, hmsg⟩ := butteraugliCreate_of_not_acceptable inp h
    refine ⟨_, hmsg, ?_, ?_⟩
    · simp [filterCreated, h]
    · simp [errorSet, h]

/-- C2: on every rejection path of `butteraugliCreate` the `freeNode` calls are exactly one
for the handle of `clipa` and one for the handle of `clipb` (each handle once when the two
are distinct handles), no instance data is allocated and no filter retains it; on the
accepting path `butteraugliCreate` releases no handle. -/
theorem butteraugliCreate_releases_handles (inp : VSMapIn) :
    ∃ evs, butteraugliCreate inp = some evs ∧
      (¬ acceptable inp →
        releasedNodes evs = [inp.clipa, inp.clipb] ∧
        (inp.clipa ≠ inp.clipb →
          evs.count (SetupEvent.freeNode inp.clipa) = 1 ∧
          evs.count (SetupEvent.freeNode inp.clipb) = 1) ∧
        dataAllocated evs = false ∧ filterCreated evs = false) ∧
      (acceptable inp → releasedNodes evs = []) := by
  by_cases h : acceptable inp
  · refine ⟨_, butteraugliCreate_of_acceptable inp h, fun h2 => absurd h h2, fun _ => ?_⟩
    simp [releasedNodes]
  · obtain ⟨msg, hmsg⟩ := butteraugliCreate_of_not_acceptable inp h
    refine ⟨_, hmsg, fun _ => ⟨?_, ?_, ?_, ?_⟩, fun h2 => absurd h2 h⟩
    · simp [releasedNodes]
    · intro hne
      have hne2 : ¬ inp.clipb = inp.clipa := fun h => hne h.symm
      simp [List.count_cons, hne, hne2]
    · simp [dataAllocated]
    · simp [filterCreated]

/-! ### The plane copy of `butteraugliGetFrame` -/

theorem readBytes_spec (data : List uint8_t) (off n : Nat) (h : off + n ≤ data.length) :
    ∃ bytes, readBytes data off n = some bytes ∧ bytes.length = n ∧
      ∀ x, x < n → bytes[x]? = data[off + x]? := by
  refine ⟨(data.drop off).take n, by simp [readBytes, h], ?_, ?_⟩
  · rw [List.length_take, List.length_drop]
    omega
  · intro x hx
    rw [List.getElem?_take, if_pos hx, List.getElem?_drop]

theorem copyIntoRow_spec {α : Type} {planes : List (Image α)} {xs ys plane y : Nat}
    (hc : plane < planes.length) (hs : ∀ im ∈ planes, im.HasShape xs ys)
    (hy : y < ys) (bytes : List α) (hb : bytes.length = xs) :
    ∃ p2, copyIntoRow planes plane y bytes = some p2 ∧ p2.length = planes.length ∧
      (∀ im ∈ p2, im.HasShape xs ys) ∧
      ∀ c2 y2 x2, planesGet p2 c2 y2 x2 =
        if c2 = plane ∧ y2 = y then bytes[x2]? else planesGet planes c2 y2 x2 := by
  have himg : planes[plane]? = some planes[plane] := List.getElem?_eq_getElem hc
  have hshape : (planes[plane]).HasShape xs ys := hs _ (List.getElem_mem hc)
  obtain ⟨row, hrow, hlen⟩ := hshape.row hy
  obtain ⟨h1, h2, h3, h4⟩ := hshape
  have hy2 : y < (planes[plane]).rows.length := by omega
  have hdrop : row.drop bytes.length = [] := by
    apply List.drop_eq_nil_of_le
    omega
  refine ⟨planes.set plane { planes[plane] with
      rows := (planes[plane]).rows.set y (bytes ++ row.drop bytes.length) }, ?_,
    List.length_set _ _ _, ?_, ?_⟩
  · simp [copyIntoRow, himg, hrow, hb, hlen]
  · intro im him
    rcases List.mem_or_eq_of_mem_set him with h | h
    · exact hs im h
    · rw [h]
      refine ⟨h1, h2, by simp [h3], ?_⟩
      intro r hr
      rcases List.mem_or_eq_of_mem_set hr with hr2 | hr2
      · exact h4 r hr2
      · rw [hr2, hdrop, List.append_nil]; exact hb
  · intro c2 y2 x2
    simp only [planesGet, List.getElem?_set]
    by_cases hc3 : plane = c2
    · subst hc3
      simp only [if_pos, hc, Option.some_bind, Image.get, List.getElem?_set, true_and, himg]
      by_cases hy3 : y = y2
      · subst hy3
        simp [hy2, hdrop]
      · have hy4 : ¬ y2 = y := fun h => hy3 h.symm
        simp [hy3, hy4]
    · have hc4 : ¬ c2 = plane := fun h => hc3 h.symm
      simp [hc3, hc4]

/-- The row loop of the plane copy: it succeeds when the rows read lie inside both
buffers, keeps the shape of `rgb1` and `rgb2`, and fills plane `plane` of each with the
bytes at offset `y * src_stride + x` of its source buffer. -/
theorem butteraugliGetFrame_copyRows_spec (srcp1 srcp2 : List uint8_t)
    (src_stride : Nat) {width height plane : Nat} (rgb1 rgb2 : List (Image uint8_t))
    (h1 : plane < rgb1.length) (h2 : plane < rgb2.length)
    (hs1 : ∀ im ∈ rgb1, im.HasShape width height)
    (hs2 : ∀ im ∈ rgb2, im.HasShape width height)
    (hr1 : RowsInBuffer srcp1 src_stride width height)
    (hr2 : RowsInBuffer srcp2 src_stride width height) :
    ∃ o1 o2, butteraugliGetFrame_copyRows srcp1 srcp2 src_stride width height plane rgb1 rgb2
        = some (o1, o2) ∧
      o1.length = rgb1.length ∧ o2.length = rgb2.length ∧
      (∀ im ∈ o1, im.HasShape width height) ∧ (∀ im ∈ o2, im.HasShape width height) ∧
      (∀ c2 y2 x2, planesGet o1 c2 y2 x2 =
        if c2 = plane ∧ y2 < height ∧ x2 < width then srcp1[y2 * src_stride + x2]?
        else planesGet rgb1 c2 y2 x2) ∧
      (∀ c2 y2 x2, planesGet o2 c2 y2 x2 =
        if c2 = plane ∧ y2 < height ∧ x2 < width then srcp2[y2 * src_stride + x2]?
        else planesGet rgb2 c2 y2 x2) := by
  have key := forLoop_inv
    (fun y (st : (List (Image uint8_t) × List (Image uint8_t)) × (Nat × Nat)) =>
      st.2 = (y * src_stride, y * src_stride) ∧
      st.1.1.length = rgb1.length ∧ st.1.2.length = rgb2.length ∧
      (∀ im ∈ st.1.1, im.HasShape width height) ∧
      (∀ im ∈ st.1.2, im.HasShape width height) ∧
      (∀ c2 y2 x2, planesGet st.1.1 c2 y2 x2 =
        if c2 = plane ∧ y2 < y ∧ x2 < width then srcp1[y2 * src_stride + x2]?
        else planesGet rgb1 c2 y2 x2) ∧
      (∀ c2 y2 x2, planesGet st.1.2 c2 y2 x2 =
        if c2 = plane ∧ y2 < y ∧ x2 < width then srcp2[y2 * src_stride + x2]?
        else planesGet rgb2 c2 y2 x2))
    height
    (fun y (st : (List (Image uint8_t) × List (Image uint8_t)) × (Nat × Nat)) =>
      match readBytes srcp1 st.2.1 width, readBytes srcp2 st.2.2 width with
      | some bytes1, some bytes2 =>
        match copyIntoRow st.1.1 plane y bytes1, copyIntoRow st.1.2 plane y bytes2 with
        | some rgb1, some rgb2 =>
          some ((rgb1, rgb2), (st.2.1 + src_stride, st.2.2 + src_stride))
        | _, _ => none
      | _, _ => none)
    ((rgb1, rgb2), (0, 0))
    (by
      refine ⟨by simp, rfl, rfl, hs1, hs2, ?_, ?_⟩ <;>
      · intro c2 y2 x2
        simp)
    (by
      rintro i ⟨⟨a1, a2⟩, ⟨f1, f2⟩⟩ hi ⟨hoff, hl1, hl2, hsh1, hsh2, hg1, hg2⟩
      simp only [Prod.mk.injEq] at hoff
      obtain ⟨rfl, rfl⟩ := hoff
      obtain ⟨b1, hb1, hb1len, hb1get⟩ := readBytes_spec srcp1 (i * src_stride) width (hr1 i hi)
      obtain ⟨b2, hb2, hb2len, hb2get⟩ := readBytes_spec srcp2 (i * src_stride) width (hr2 i hi)
      simp only at hl1 hl2 hsh1 hsh2 hg1 hg2
      obtain ⟨q1, hq1, hq1len, hq1sh, hq1get⟩ :=
        copyIntoRow_spec (by omega : plane < a1.length) hsh1 hi b1 hb1len
      obtain ⟨q2, hq2, hq2len, hq2sh, hq2get⟩ :=
        copyIntoRow_spec (by omega : plane < a2.length) hsh2 hi b2 hb2len
      refine ⟨((q1, q2), ((i * src_stride) + src_stride, (i * src_stride) + src_stride)), ?_,
        ?_, by simpa using hq1len.trans hl1, by simpa using hq2len.trans hl2, hq1sh, hq2sh,
        ?_, ?_⟩
      · simp only [hb1, hb2, hq1, hq2]
      · simp [Nat.succ_mul]
      · intro c2 y2 x2
        show planesGet q1 c2 y2 x2 = _
        rw [hq1get, hg1]
        by_cases hcy : c2 = plane ∧ y2 = i
        · obtain ⟨rfl, rfl⟩ := hcy
          rw [if_pos ⟨rfl, rfl⟩]
          by_cases hx : x2 < width
          · rw [if_pos ⟨rfl, by omega, hx⟩, hb1get x2 hx]
          · have hn : ¬ (c2 = c2 ∧ y2 < y2 + 1 ∧ x2 < width) := fun h => hx h.2.2
            have hn2 : ¬ (c2 = c2 ∧ y2 < y2 ∧ x2 < width) := fun h => hx h.2.2
            rw [if_neg hn]
            have hnone : b1[x2]? = none := List.getElem?_eq_none (by omega)
            rw [hnone]
            have := hg1 c2 y2 x2
            rw [if_neg hn2] at this
            rw [← this]
            obtain ⟨im, him⟩ : ∃ im, a1[c2]? = some im :=
              ⟨a1[c2], List.getElem?_eq_getElem (by omega)⟩
            obtain ⟨row, hrow, hrowlen⟩ :=
              (hsh1 im (List.mem_iff_getElem?.2 ⟨c2, him⟩)).row hi
            simp only [planesGet, him, Option.some_bind, Image.get, hrow]
            exact (List.getElem?_eq_none (by omega)).symm
        · rw [if_neg hcy]
          by_cases h2 : c2 = plane ∧ y2 < i ∧ x2 < width
          · rw [if_pos h2, if_pos ⟨h2.1, by omega, h2.2.2⟩]
          · have h3 : ¬ (c2 = plane ∧ y2 < i + 1 ∧ x2 < width) := by
              rintro ⟨a, b, c⟩
              by_cases h4 : y2 = i
              · exact hcy ⟨a, h4⟩
              · exact h2 ⟨a, by omega, c⟩
            rw [if_neg h2, if_neg h3]
      · intro c2 y2 x2
        show planesGet q2 c2 y2 x2 = _
        rw [hq2get, hg2]
        by_cases hcy : c2 = plane ∧ y2 = i
        · obtain ⟨rfl, rfl⟩ := hcy
          rw [if_pos ⟨rfl, rfl⟩]
          by_cases hx : x2 < width
          · rw [if_pos ⟨rfl, by omega, hx⟩, hb2get x2 hx]
          · have hn : ¬ (c2 = c2 ∧ y2 < y2 + 1 ∧ x2 < width) := fun h => hx h.2.2
            have hn2 : ¬ (c2 = c2 ∧ y2 < y2 ∧ x2 < width) := fun h => hx h.2.2
            rw [if_neg hn]
            have hnone : b2[x2]? = none := List.getElem?_eq_none (by omega)
            rw [hnone]
            have := hg2 c2 y2 x2
            rw [if_neg hn2] at this
            rw [← this]
            obtain ⟨im, him⟩ : ∃ im, a2[c2]? = some im :=
              ⟨a2[c2], List.getElem?_eq_getElem (by omega)⟩
            obtain ⟨row, hrow, hrowlen⟩ :=
              (hsh2 im (List.mem_iff_getElem?.2 ⟨c2, him⟩)).row hi
            simp only [planesGet, him, Option.some_bind, Image.get, hrow]
            exact (List.getElem?_eq_none (by omega)).symm
        · rw [if_neg hcy]
          by_cases h2 : c2 = plane ∧ y2 < i ∧ x2 < width
          · rw [if_pos h2, if_pos ⟨h2.1, by omega, h2.2.2⟩]
          · have h3 : ¬ (c2 = plane ∧ y2 < i + 1 ∧ x2 < width) := by
              rintro ⟨a, b, c⟩
              by_cases h4 : y2 = i
              · exact hcy ⟨a, h4⟩
              · exact h2 ⟨a, by omega, c⟩
            rw [if_neg h2, if_neg h3])
  obtain ⟨⟨⟨o1, o2⟩, offs⟩, hloop, -, hl1, hl2, hsh1, hsh2, hg1, hg2⟩ := key
  refine ⟨o1, o2, ?_, hl1, hl2, hsh1, hsh2, hg1, hg2⟩
  unfold butteraugliGetFrame_copyRows
  rw [hloop]
  rfl

theorem CreatePlanes_spec {α : Type} (xs ys n : Nat) (fill : α) :
    (CreatePlanes xs ys n fill).length = n ∧
      ∀ im ∈ CreatePlanes xs ys n fill, im.HasShape xs ys := by
  refine ⟨by simp [CreatePlanes], ?_⟩
  intro im him
  simp only [CreatePlanes, List.mem_replicate] at him
  rw [him.2]
  exact Image.create_hasShape xs ys fill

/-- The plane loop of the plane copy: it succeeds when the reads stay inside both frames,
keeps the shape of `rgb1` and `rgb2`, and sample `(plane, y, x)` of `rgb1` is the byte of
frame A at offset `y * stride + x` of the plane, that of `rgb2` the byte of frame B at the
same offset, where `stride` is the stride of frame A in both. -/
theorem butteraugliGetFrame_copyPlanes_spec {K : Type} (src1 src2 : VSFrame K)
    (numPlanes : Nat) (rgb1 rgb2 : List (Image uint8_t))
    (h1 : numPlanes ≤ rgb1.length) (h2 : numPlanes ≤ rgb2.length)
    (hs1 : ∀ im ∈ rgb1, im.HasShape src1.width src1.height)
    (hs2 : ∀ im ∈ rgb2, im.HasShape src1.width src1.height)
    (hcopy : CopyInBounds src1 src2 numPlanes) :
    ∃ o1 o2, butteraugliGetFrame_copyPlanes src1 src2 numPlanes src1.width src1.height
        rgb1 rgb2 = some (o1, o2) ∧
      o1.length = rgb1.length ∧ o2.length = rgb2.length ∧
      (∀ im ∈ o1, im.HasShape src1.width src1.height) ∧
      (∀ im ∈ o2, im.HasShape src1.width src1.height) ∧
      ∀ c y x, c < numPlanes → y < src1.height → x < src1.width →
        planesGet o1 c y x
          = (src1.planes[c]?).bind (fun p1 => p1.data[y * p1.stride + x]?) ∧
        planesGet o2 c y x
          = (src1.planes[c]?).bind (fun p1 =>
              (src2.planes[c]?).bind (fun p2 => p2.data[y * p1.stride + x]?)) := by
  have key := forLoop_inv
    (fun plane (st : List (Image uint8_t) × List (Image uint8_t)) =>
      st.1.length = rgb1.length ∧ st.2.length = rgb2.length ∧
      (∀ im ∈ st.1, im.HasShape src1.width src1.height) ∧
      (∀ im ∈ st.2, im.HasShape src1.width src1.height) ∧
      ∀ c y x, c < plane → y < src1.height → x < src1.width →
        planesGet st.1 c y x
          = (src1.planes[c]?).bind (fun p1 => p1.data[y * p1.stride + x]?) ∧
        planesGet st.2 c y x
          = (src1.planes[c]?).bind (fun p1 =>
              (src2.planes[c]?).bind (fun p2 => p2.data[y * p1.stride + x]?)))
    numPlanes
    (fun plane (st : List (Image uint8_t) × List (Image uint8_t)) =>
      match src1.planes[plane]?, src2.planes[plane]? with
      | some p1, some p2 =>
        butteraugliGetFrame_copyRows p1.data p2.data p1.stride src1.width src1.height plane
          st.1 st.2
      | _, _ => none)
    (rgb1, rgb2)
    ⟨rfl, rfl, hs1, hs2, fun c y x hc => absurd hc (Nat.not_lt_zero c)⟩
    (by
      rintro i ⟨a1, a2⟩ hi ⟨hl1, hl2, hsh1, hsh2, hg⟩
      simp only at hl1 hl2 hsh1 hsh2 hg
      obtain ⟨p1, p2, hp1, hp2, hr1, hr2⟩ := hcopy i hi
      obtain ⟨o1, o2, ho, hol1, hol2, hosh1, hosh2, hog1, hog2⟩ :=
        butteraugliGetFrame_copyRows_spec p1.data p2.data p1.stride a1 a2
          (by omega : i < a1.length) (by omega : i < a2.length) hsh1 hsh2 hr1 hr2
      refine ⟨(o1, o2), ?_, by simpa using hol1.trans hl1, by simpa using hol2.trans hl2,
        hosh1, hosh2, ?_⟩
      · simp only [hp1, hp2, ho]
      · intro c y x hc hy hx
        show planesGet o1 c y x = _ ∧ planesGet o2 c y x = _
        rw [hog1, hog2]
        by_cases hci : c = i
        · subst hci
          rw [if_pos ⟨rfl, hy, hx⟩, if_pos ⟨rfl, hy, hx⟩]
          simp [hp1, hp2]
        · have hn : ¬ (c = i ∧ y < src1.height ∧ x < src1.width) := fun h => hci h.1
          rw [if_neg hn, if_neg hn]
          exact hg c y x (by omega) hy hx)
  obtain ⟨⟨o1, o2⟩, hloop, hl1, hl2, hsh1, hsh2, hg⟩ := key
  exact ⟨o1, o2, hloop, hl1, hl2, hsh1, hsh2, hg⟩

/-! ### `ScoreToRgb` and `CreateHeatMapImage` return -/

theorem ScoreToRgb_clamp_range {K : Type} [LinearOrderedField K] (score : K) :
    0 ≤ ScoreToRgb_clamp score ∧ ScoreToRgb_clamp score ≤ 10 := by
  unfold ScoreToRgb_clamp kTableSize
  constructor
  · apply le_min
    · exact le_trans (by norm_num) (le_max_right _ _)
    · norm_num
  · exact le_trans (min_le_right _ _) (by norm_num)

/-- The gradient index `ix` of `ScoreToRgb` lies in `0..10`. -/
theorem ScoreToRgb_ix_range {K : Type} [LinearOrderedField K] [FloorRing K] (score : K) :
    0 ≤ static_cast_int (ScoreToRgb_clamp score) ∧
      static_cast_int (ScoreToRgb_clamp score) ≤ 10 := by
  obtain ⟨h0, h10⟩ := ScoreToRgb_clamp_range score
  unfold static_cast_int
  rw [if_pos h0]
  constructor
  · exact Int.floor_nonneg.2 h0
  · have : (⌊ScoreToRgb_clamp score⌋ : K) ≤ ((10 : Int) : K) := by
      exact le_trans (Int.floor_le _) (by exact_mod_cast h10)
    exact_mod_cast this

theorem heatmapAt_isSome {K : Type} [LinearOrderedField K] (ix : Int) (c : Nat)
    (h0 : 0 ≤ ix) (h11 : ix ≤ 11) (hc : c < 3) : ∃ v : K, heatmapAt ix c = some v := by
  apply Option.isSome_iff_exists.1
  interval_cases ix <;> interval_cases c <;> simp [heatmapAt, heatmap]

/-- The function `ScoreToRgb` returns a colour on every input: its table reads are in
bounds. -/
theorem ScoreToRgb_isSome {K : Type} [LinearOrderedField K] [FloorRing K] (pow : K → K → K)
    (score good bad : K) : ∃ rgb, ScoreToRgb pow score good bad = some rgb := by
  obtain ⟨h0, h10⟩ := ScoreToRgb_ix_range (ScoreToRgb_remap score good bad)
  have hch : ∀ c, c < 3 → ∀ mix : K, ∃ v, ScoreToRgb_channel pow
      (static_cast_int (ScoreToRgb_clamp (ScoreToRgb_remap score good bad))) mix c = some v := by
    intro c hc mix
    obtain ⟨hi, hhi⟩ := heatmapAt_isSome (K := K)
      (static_cast_int (ScoreToRgb_clamp (ScoreToRgb_remap score good bad)) + 1) c
      (by omega) (by omega) hc
    obtain ⟨lo, hlo⟩ := heatmapAt_isSome (K := K)
      (static_cast_int (ScoreToRgb_clamp (ScoreToRgb_remap score good bad))) c h0
      (by omega) hc
    apply Option.isSome_iff_exists.1
    simp [ScoreToRgb_channel, hhi, hlo]
  obtain ⟨r, hr⟩ := hch 0 (by norm_num) (ScoreToRgb_clamp (ScoreToRgb_remap score good bad) -
    (static_cast_int (ScoreToRgb_clamp (ScoreToRgb_remap score good bad)) : K))
  obtain ⟨g, hg⟩ := hch 1 (by norm_num) (ScoreToRgb_clamp (ScoreToRgb_remap score good bad) -
    (static_cast_int (ScoreToRgb_clamp (ScoreToRgb_remap score good bad)) : K))
  obtain ⟨b, hb⟩ := hch 2 (by norm_num) (ScoreToRgb_clamp (ScoreToRgb_remap score good bad) -
    (static_cast_int (ScoreToRgb_clamp (ScoreToRgb_remap score good bad)) : K))
  exact ⟨(r, g, b), by simp [ScoreToRgb, hr, hg, hb]⟩

theorem storeByte_spec (buf : List uint8_t) (i : Nat) (v : uint8_t) (h : i < buf.length) :
    ∃ o, storeByte buf i v = some o ∧ o.length = buf.length :=
  ⟨buf.set i v, by simp [storeByte, h], List.length_set _ _ _⟩

/-- The inner loop of `CreateHeatMapImage` succeeds when row `y` of the distortion map has
`xsize` samples and the bytes written lie inside the three buffers, whose lengths it keeps. -/
theorem CreateHeatMapImage_row_spec {K : Type} [LinearOrderedField K] [FloorRing K]
    (pow : K → K → K) (distmap : Image K) (good bad : K) {xsize ysize y : Nat} (off : Nat)
    (bufs : List uint8_t × List uint8_t × List uint8_t)
    (hd : distmap.HasShape xsize ysize) (hy : y < ysize)
    (hr : off + xsize ≤ bufs.1.length) (hg : off + xsize ≤ bufs.2.1.length)
    (hb : off + xsize ≤ bufs.2.2.length) :
    ∃ o, CreateHeatMapImage_row pow distmap good bad xsize y off bufs = some o ∧
      o.1.length = bufs.1.length ∧ o.2.1.length = bufs.2.1.length ∧
      o.2.2.length = bufs.2.2.length := by
  unfold CreateHeatMapImage_row
  apply forLoop_inv (fun _ (st : List uint8_t × List uint8_t × List uint8_t) =>
      st.1.length = bufs.1.length ∧ st.2.1.length = bufs.2.1.length ∧
      st.2.2.length = bufs.2.2.length)
  · exact ⟨rfl, rfl, rfl⟩
  · rintro i ⟨sr, sg, sb⟩ hi ⟨h1, h2, h3⟩
    simp only at h1 h2 h3
    obtain ⟨dv, hdv⟩ := Image.get_of_hasShape hd hy hi
    obtain ⟨⟨r, g, b⟩, hrgb⟩ := ScoreToRgb_isSome pow dv good bad
    obtain ⟨o1, ho1, hl1⟩ := storeByte_spec sr (off + i) r (by omega)
    obtain ⟨o2, ho2, hl2⟩ := storeByte_spec sg (off + i) g (by omega)
    obtain ⟨o3, ho3, hl3⟩ := storeByte_spec sb (off + i) b (by omega)
    refine ⟨(o1, o2, o3), ?_, by simpa using hl1.trans h1, by simpa using hl2.trans h2,
      by simpa using hl3.trans h3⟩
    simp only [hdv, hrgb, ho1, ho2, ho3]

/-- The function `CreateHeatMapImage` returns when the distortion map has the dimensions
`xsize` by `ysize` and the rows written lie inside the three destination buffers; it keeps
the lengths of the buffers. -/
theorem CreateHeatMapImage_isSome {K : Type} [LinearOrderedField K] [FloorRing K]
    (pow : K → K → K) (distmap : Image K) (good bad : K) {xsize ysize stride : Nat}
    (dst_r dst_g dst_b : List uint8_t)
    (hd : distmap.HasShape xsize ysize)
    (hr : RowsInBuffer dst_r stride xsize ysize) (hg : RowsInBuffer dst_g stride xsize ysize)
    (hb : RowsInBuffer dst_b stride xsize ysize) :
    ∃ r g b, CreateHeatMapImage pow distmap good bad xsize ysize dst_r dst_g dst_b stride
        = some (r, g, b) ∧
      r.length = dst_r.length ∧ g.length = dst_g.length ∧ b.length = dst_b.length := by
  have key := forLoop_inv
    (fun y (st : (List uint8_t × List uint8_t × List uint8_t) × Nat) =>
      st.2 = y * stride ∧ st.1.1.length = dst_r.length ∧ st.1.2.1.length = dst_g.length ∧
      st.1.2.2.length = dst_b.length)
    ysize
    (fun y (st : (List uint8_t × List uint8_t × List uint8_t) × Nat) =>
      match CreateHeatMapImage_row pow distmap good bad xsize y st.2 st.1 with
      | none => none
      | some bufs => some (bufs, st.2 + stride))
    ((dst_r, dst_g, dst_b), 0)
    ⟨by simp, rfl, rfl, rfl⟩
    (by
      rintro i ⟨bufs, off⟩ hi ⟨hoff, h1, h2, h3⟩
      simp only at hoff h1 h2 h3
      subst hoff
      obtain ⟨o, ho, hl1, hl2, hl3⟩ :=
        CreateHeatMapImage_row_spec pow distmap good bad (i * stride) bufs hd hi
          (by rw [h1]; exact hr i hi) (by rw [h2]; exact hg i hi) (by rw [h3]; exact hb i hi)
      refine ⟨(o, i * stride + stride), ?_, by simp [Nat.succ_mul], by simpa using hl1.trans h1,
        by simpa using hl2.trans h2, by simpa using hl3.trans h3⟩
      simp only [ho])
  obtain ⟨⟨⟨r, g, b⟩, off⟩, hloop, -, h1, h2, h3⟩ := key
  refine ⟨r, g, b, ?_, h1, h2, h3⟩
  unfold CreateHeatMapImage
  rw [hloop]
  rfl

/-! ### `butteraugliGetFrame` -/

/-- The plane copy and the linearization of `butteraugliGetFrame` return when the format has
at most three planes and the reads stay inside both frames; the two 8-bit triples then have
three planes of the dimensions of frame A. -/
theorem butteraugliGetFrame_inputs_spec {K : Type} [LinearOrderedField K] [FloorRing K]
    (env : Env K) (pow : K → K → K) (n : Int) (d : butteraugliData) (fi : VSFormat)
    (hfmt : d.vi.format = some fi) (hnp : fi.numPlanes ≤ 3)
    (hcopy : CopyInBounds (env.getFrameFilter n d.node1) (env.getFrameFilter n d.node2)
      fi.numPlanes) :
    ∃ rgb1 rgb2 linear1 linear2,
      butteraugliGetFrame_inputs env pow n d = some (rgb1, rgb2, linear1, linear2) ∧
      butteraugliGetFrame_copyPlanes (env.getFrameFilter n d.node1)
        (env.getFrameFilter n d.node2) fi.numPlanes (env.getFrameFilter n d.node1).width
        (env.getFrameFilter n d.node1).height
        (CreatePlanes (env.getFrameFilter n d.node1).width
          (env.getFrameFilter n d.node1).height 3 0)
        (CreatePlanes (env.getFrameFilter n d.node1).width
          (env.getFrameFilter n d.node1).height 3 0) = some (rgb1, rgb2) ∧
      FromSrgbToLinear pow rgb1 [] 0 = some (rgb1, linear1) ∧
      FromSrgbToLinear pow rgb2 [] 0 = some (rgb2, linear2) ∧
      rgb1.length = 3 ∧ rgb2.length = 3 ∧
      (∀ im ∈ rgb1, im.HasShape (env.getFrameFilter n d.node1).width
        (env.getFrameFilter n d.node1).height) ∧
      (∀ im ∈ rgb2, im.HasShape (env.getFrameFilter n d.node1).width
        (env.getFrameFilter n d.node1).height) := by
  obtain ⟨hlen, hshape⟩ := CreatePlanes_spec (env.getFrameFilter n d.node1).width
    (env.getFrameFilter n d.node1).height 3 (0 : uint8_t)
  obtain ⟨rgb1, rgb2, hc, hl1, hl2, hs1, hs2, -⟩ :=
    butteraugliGetFrame_copyPlanes_spec (env.getFrameFilter n d.node1)
      (env.getFrameFilter n d.node2) fi.numPlanes _ _ (by omega) (by omega) hshape hshape hcopy
  rw [hlen] at hl1 hl2
  obtain ⟨linear1, hlin1, -⟩ := FromSrgbToLinear_spec pow rgb1 _ _ hl1 hs1 0
  obtain ⟨linear2, hlin2, -⟩ := FromSrgbToLinear_spec pow rgb2 _ _ hl2 hs2 0
  refine ⟨rgb1, rgb2, linear1, linear2, ?_, hc, hlin1, hlin2, hl1, hl2, hs1, hs2⟩
  simp only [butteraugliGetFrame_inputs, hfmt, hc, hlin1, hlin2]

/-- The `arAllFramesReady` branch when the oracle reports failure: the filter error is set
and the result is null. -/
theorem butteraugliGetFrame_on_failure {K : Type} [LinearOrderedField K] [FloorRing K]
    (env : Env K) (pow : K → K → K) (n : Int) (d : butteraugliData) (fi : VSFormat)
    (rgb1 rgb2 : List (Image uint8_t)) (linear1 linear2 : List (Image K))
    (hfmt : d.vi.format = some fi)
    (hin : butteraugliGetFrame_inputs env pow n d = some (rgb1, rgb2, linear1, linear2))
    (hfail : env.ButteraugliInterface linear1 linear2 1.0 = none) :
    butteraugliGetFrame env pow n arAllFramesReady d = some (none,
      [FrameEvent.getFrameFilter n d.node1, FrameEvent.getFrameFilter n d.node2,
       FrameEvent.newVideoFrame fi (env.getFrameFilter n d.node1).width
         (env.getFrameFilter n d.node1).height,
       FrameEvent.setFilterError "butteraugli: Fail to compare."]) := by
  have hne : ¬ arAllFramesReady = arInitial := by decide
  simp only [butteraugliGetFrame, hne, if_false, if_true, hfmt, hin, hfail]
  rfl

/-- The `arAllFramesReady` branch when the oracle succeeds with a distortion map of the
dimensions of frame A and the destination frame holds the rows to write: the heat map is
computed by `CreateHeatMapImage` with the thresholds `ButteraugliFuzzyInverse(1.5)` and
`ButteraugliFuzzyInverse(0.5)`, the score is stored under `_Diff`, both source frames are
freed and the destination frame is returned. -/
theorem butteraugliGetFrame_on_success {K : Type} [LinearOrderedField K] [FloorRing K]
    (env : Env K) (pow : K → K → K) (n : Int) (d : butteraugliData) (fi : VSFormat)
    (rgb1 rgb2 : List (Image uint8_t)) (linear1 linear2 : List (Image K))
    (diff_map : Image K) (diff_value : K)
    (hfmt : d.vi.format = some fi)
    (hin : butteraugliGetFrame_inputs env pow n d = some (rgb1, rgb2, linear1, linear2))
    (hl1 : rgb1.length = 3) (hl2 : rgb2.length = 3)
    (hs1 : ∀ im ∈ rgb1, im.HasShape (env.getFrameFilter n d.node1).width
      (env.getFrameFilter n d.node1).height)
    (hs2 : ∀ im ∈ rgb2, im.HasShape (env.getFrameFilter n d.node1).width
      (env.getFrameFilter n d.node1).height)
    (hok : env.ButteraugliInterface linear1 linear2 1.0 = some (diff_map, diff_value))
    (hmap : diff_map.HasShape (env.getFrameFilter n d.node1).width
      (env.getFrameFilter n d.node1).height)
    (hdst : HeatMapInBounds
      (env.newVideoFrame fi (env.getFrameFilter n d.node1).width
        (env.getFrameFilter n d.node1).height (env.getFrameFilter n d.node1))
      (env.getFrameFilter n d.node1).width (env.getFrameFilter n d.node1).height) :
    ∃ pr pg pb r g b,
      (env.newVideoFrame fi (env.getFrameFilter n d.node1).width
        (env.getFrameFilter n d.node1).height (env.getFrameFilter n d.node1)).planes[0]?
          = some pr ∧
      (env.newVideoFrame fi (env.getFrameFilter n d.node1).width
        (env.getFrameFilter n d.node1).height (env.getFrameFilter n d.node1)).planes[1]?
          = some pg ∧
      (env.newVideoFrame fi (env.getFrameFilter n d.node1).width
        (env.getFrameFilter n d.node1).height (env.getFrameFilter n d.node1)).planes[2]?
          = some pb ∧
      CreateHeatMapImage pow diff_map (env.ButteraugliFuzzyInverse 1.5)
        (env.ButteraugliFuzzyInverse 0.5) (env.getFrameFilter n d.node1).width
        (env.getFrameFilter n d.node1).height pr.data pg.data pb.data pr.stride
          = some (r, g, b) ∧
      butteraugliGetFrame env pow n arAllFramesReady d = some
        (some { env.newVideoFrame fi (env.getFrameFilter n d.node1).width
                  (env.getFrameFilter n d.node1).height (env.getFrameFilter n d.node1) with
                planes := (((env.newVideoFrame fi (env.getFrameFilter n d.node1).width
                  (env.getFrameFilter n d.node1).height
                  (env.getFrameFilter n d.node1)).planes.set 0 { pr with data := r }).set 1
                    { pg with data := g }).set 2 { pb with data := b }
                props := propSetFloat (env.newVideoFrame fi (env.getFrameFilter n d.node1).width
                  (env.getFrameFilter n d.node1).height
                  (env.getFrameFilter n d.node1)).props "_Diff" diff_value },
         [FrameEvent.getFrameFilter n d.node1, FrameEvent.getFrameFilter n d.node2,
          FrameEvent.newVideoFrame fi (env.getFrameFilter n d.node1).width
            (env.getFrameFilter n d.node1).height,
          FrameEvent.propSetFloat "_Diff" diff_value,
          FrameEvent.freeFrame (env.getFrameFilter n d.node1),
          FrameEvent.freeFrame (env.getFrameFilter n d.node2)]) := by
  obtain ⟨pr, pg, pb, hpr, hpg, hpb, hrr, hrg, hrb⟩ := hdst
  obtain ⟨r, g, b, hheat, -⟩ := CreateHeatMapImage_isSome pow diff_map
    (env.ButteraugliFuzzyInverse 1.5) (env.ButteraugliFuzzyInverse 0.5)
    pr.data pg.data pb.data hmap hrr hrg hrb
  refine ⟨pr, pg, pb, r, g, b, hpr, hpg, hpb, hheat, ?_⟩
  have h10 : rgb1[0]? = some rgb1[0] := List.getElem?_eq_getElem (by omega)
  have h20 : rgb2[0]? = some rgb2[0] := List.getElem?_eq_getElem (by omega)
  have hx : (rgb1[0]).xsize = (env.getFrameFilter n d.node1).width :=
    (hs1 _ (List.getElem_mem (by omega))).1
  have hy : (rgb2[0]).ysize = (env.getFrameFilter n d.node1).height :=
    (hs2 _ (List.getElem_mem (by omega))).2.1
  have hne : ¬ arAllFramesReady = arInitial := by decide
  simp only [butteraugliGetFrame, hne, if_false, if_true, hfmt, hin, hok, hpr, hpg, hpb,
    h10, h20, hx, hy, hheat]
  rfl

/-- The entry of index 10 of the table of `NewSrgbToLinearTable`, on the linear branch of
the transfer function: `255 * (10 / 255 / 12.92) = 250 / 323`. -/
theorem NewSrgbToLinearTable_entry_ten :
    (NewSrgbToLinearTable Real.rpow)[10]? = some ((250 : ℝ) / 323) := by
  rw [NewSrgbToLinearTable_getElem? Real.rpow 10 (by norm_num)]
  have h : ((10 : Nat) : ℝ) / 255.0 ≤ 0.04045 := by norm_num
  rw [if_pos h]
  norm_num

/-- The conversion of `250 / 323` to `float`: it lies in the binade of `2 ^ (-1)`, whose
unit in the last place is `2 ^ (-24)`, between `12985461` and `12985462` of these units and
nearer to the first. -/
theorem static_cast_float_entry_ten :
    static_cast_float ((250 : ℝ) / 323) = 12985461 / 16777216 := by
  unfold static_cast_float
  rw [round_to_format_eval 24 (-126) ((250 : ℝ) / 323) (-1) 12985461]
  · norm_num
  · rw [abs_of_pos (by norm_num)]; norm_num
  · rw [abs_of_pos (by norm_num)]; norm_num
  · norm_num
  · apply round_half_even_of_near <;> norm_num

/-- C8, the claim as stated fails: on three planes of two columns and one row whose sample
`rgb[1][0][0]` is 10, `FromSrgbToLinear` stores in `linear[1][0][0]` not the table entry of
index 10, which is `250/323`, but its conversion to `float`, `12985461 / 2^24`. -/
theorem FromSrgbToLinear_elementwise_counterexample :
    sampleRgb.length = 3 ∧ (∀ im ∈ sampleRgb, im.HasShape 2 1) ∧
    ∃ linear, FromSrgbToLinear Real.rpow sampleRgb [] 0 = some (sampleRgb, linear) ∧
      planesGet sampleRgb 1 0 0 = some 10 ∧
      (NewSrgbToLinearTable Real.rpow)[10]? = some ((250 : ℝ) / 323) ∧
      planesGet linear 1 0 0 = some ((12985461 : ℝ) / 16777216) ∧
      planesGet linear 1 0 0 ≠ (NewSrgbToLinearTable Real.rpow)[10]? := by
  obtain ⟨linear, hlin, -, -, hget⟩ :=
    FromSrgbToLinear_spec Real.rpow sampleRgb 2 1 (by decide) (by decide) 0
  have hv : planesGet sampleRgb 1 0 0 = some 10 := by decide
  have hs : planesGet linear 1 0 0 = some ((12985461 : ℝ) / 16777216) := by
    have h10 : ((10 : uint8_t) : Nat) = 10 := by decide
    rw [hget 1 0 0 (by norm_num) (by norm_num) (by norm_num), hv, Option.some_bind, h10,
      NewSrgbToLinearTable_entry_ten, Option.map_some', static_cast_float_entry_ten]
  refine ⟨by decide, by decide, linear, hlin, hv, NewSrgbToLinearTable_entry_ten, hs, ?_⟩
  rw [hs, NewSrgbToLinearTable_entry_ten]
  intro h
  have h2 := Option.some.inj h
  norm_num at h2

/-- C8, amended: `FromSrgbToLinear` is an elementwise remap: from three 8-bit planes of equal
dimensions `(xsize, ysize)` and an empty output vector it returns, with the input planes
unchanged, exactly three planes of dimensions `(xsize, ysize)`, and for every channel
`c < 3`, row `y < ysize` and column `x < xsize` the sample `linear[c][y][x]` is the entry of
the table of `NewSrgbToLinearTable` indexed by `rgb[c][y][x]`, an index within `0..255` at
which the table has an entry, converted from `double` to `float`. -/
theorem FromSrgbToLinear_elementwise {K : Type} [LinearOrderedField K] [FloorRing K]
    (pow : K → K → K) (rgb : List (Image uint8_t)) (xsize ysize : Nat)
    (hlen : rgb.length = 3) (hshape : ∀ im ∈ rgb, im.HasShape xsize ysize) :
    ∃ linear, FromSrgbToLinear pow rgb [] 0 = some (rgb, linear) ∧ linear.length = 3 ∧
      (∀ im ∈ linear, im.HasShape xsize ysize) ∧
      ∀ c y x, c < 3 → y < ysize → x < xsize →
        ∃ (value : uint8_t) (entry : K), planesGet rgb c y x = some value ∧
          value.val ≤ 255 ∧ (NewSrgbToLinearTable pow)[value.val]? = some entry ∧
          planesGet linear c y x = some (static_cast_float entry) := by
  obtain ⟨linear, hlin, hl, hs, hget⟩ := FromSrgbToLinear_spec pow rgb xsize ysize hlen hshape 0
  refine ⟨linear, hlin, hl, hs, ?_⟩
  intro c y x hc hy hx
  have hc2 : c < rgb.length := by omega
  have him : rgb[c]? = some rgb[c] := List.getElem?_eq_getElem hc2
  obtain ⟨value, hvalue⟩ := Image.get_of_hasShape (hshape _ (List.getElem_mem hc2)) hy hx
  have hidx : value.val < (NewSrgbToLinearTable pow).length := by
    rw [NewSrgbToLinearTable_length]; exact value.isLt
  have hv : planesGet rgb c y x = some value := by
    simp [planesGet, him, hvalue]
  refine ⟨value, (NewSrgbToLinearTable pow)[value.val], hv,
    Nat.le_of_lt_succ value.isLt, List.getElem?_eq_getElem hidx, ?_⟩
  rw [hget c y x hc hy hx, hv, Option.some_bind, List.getElem?_eq_getElem hidx,
    Option.map_some']

/-- Witness of C8 on three planes of two columns and one row. -/
theorem FromSrgbToLinear_elementwise_witness :
    sampleRgb.length = 3 ∧ (∀ im ∈ sampleRgb, im.HasShape 2 1) ∧
    ∃ linear, FromSrgbToLinear Real.rpow sampleRgb [] 0 = some (sampleRgb, linear) ∧
      linear.length = 3 ∧ (∀ im ∈ linear, im.HasShape 2 1) ∧
      ∀ c y x, c < 3 → y < 1 → x < 2 →
        ∃ (value : uint8_t) (entry : ℝ), planesGet sampleRgb c y x = some value ∧
          value.val ≤ 255 ∧ (NewSrgbToLinearTable Real.rpow)[value.val]? = some entry ∧
          planesGet linear c y x = some (static_cast_float entry) :=
  ⟨by decide, by decide,
    FromSrgbToLinear_elementwise Real.rpow sampleRgb 2 1 (by decide) (by decide)⟩

theorem propGet_propSetFloat {K : Type} (props : List (String × PropValue K)) (key : String)
    (v : K) : propGet (propSetFloat props key v) key = some (PropValue.float v) := by
  unfold propGet propSetFloat
  rw [List.find?_append]
  have hnone : List.find? (fun kv => kv.1 == key)
      (List.filter (fun kv => kv.1 != key) props) = none := by
    rw [List.find?_eq_none]
    intro kv hkv
    have := (List.mem_filter.1 hkv).2
    simpa using this
  rw [hnone]
  simp

/-- C3: in `butteraugliGetFrame` with activation reason `arAllFramesReady`, on frames whose
plane reads stay in bounds, when the oracle `ButteraugliInterface` reports failure on the
linearized pair, `setFilterError` is called and the result is null; when the oracle
succeeds (with a distortion map of the frame dimensions, the destination frame holding the
rows to write), no filter error is set and a non-null frame is returned. -/
theorem butteraugliGetFrame_oracle_failure {K : Type} [LinearOrderedField K] [FloorRing K]
    (env : Env K) (pow : K → K → K) (n : Int) (d : butteraugliData) (fi : VSFormat)
    (hfmt : d.vi.format = some fi) (hnp : fi.numPlanes ≤ 3)
    (hcopy : CopyInBounds (env.getFrameFilter n d.node1) (env.getFrameFilter n d.node2)
      fi.numPlanes) :
    ∃ rgb1 rgb2 linear1 linear2,
      butteraugliGetFrame_inputs env pow n d = some (rgb1, rgb2, linear1, linear2) ∧
      (env.ButteraugliInterface linear1 linear2 1.0 = none →
        ∃ evs, butteraugliGetFrame env pow n arAllFramesReady d = some (none, evs) ∧
          filterErrorSet evs = true) ∧
      (∀ diff_map diff_value,
        env.ButteraugliInterface linear1 linear2 1.0 = some (diff_map, diff_value) →
        diff_map.HasShape (env.getFrameFilter n d.node1).width
          (env.getFrameFilter n d.node1).height →
        HeatMapInBounds
          (env.newVideoFrame fi (env.getFrameFilter n d.node1).width
            (env.getFrameFilter n d.node1).height (env.getFrameFilter n d.node1))
          (env.getFrameFilter n d.node1).width (env.getFrameFilter n d.node1).height →
        ∃ out evs, butteraugliGetFrame env pow n arAllFramesReady d = some (some out, evs) ∧
          filterErrorSet evs = false) := by
  obtain ⟨rgb1, rgb2, linear1, linear2, hin, -, -, -, hl1, hl2, hs1, hs2⟩ :=
    butteraugliGetFrame_inputs_spec env pow n d fi hfmt hnp hcopy
  refine ⟨rgb1, rgb2, linear1, linear2, hin, ?_, ?_⟩
  · intro hfail
    exact ⟨_, butteraugliGetFrame_on_failure env pow n d fi rgb1 rgb2 linear1 linear2 hfmt hin
      hfail, by simp [filterErrorSet]⟩
  · intro diff_map diff_value hok hmap hdst
    obtain ⟨pr, pg, pb, r, g, b, -, -, -, -, hres⟩ :=
      butteraugliGetFrame_on_success env pow n d fi rgb1 rgb2 linear1 linear2 diff_map
        diff_value hfmt hin hl1 hl2 hs1 hs2 hok hmap hdst
    exact ⟨_, _, hres, by simp [filterErrorSet]⟩

/-- The oracle of the sample environment on a triple of planes of one shape. -/
theorem sampleEnv_oracle {K : Type} [LinearOrderedField K] (frameA frameB : VSFrame K)
    (score : K) (linear1 linear2 : List (Image K)) (scale : K) {w h : Nat}
    (hl : linear1.length = 3) (hs : ∀ im ∈ linear1, im.HasShape w h) :
    (sampleEnv frameA frameB true score).ButteraugliInterface linear1 linear2 scale
      = some (Image.create w h 0, score) := by
  have h0 : linear1[0]? = some linear1[0] := List.getElem?_eq_getElem (by omega)
  have hs0 : (linear1[0]).HasShape w h := hs _ (List.getElem_mem (by omega))
  simp only [sampleEnv, h0, hs0.1, hs0.2.1]

/-- The linear triples of `butteraugliGetFrame` have three planes of the dimensions of
frame A. -/
theorem butteraugliGetFrame_inputs_shape {K : Type} [LinearOrderedField K] [FloorRing K]
    (env : Env K) (pow : K → K → K) (n : Int) (d : butteraugliData) (fi : VSFormat)
    (hfmt : d.vi.format = some fi) (hnp : fi.numPlanes ≤ 3)
    (hcopy : CopyInBounds (env.getFrameFilter n d.node1) (env.getFrameFilter n d.node2)
      fi.numPlanes)
    (rgb1 rgb2 : List (Image uint8_t)) (linear1 linear2 : List (Image K))
    (hin : butteraugliGetFrame_inputs env pow n d = some (rgb1, rgb2, linear1, linear2)) :
    linear1.length = 3 ∧
      ∀ im ∈ linear1, im.HasShape (env.getFrameFilter n d.node1).width
        (env.getFrameFilter n d.node1).height := by
  obtain ⟨r1, r2, l1, l2, hin2, -, hlin1, -, hl1, -, hs1, -⟩ :=
    butteraugliGetFrame_inputs_spec env pow n d fi hfmt hnp hcopy
  rw [hin] at hin2
  simp only [Option.some.injEq, Prod.mk.injEq] at hin2
  obtain ⟨rfl, rfl, rfl, rfl⟩ := hin2
  obtain ⟨lin, hlin, hl, hs, -⟩ := FromSrgbToLinear_spec pow rgb1 _ _ hl1 hs1 0
  rw [hlin1] at hlin
  simp only [Option.some.injEq, Prod.mk.injEq, true_and] at hlin
  subst hlin
  exact ⟨hl, hs⟩

/-- The frames of the C4 counterexample: frame A is 1 by 1 and frame B is 2 by 2, and the
reads of the plane copy stay inside both. -/
theorem sample_mismatch_copyInBounds :
    CopyInBounds
      ((sampleEnv (sampleFrame ℝ 1 1 1 7) (sampleFrame ℝ 2 2 2 9) true 5).getFrameFilter 0
        (sampleData 1 1).node1)
      ((sampleEnv (sampleFrame ℝ 1 1 1 7) (sampleFrame ℝ 2 2 2 9) true 5).getFrameFilter 0
        (sampleData 1 1).node2) 3 := by
  intro plane hp
  refine ⟨{ stride := 1, data := List.replicate 1 7 }, { stride := 2, data := List.replicate 4 9 },
    ?_, ?_, ?_, ?_⟩
  · interval_cases plane <;> rfl
  · interval_cases plane <;> rfl
  · decide
  · decide

/-- The destination frame of the sample environment holds the row of a 1 by 1 heat map. -/
theorem sample_mismatch_heatMapInBounds :
    HeatMapInBounds
      ((sampleEnv (sampleFrame ℝ 1 1 1 7) (sampleFrame ℝ 2 2 2 9) true 5).newVideoFrame
        { id := pfRGB24, numPlanes := 3 } 1 1 (sampleFrame ℝ 1 1 1 7)) 1 1 :=
  ⟨{ stride := 1, data := List.replicate 1 0 }, { stride := 1, data := List.replicate 1 0 },
    { stride := 1, data := List.replicate 1 0 }, rfl, rfl, rfl, by decide, by decide, by decide⟩

/-- C4, counterexample: frame A is 1 by 1 and frame B is 2 by 2, the oracle succeeds;
`butteraugliGetFrame` sets no filter error and returns a frame. -/
theorem butteraugliGetFrame_mismatch_counterexample :
    (sampleFrame ℝ 1 1 1 7).width ≠ (sampleFrame ℝ 2 2 2 9).width ∧
    (sampleFrame ℝ 1 1 1 7).height ≠ (sampleFrame ℝ 2 2 2 9).height ∧
    ∃ out evs,
      butteraugliGetFrame (sampleEnv (sampleFrame ℝ 1 1 1 7) (sampleFrame ℝ 2 2 2 9) true 5)
        Real.rpow 0 arAllFramesReady (sampleData 1 1) = some (some out, evs) ∧
      filterErrorSet evs = false := by
  refine ⟨by decide, by decide, ?_⟩
  obtain ⟨rgb1, rgb2, linear1, linear2, hin, -, -, -, hl1, hl2, hs1, hs2⟩ :=
    butteraugliGetFrame_inputs_spec
      (sampleEnv (sampleFrame ℝ 1 1 1 7) (sampleFrame ℝ 2 2 2 9) true 5) Real.rpow 0
      (sampleData 1 1) { id := pfRGB24, numPlanes := 3 } rfl (Nat.le_refl 3)
      sample_mismatch_copyInBounds
  obtain ⟨hll, hls⟩ := butteraugliGetFrame_inputs_shape
      (sampleEnv (sampleFrame ℝ 1 1 1 7) (sampleFrame ℝ 2 2 2 9) true 5) Real.rpow 0
      (sampleData 1 1) { id := pfRGB24, numPlanes := 3 } rfl (Nat.le_refl 3)
      sample_mismatch_copyInBounds rgb1 rgb2 linear1 linear2 hin
  have hok := sampleEnv_oracle (sampleFrame ℝ 1 1 1 7) (sampleFrame ℝ 2 2 2 9) 5
    linear1 linear2 1.0 hll hls
  obtain ⟨pr, pg, pb, r, g, b, -, -, -, -, hres⟩ :=
    butteraugliGetFrame_on_success
      (sampleEnv (sampleFrame ℝ 1 1 1 7) (sampleFrame ℝ 2 2 2 9) true 5) Real.rpow 0
      (sampleData 1 1) { id := pfRGB24, numPlanes := 3 } rgb1 rgb2 linear1 linear2 _ _ rfl hin
      hl1 hl2 hs1 hs2 hok (Image.create_hasShape _ _ _) sample_mismatch_heatMapInBounds
  exact ⟨_, _, hres, by simp [filterErrorSet]⟩

/-- C4, amended: `butteraugliGetFrame` compares no dimensions of the two frames (their
equality is required of the clips at setup time, by `butteraugliCreate`): it takes width
and height from frame A, and on frames whose widths or heights differ, the plane reads
staying in bounds, it sets the filter error and returns null exactly when the oracle
reports failure, and returns a frame without error when the oracle succeeds. -/
theorem butteraugliGetFrame_mismatch_unchecked {K : Type} [LinearOrderedField K] [FloorRing K]
    (env : Env K) (pow : K → K → K) (n : Int) (d : butteraugliData) (fi : VSFormat)
    (hfmt : d.vi.format = some fi) (hnp : fi.numPlanes ≤ 3)
    (hcopy : CopyInBounds (env.getFrameFilter n d.node1) (env.getFrameFilter n d.node2)
      fi.numPlanes)
    (_hmismatch : (env.getFrameFilter n d.node2).width ≠ (env.getFrameFilter n d.node1).width ∨
      (env.getFrameFilter n d.node2).height ≠ (env.getFrameFilter n d.node1).height) :
    ∃ rgb1 rgb2 linear1 linear2,
      butteraugliGetFrame_inputs env pow n d = some (rgb1, rgb2, linear1, linear2) ∧
      (∀ im ∈ rgb1, im.HasShape (env.getFrameFilter n d.node1).width
        (env.getFrameFilter n d.node1).height) ∧
      (∀ im ∈ rgb2, im.HasShape (env.getFrameFilter n d.node1).width
        (env.getFrameFilter n d.node1).height) ∧
      (env.ButteraugliInterface linear1 linear2 1.0 = none →
        butteraugliGetFrame env pow n arAllFramesReady d = some (none,
          [FrameEvent.getFrameFilter n d.node1, FrameEvent.getFrameFilter n d.node2,
           FrameEvent.newVideoFrame fi (env.getFrameFilter n d.node1).width
             (env.getFrameFilter n d.node1).height,
           FrameEvent.setFilterError "butteraugli: Fail to compare."])) ∧
      (∀ diff_map diff_value,
        env.ButteraugliInterface linear1 linear2 1.0 = some (diff_map, diff_value) →
        diff_map.HasShape (env.getFrameFilter n d.node1).width
          (env.getFrameFilter n d.node1).height →
        HeatMapInBounds
          (env.newVideoFrame fi (env.getFrameFilter n d.node1).width
            (env.getFrameFilter n d.node1).height (env.getFrameFilter n d.node1))
          (env.getFrameFilter n d.node1).width (env.getFrameFilter n d.node1).height →
        ∃ out evs, butteraugliGetFrame env pow n arAllFramesReady d = some (some out, evs) ∧
          filterErrorSet evs = false) := by
  obtain ⟨rgb1, rgb2, linear1, linear2, hin, -, -, -, hl1, hl2, hs1, hs2⟩ :=
    butteraugliGetFrame_inputs_spec env pow n d fi hfmt hnp hcopy
  refine ⟨rgb1, rgb2, linear1, linear2, hin, hs1, hs2, ?_, ?_⟩
  · intro hfail
    exact butteraugliGetFrame_on_failure env pow n d fi rgb1 rgb2 linear1 linear2 hfmt hin hfail
  · intro diff_map diff_value hok hmap hdst
    obtain ⟨pr, pg, pb, r, g, b, -, -, -, -, hres⟩ :=
      butteraugliGetFrame_on_success env pow n d fi rgb1 rgb2 linear1 linear2 diff_map
        diff_value hfmt hin hl1 hl2 hs1 hs2 hok hmap hdst
    exact ⟨_, _, hres, by simp [filterErrorSet]⟩

/-- Witness of the amended C4 on a frame A of 1 by 1 and a frame B of 2 by 2. -/
theorem butteraugliGetFrame_mismatch_unchecked_witness :
    (sampleData 1 1).vi.format = some { id := pfRGB24, numPlanes := 3 } ∧
    (3 : Nat) ≤ 3 ∧
    CopyInBounds
      ((sampleEnv (sampleFrame ℝ 1 1 1 7) (sampleFrame ℝ 2 2 2 9) true 5).getFrameFilter 0
        (sampleData 1 1).node1)
      ((sampleEnv (sampleFrame ℝ 1 1 1 7) (sampleFrame ℝ 2 2 2 9) true 5).getFrameFilter 0
        (sampleData 1 1).node2) 3 ∧
    ((sampleFrame ℝ 2 2 2 9).width ≠ (sampleFrame ℝ 1 1 1 7).width ∨
      (sampleFrame ℝ 2 2 2 9).height ≠ (sampleFrame ℝ 1 1 1 7).height) ∧
    ∃ rgb1 rgb2 linear1 linear2,
      butteraugliGetFrame_inputs (sampleEnv (sampleFrame ℝ 1 1 1 7) (sampleFrame ℝ 2 2 2 9)
        true 5) Real.rpow 0 (sampleData 1 1) = some (rgb1, rgb2, linear1, linear2) ∧
      (∀ im ∈ rgb1, im.HasShape 1 1) ∧
      (∀ im ∈ rgb2, im.HasShape 1 1) ∧
      ((sampleEnv (sampleFrame ℝ 1 1 1 7) (sampleFrame ℝ 2 2 2 9) true 5).ButteraugliInterface
          linear1 linear2 1.0 = none →
        butteraugliGetFrame (sampleEnv (sampleFrame ℝ 1 1 1 7) (sampleFrame ℝ 2 2 2 9) true 5)
          Real.rpow 0 arAllFramesReady (sampleData 1 1) = some (none,
          [FrameEvent.getFrameFilter 0 (sampleData 1 1).node1,
           FrameEvent.getFrameFilter 0 (sampleData 1 1).node2,
           FrameEvent.newVideoFrame { id := pfRGB24, numPlanes := 3 } 1 1,
           FrameEvent.setFilterError "butteraugli: Fail to compare."])) ∧
      (∀ diff_map diff_value,
        (sampleEnv (sampleFrame ℝ 1 1 1 7) (sampleFrame ℝ 2 2 2 9) true 5).ButteraugliInterface
          linear1 linear2 1.0 = some (diff_map, diff_value) →
        diff_map.HasShape 1 1 →
        HeatMapInBounds
          ((sampleEnv (sampleFrame ℝ 1 1 1 7) (sampleFrame ℝ 2 2 2 9) true 5).newVideoFrame
            { id := pfRGB24, numPlanes := 3 } 1 1 (sampleFrame ℝ 1 1 1 7)) 1 1 →
        ∃ out evs, butteraugliGetFrame (sampleEnv (sampleFrame ℝ 1 1 1 7)
            (sampleFrame ℝ 2 2 2 9) true 5) Real.rpow 0 arAllFramesReady (sampleData 1 1)
              = some (some out, evs) ∧
          filterErrorSet evs = false) :=
  ⟨rfl, Nat.le_refl 3, sample_mismatch_copyInBounds, Or.inl (by decide),
    butteraugliGetFrame_mismatch_unchecked
      (sampleEnv (sampleFrame ℝ 1 1 1 7) (sampleFrame ℝ 2 2 2 9) true 5) Real.rpow 0
      (sampleData 1 1) { id := pfRGB24, numPlanes := 3 } rfl (Nat.le_refl 3)
      sample_mismatch_copyInBounds (Or.inl (by decide))⟩

/-- C5: on every frame pair on which the oracle succeeds (the plane reads in bounds, the
distortion map of the frame dimensions, the destination frame holding the rows to write),
the frame `butteraugliGetFrame` returns carries the floating-point property `_Diff` whose
value is exactly the aggregate score the oracle returned for the pair, and its three planes
hold the heat map `CreateHeatMapImage` computes from the oracle's distortion map with the
good threshold `ButteraugliFuzzyInverse(1.5)` and the bad threshold
`ButteraugliFuzzyInverse(0.5)`. -/
theorem butteraugliGetFrame_diff_property {K : Type} [LinearOrderedField K] [FloorRing K]
    (env : Env K) (pow : K → K → K) (n : Int) (d : butteraugliData) (fi : VSFormat)
    (hfmt : d.vi.format = some fi) (hnp : fi.numPlanes ≤ 3)
    (hcopy : CopyInBounds (env.getFrameFilter n d.node1) (env.getFrameFilter n d.node2)
      fi.numPlanes) :
    ∃ rgb1 rgb2 linear1 linear2,
      butteraugliGetFrame_inputs env pow n d = some (rgb1, rgb2, linear1, linear2) ∧
      ∀ diff_map diff_value,
        env.ButteraugliInterface linear1 linear2 1.0 = some (diff_map, diff_value) →
        diff_map.HasShape (env.getFrameFilter n d.node1).width
          (env.getFrameFilter n d.node1).height →
        HeatMapInBounds
          (env.newVideoFrame fi (env.getFrameFilter n d.node1).width
            (env.getFrameFilter n d.node1).height (env.getFrameFilter n d.node1))
          (env.getFrameFilter n d.node1).width (env.getFrameFilter n d.node1).height →
        ∃ out evs pr pg pb r g b,
          butteraugliGetFrame env pow n arAllFramesReady d = some (some out, evs) ∧
          propGet out.props "_Diff" = some (PropValue.float diff_value) ∧
          (env.newVideoFrame fi (env.getFrameFilter n d.node1).width
            (env.getFrameFilter n d.node1).height (env.getFrameFilter n d.node1)).planes[0]?
              = some pr ∧
          (env.newVideoFrame fi (env.getFrameFilter n d.node1).width
            (env.getFrameFilter n d.node1).height (env.getFrameFilter n d.node1)).planes[1]?
              = some pg ∧
          (env.newVideoFrame fi (env.getFrameFilter n d.node1).width
            (env.getFrameFilter n d.node1).height (env.getFrameFilter n d.node1)).planes[2]?
              = some pb ∧
          CreateHeatMapImage pow diff_map (env.ButteraugliFuzzyInverse 1.5)
            (env.ButteraugliFuzzyInverse 0.5) (env.getFrameFilter n d.node1).width
            (env.getFrameFilter n d.node1).height pr.data pg.data pb.data pr.stride
              = some (r, g, b) ∧
          out.planes[0]? = some { pr with data := r } ∧
          out.planes[1]? = some { pg with data := g } ∧
          out.planes[2]? = some { pb with data := b } := by
  obtain ⟨rgb1, rgb2, linear1, linear2, hin, -, -, -, hl1, hl2, hs1, hs2⟩ :=
    butteraugliGetFrame_inputs_spec env pow n d fi hfmt hnp hcopy
  refine ⟨rgb1, rgb2, linear1, linear2, hin, ?_⟩
  intro diff_map diff_value hok hmap hdst
  obtain ⟨pr, pg, pb, r, g, b, hpr, hpg, hpb, hheat, hres⟩ :=
    butteraugliGetFrame_on_success env pow n d fi rgb1 rgb2 linear1 linear2 diff_map
      diff_value hfmt hin hl1 hl2 hs1 hs2 hok hmap hdst
  have hlen : 2 < (env.newVideoFrame fi (env.getFrameFilter n d.node1).width
      (env.getFrameFilter n d.node1).height (env.getFrameFilter n d.node1)).planes.length := by
    by_contra hcon
    rw [List.getElem?_eq_none (by omega)] at hpb
    exact absurd hpb (by simp)
  refine ⟨_, _, pr, pg, pb, r, g, b, hres, propGet_propSetFloat _ _ _, hpr, hpg, hpb, hheat,
    ?_, ?_, ?_⟩
  · simp only [List.getElem?_set, List.length_set]
    have h0 : 0 < (env.newVideoFrame fi (env.getFrameFilter n d.node1).width
      (env.getFrameFilter n d.node1).height (env.getFrameFilter n d.node1)).planes.length := by
      omega
    simp [h0]
  · simp only [List.getElem?_set, List.length_set]
    have h1 : 1 < (env.newVideoFrame fi (env.getFrameFilter n d.node1).width
      (env.getFrameFilter n d.node1).height (env.getFrameFilter n d.node1)).planes.length := by
      omega
    simp [h1]
  · simp only [List.getElem?_set, List.length_set]
    simp [hlen]

/-- The reads of the plane copy stay in bounds on two sample frames of 2 by 2 samples and
stride 4. -/
theorem sample_copyInBounds (ok : Bool) :
    CopyInBounds
      ((sampleEnv (sampleFrame ℝ 2 2 4 7) (sampleFrame ℝ 2 2 4 9) ok 5).getFrameFilter 0
        (sampleData 2 2).node1)
      ((sampleEnv (sampleFrame ℝ 2 2 4 7) (sampleFrame ℝ 2 2 4 9) ok 5).getFrameFilter 0
        (sampleData 2 2).node2) 3 := by
  intro plane hp
  refine ⟨{ stride := 4, data := List.replicate 8 7 }, { stride := 4, data := List.replicate 8 9 },
    ?_, ?_, ?_, ?_⟩
  · interval_cases plane <;> rfl
  · interval_cases plane <;> rfl
  · show RowsInBuffer (List.replicate 8 7) 4 2 2
    decide
  · show RowsInBuffer (List.replicate 8 9) 4 2 2
    decide

/-- The destination frame of the sample environment holds the rows of a 2 by 2 heat map. -/
theorem sample_heatMapInBounds :
    HeatMapInBounds
      ((sampleEnv (sampleFrame ℝ 2 2 4 7) (sampleFrame ℝ 2 2 4 9) true 5).newVideoFrame
        { id := pfRGB24, numPlanes := 3 } 2 2 (sampleFrame ℝ 2 2 4 7)) 2 2 :=
  ⟨{ stride := 2, data := List.replicate 4 0 }, { stride := 2, data := List.replicate 4 0 },
    { stride := 2, data := List.replicate 4 0 }, rfl, rfl, rfl, by decide, by decide, by decide⟩

/-- Witness of C3: two frames of 2 by 2 and a failing oracle; the run sets the filter error
and returns null. -/
theorem butteraugliGetFrame_oracle_failure_witness :
    (sampleData 2 2).vi.format = some { id := pfRGB24, numPlanes := 3 } ∧
    (3 : Nat) ≤ 3 ∧
    CopyInBounds
      ((sampleEnv (sampleFrame ℝ 2 2 4 7) (sampleFrame ℝ 2 2 4 9) false 5).getFrameFilter 0
        (sampleData 2 2).node1)
      ((sampleEnv (sampleFrame ℝ 2 2 4 7) (sampleFrame ℝ 2 2 4 9) false 5).getFrameFilter 0
        (sampleData 2 2).node2) 3 ∧
    ∃ evs, butteraugliGetFrame (sampleEnv (sampleFrame ℝ 2 2 4 7) (sampleFrame ℝ 2 2 4 9)
        false 5) Real.rpow 0 arAllFramesReady (sampleData 2 2) = some (none, evs) ∧
      filterErrorSet evs = true := by
  refine ⟨rfl, Nat.le_refl 3, sample_copyInBounds false, ?_⟩
  obtain ⟨rgb1, rgb2, linear1, linear2, -, hfail, -⟩ :=
    butteraugliGetFrame_oracle_failure
      (sampleEnv (sampleFrame ℝ 2 2 4 7) (sampleFrame ℝ 2 2 4 9) false 5) Real.rpow 0
      (sampleData 2 2) { id := pfRGB24, numPlanes := 3 } rfl (Nat.le_refl 3)
      (sample_copyInBounds false)
  exact hfail rfl

/-- Witness of C5: two frames of 2 by 2 and an oracle that returns the score 5; the run
returns a frame whose `_Diff` is 5 and whose planes hold the heat map. -/
theorem butteraugliGetFrame_diff_property_witness :
    (sampleData 2 2).vi.format = some { id := pfRGB24, numPlanes := 3 } ∧
    (3 : Nat) ≤ 3 ∧
    CopyInBounds
      ((sampleEnv (sampleFrame ℝ 2 2 4 7) (sampleFrame ℝ 2 2 4 9) true 5).getFrameFilter 0
        (sampleData 2 2).node1)
      ((sampleEnv (sampleFrame ℝ 2 2 4 7) (sampleFrame ℝ 2 2 4 9) true 5).getFrameFilter 0
        (sampleData 2 2).node2) 3 ∧
    ∃ out evs pr pg pb r g b,
      butteraugliGetFrame (sampleEnv (sampleFrame ℝ 2 2 4 7) (sampleFrame ℝ 2 2 4 9)
        true 5) Real.rpow 0 arAllFramesReady (sampleData 2 2) = some (some out, evs) ∧
      propGet out.props "_Diff" = some (PropValue.float (5 : ℝ)) ∧
      ((sampleEnv (sampleFrame ℝ 2 2 4 7) (sampleFrame ℝ 2 2 4 9) true 5).newVideoFrame
        { id := pfRGB24, numPlanes := 3 } 2 2 (sampleFrame ℝ 2 2 4 7)).planes[0]? = some pr ∧
      ((sampleEnv (sampleFrame ℝ 2 2 4 7) (sampleFrame ℝ 2 2 4 9) true 5).newVideoFrame
        { id := pfRGB24, numPlanes := 3 } 2 2 (sampleFrame ℝ 2 2 4 7)).planes[1]? = some pg ∧
      ((sampleEnv (sampleFrame ℝ 2 2 4 7) (sampleFrame ℝ 2 2 4 9) true 5).newVideoFrame
        { id := pfRGB24, numPlanes := 3 } 2 2 (sampleFrame ℝ 2 2 4 7)).planes[2]? = some pb ∧
      CreateHeatMapImage Real.rpow (Image.create 2 2 (0 : ℝ)) (3 - 1.5) (3 - 0.5)
        2 2 pr.data pg.data pb.data pr.stride = some (r, g, b) ∧
      out.planes[0]? = some { pr with data := r } ∧
      out.planes[1]? = some { pg with data := g } ∧
      out.planes[2]? = some { pb with data := b } := by
  refine ⟨rfl, Nat.le_refl 3, sample_copyInBounds true, ?_⟩
  obtain ⟨rgb1, rgb2, linear1, linear2, hin, hrun⟩ :=
    butteraugliGetFrame_diff_property
      (sampleEnv (sampleFrame ℝ 2 2 4 7) (sampleFrame ℝ 2 2 4 9) true 5) Real.rpow 0
      (sampleData 2 2) { id := pfRGB24, numPlanes := 3 } rfl (Nat.le_refl 3)
      (sample_copyInBounds true)
  obtain ⟨hll, hls⟩ := butteraugliGetFrame_inputs_shape
      (sampleEnv (sampleFrame ℝ 2 2 4 7) (sampleFrame ℝ 2 2 4 9) true 5) Real.rpow 0
      (sampleData 2 2) { id := pfRGB24, numPlanes := 3 } rfl (Nat.le_refl 3)
      (sample_copyInBounds true) rgb1 rgb2 linear1 linear2 hin
  have hok := sampleEnv_oracle (sampleFrame ℝ 2 2 4 7) (sampleFrame ℝ 2 2 4 9) 5
    linear1 linear2 1.0 hll hls
  exact hrun _ _ hok (Image.create_hasShape _ _ _) sample_heatMapInBounds

/-! ### The three branches of the score remap -/

theorem ScoreToRgb_remap_low {K : Type} [LinearOrderedField K] (d good bad : K)
    (h : d < good) : ScoreToRgb_remap d good bad = (d / good) * 0.3 := by
  simp [ScoreToRgb_remap, h]

theorem ScoreToRgb_remap_mid {K : Type} [LinearOrderedField K] (d good bad : K)
    (h1 : good ≤ d) (h2 : d < bad) :
    ScoreToRgb_remap d good bad = 0.3 + (d - good) / (bad - good) * 0.15 := by
  simp [ScoreToRgb_remap, not_lt.2 h1, h2]

theorem ScoreToRgb_remap_high {K : Type} [LinearOrderedField K] (d good bad : K)
    (h1 : good ≤ d) (h2 : bad ≤ d) :
    ScoreToRgb_remap d good bad = 0.45 + (d - bad) / (bad * 12) * 0.5 := by
  simp [ScoreToRgb_remap, not_lt.2 h1, not_lt.2 h2]

/-- Below the good threshold the remapped score lies below 0.3, and is not negative for a
distortion that is not negative. -/
theorem ScoreToRgb_remap_low_range (d good bad : ℝ) (hgood : 0 < good) (h : d < good) :
    ScoreToRgb_remap d good bad < 0.3 ∧ (0 ≤ d → 0 ≤ ScoreToRgb_remap d good bad) := by
  rw [ScoreToRgb_remap_low d good bad h]
  have h1 : d / good < 1 := (div_lt_one hgood).2 h
  constructor
  · nlinarith
  · intro h0
    have : 0 ≤ d / good := div_nonneg h0 hgood.le
    nlinarith

/-- Between the thresholds the remapped score lies in `[0.3, 0.45)`. -/
theorem ScoreToRgb_remap_mid_range (d good bad : ℝ) (h1 : good ≤ d) (h2 : d < bad) :
    0.3 ≤ ScoreToRgb_remap d good bad ∧ ScoreToRgb_remap d good bad < 0.45 := by
  rw [ScoreToRgb_remap_mid d good bad h1 h2]
  have hpos : 0 < bad - good := by linarith
  have ha : 0 ≤ (d - good) / (bad - good) := div_nonneg (by linarith) hpos.le
  have hb : (d - good) / (bad - good) < 1 := (div_lt_one hpos).2 (by linarith)
  constructor
  · nlinarith
  · nlinarith

/-- From the bad threshold on the remapped score is at least 0.45. -/
theorem ScoreToRgb_remap_high_range (d good bad : ℝ) (hgood : 0 < good) (hlt : good < bad)
    (h2 : bad ≤ d) : 0.45 ≤ ScoreToRgb_remap d good bad := by
  rw [ScoreToRgb_remap_high d good bad (by linarith) h2]
  have hpos : 0 < bad * 12 := by linarith
  have ha : 0 ≤ (d - bad) / (bad * 12) := div_nonneg (by linarith) hpos.le
  nlinarith

/-- The score remap is strictly increasing on the whole real line when `0 < good < bad`. -/
theorem ScoreToRgb_remap_strictMono (good bad : ℝ) (hgood : 0 < good) (hlt : good < bad)
    (d1 d2 : ℝ) (h12 : d1 < d2) :
    ScoreToRgb_remap d1 good bad < ScoreToRgb_remap d2 good bad := by
  have hbad : 0 < bad := by linarith
  by_cases ha : d1 < good
  · by_cases hb : d2 < good
    · rw [ScoreToRgb_remap_low d1 good bad ha, ScoreToRgb_remap_low d2 good bad hb]
      have : d1 / good < d2 / good := div_lt_div_of_pos_right h12 hgood
      nlinarith
    · have h1 := (ScoreToRgb_remap_low_range d1 good bad hgood ha).1
      by_cases hc : d2 < bad
      · have h2 := (ScoreToRgb_remap_mid_range d2 good bad (not_lt.1 hb) hc).1
        linarith
      · have h2 := ScoreToRgb_remap_high_range d2 good bad hgood hlt (not_lt.1 hc)
        norm_num at h1 h2 ⊢
        linarith
  · have ha2 : good ≤ d1 := not_lt.1 ha
    have hb2 : good ≤ d2 := by linarith
    by_cases hc : d1 < bad
    · by_cases hd : d2 < bad
      · rw [ScoreToRgb_remap_mid d1 good bad ha2 hc, ScoreToRgb_remap_mid d2 good bad hb2 hd]
        have hpos : 0 < bad - good := by linarith
        have : (d1 - good) / (bad - good) < (d2 - good) / (bad - good) :=
          div_lt_div_of_pos_right (by linarith) hpos
        nlinarith
      · have h1 := (ScoreToRgb_remap_mid_range d1 good bad ha2 hc).2
        have h2 := ScoreToRgb_remap_high_range d2 good bad hgood hlt (not_lt.1 hd)
        linarith
    · have hc2 : bad ≤ d1 := not_lt.1 hc
      rw [ScoreToRgb_remap_high d1 good bad ha2 hc2,
        ScoreToRgb_remap_high d2 good bad hb2 (by linarith)]
      have hpos : 0 < bad * 12 := by linarith
      have : (d1 - bad) / (bad * 12) < (d2 - bad) / (bad * 12) :=
        div_lt_div_of_pos_right (by linarith) hpos
      nlinarith

/-- C15: for all real thresholds with `0 < good < bad` the score remap of `ScoreToRgb`
sends every `d` in `[0, good)` into `[0, 0.3)`, every `d` in `[good, bad)` into
`[0.3, 0.45)` and every `d >= bad` into `[0.45, +infinity)`, and the last range is not
bounded above: for every bound `M` some `d >= bad` is remapped above `M`. -/
theorem ScoreToRgb_remap_ranges (good bad : ℝ) (hgood : 0 < good) (hlt : good < bad) :
    (∀ d, 0 ≤ d → d < good →
      0 ≤ ScoreToRgb_remap d good bad ∧ ScoreToRgb_remap d good bad < 0.3) ∧
    (∀ d, good ≤ d → d < bad →
      0.3 ≤ ScoreToRgb_remap d good bad ∧ ScoreToRgb_remap d good bad < 0.45) ∧
    (∀ d, bad ≤ d → 0.45 ≤ ScoreToRgb_remap d good bad) ∧
    (∀ M : ℝ, ∃ d, bad ≤ d ∧ M < ScoreToRgb_remap d good bad) := by
  have hbad : 0 < bad := by linarith
  refine ⟨?_, ?_, ?_, ?_⟩
  · intro d h0 h
    obtain ⟨h1, h2⟩ := ScoreToRgb_remap_low_range d good bad hgood h
    exact ⟨h2 h0, h1⟩
  · intro d h1 h2
    exact ScoreToRgb_remap_mid_range d good bad h1 h2
  · intro d h
    exact ScoreToRgb_remap_high_range d good bad hgood hlt h
  · intro M
    refine ⟨bad + bad * 12 * (2 * |M| + 1), ?_, ?_⟩
    · have : 0 ≤ bad * 12 * (2 * |M| + 1) := by positivity
      linarith
    · rw [ScoreToRgb_remap_high _ good bad _ _]
      · have hne : bad * 12 ≠ 0 := by positivity
        have : (bad + bad * 12 * (2 * |M| + 1) - bad) / (bad * 12) = 2 * |M| + 1 := by
          field_simp
        rw [this]
        have := le_abs_self M
        have := abs_nonneg M
        norm_num
        linarith
      · have : 0 ≤ bad * 12 * (2 * |M| + 1) := by positivity
        linarith
      · have : 0 ≤ bad * 12 * (2 * |M| + 1) := by positivity
        linarith

/-- Witness of C15 at the thresholds 1 and 2. -/
theorem ScoreToRgb_remap_ranges_witness :
    (0 : ℝ) < 1 ∧ (1 : ℝ) < 2 ∧
    ((∀ d : ℝ, 0 ≤ d → d < 1 →
      0 ≤ ScoreToRgb_remap d 1 2 ∧ ScoreToRgb_remap d 1 2 < 0.3) ∧
    (∀ d : ℝ, 1 ≤ d → d < 2 →
      0.3 ≤ ScoreToRgb_remap d 1 2 ∧ ScoreToRgb_remap d 1 2 < 0.45) ∧
    (∀ d : ℝ, 2 ≤ d → 0.45 ≤ ScoreToRgb_remap d 1 2) ∧
    (∀ M : ℝ, ∃ d : ℝ, 2 ≤ d ∧ M < ScoreToRgb_remap d 1 2)) :=
  ⟨by norm_num, by norm_num, ScoreToRgb_remap_ranges 1 2 (by norm_num) (by norm_num)⟩

/-! ### The gradient position, its floor and its fractional part -/

/-- On the clamped position `static_cast<int>` is the floor. -/
theorem static_cast_int_clamp {K : Type} [LinearOrderedField K] [FloorRing K] (score : K) :
    static_cast_int (ScoreToRgb_clamp score) = ⌊ScoreToRgb_clamp score⌋ := by
  unfold static_cast_int
  rw [if_pos (ScoreToRgb_clamp_range score).1]

/-- The fractional part `mix` of the clamped position lies in `[0, 1)`. -/
theorem ScoreToRgb_mix_range {K : Type} [LinearOrderedField K] [FloorRing K] (score : K) :
    0 ≤ ScoreToRgb_clamp score - (static_cast_int (ScoreToRgb_clamp score) : K) ∧
      ScoreToRgb_clamp score - (static_cast_int (ScoreToRgb_clamp score) : K) < 1 := by
  rw [static_cast_int_clamp]
  constructor
  · exact sub_nonneg.2 (Int.floor_le _)
  · have := Int.lt_floor_add_one (ScoreToRgb_clamp score)
    linarith

/-- At index 10 the fractional part is zero: the position is then exactly 10. -/
theorem ScoreToRgb_mix_at_last {K : Type} [LinearOrderedField K] [FloorRing K] (score : K)
    (h : static_cast_int (ScoreToRgb_clamp score) = 10) :
    ScoreToRgb_clamp score - (static_cast_int (ScoreToRgb_clamp score) : K) = 0 := by
  have h10 := (ScoreToRgb_clamp_range score).2
  have hmix := (ScoreToRgb_mix_range score).1
  rw [h] at hmix ⊢
  have : ((10 : Int) : K) = 10 := by norm_num
  rw [this] at hmix ⊢
  linarith

/-- The clamp is monotone. -/
theorem ScoreToRgb_clamp_mono {K : Type} [LinearOrderedField K] (s1 s2 : K) (h : s1 ≤ s2) :
    ScoreToRgb_clamp s1 ≤ ScoreToRgb_clamp s2 := by
  unfold ScoreToRgb_clamp kTableSize
  apply min_le_min _ (le_refl _)
  apply max_le_max _ (le_refl _)
  apply mul_le_mul_of_nonneg_right h
  norm_num

/-- A clamped position that is a position inside the range is the position itself. -/
theorem ScoreToRgb_clamp_of_mem {K : Type} [LinearOrderedField K] (s : K)
    (h0 : 0 ≤ s * 11) (h10 : s * 11 ≤ 10) : ScoreToRgb_clamp s = s * 11 := by
  unfold ScoreToRgb_clamp kTableSize
  have e1 : (((12 - 1 : Int)) : K) = 11 := by norm_num
  have e2 : (((12 - 2 : Int)) : K) = 10 := by norm_num
  have e0 : (0.0 : K) = 0 := by norm_num
  rw [e1, e2, e0, max_eq_left h0, min_eq_left h10]

/-- A position of 10 or more is clamped to 10. -/
theorem ScoreToRgb_clamp_of_ge {K : Type} [LinearOrderedField K] (s : K)
    (h10 : 10 ≤ s * 11) : ScoreToRgb_clamp s = 10 := by
  unfold ScoreToRgb_clamp kTableSize
  have e1 : (((12 - 1 : Int)) : K) = 11 := by norm_num
  have e2 : (((12 - 2 : Int)) : K) = 10 := by norm_num
  rw [e1, e2]
  apply min_eq_right
  exact le_trans h10 (le_max_left _ _)

/-- Every entry of the gradient table that `ScoreToRgb` can read lies in `[0, 1]`. -/
theorem heatmapAt_range {K : Type} [LinearOrderedField K] (ix : Int) (c : Nat)
    (h0 : 0 ≤ ix) (h11 : ix ≤ 11) (hc : c < 3) :
    ∃ v : K, heatmapAt ix c = some v ∧ 0 ≤ v ∧ v ≤ 1 := by
  interval_cases ix <;> interval_cases c <;>
    simp [heatmapAt, heatmap] <;> norm_num

theorem rpow_half (v : ℝ) : Real.rpow v 0.5 = Real.sqrt v := by
  rw [Real.sqrt_eq_rpow, Real.rpow_eq_pow]
  norm_num

/-- On a value in `[0.5, 255.5]` the conversion `static_cast<uint8_t>` is the floor: it
neither wraps nor needs a clamp. -/
theorem static_cast_uint8_t_floor (x : ℝ) (h0 : 0.5 ≤ x) (h1 : x ≤ 255.5) :
    static_cast_int x = ⌊x⌋ ∧ 0 ≤ ⌊x⌋ ∧ ⌊x⌋ ≤ 255 ∧ ⌊x⌋ % 256 = ⌊x⌋ ∧
      ((static_cast_uint8_t x).val : Int) = ⌊x⌋ := by
  have hx0 : (0 : ℝ) ≤ x := by norm_num at h0; linarith
  have hf0 : 0 ≤ ⌊x⌋ := Int.floor_nonneg.2 hx0
  have hf1 : ⌊x⌋ ≤ 255 := by
    have h2 : (⌊x⌋ : ℝ) ≤ x := Int.floor_le x
    have h3 : (⌊x⌋ : ℝ) < 256 := by norm_num at h1; linarith
    have h4 : ⌊x⌋ < 256 := by exact_mod_cast h3
    omega
  have hcast : static_cast_int x = ⌊x⌋ := by
    unfold static_cast_int
    rw [if_pos hx0]
  refine ⟨hcast, hf0, hf1, by omega, ?_⟩
  simp only [static_cast_uint8_t, hcast]
  omega

/-- One colour channel over the reals: the interpolated value `v` lies in `[0, 1]`,
`255 * sqrt v + 0.5` lies in `[0.5, 255.5]`, and the channel is its floor. -/
theorem ScoreToRgb_channel_real (ix : Int) (mix : ℝ) (c : Nat)
    (h0 : 0 ≤ ix) (h10 : ix ≤ 10) (hm0 : 0 ≤ mix) (hm1 : mix ≤ 1) (hc : c < 3) :
    ∃ (hi lo : ℝ) (ch : uint8_t), heatmapAt (ix + 1) c = some hi ∧ heatmapAt ix c = some lo ∧
      0 ≤ mix * hi + (1 - mix) * lo ∧ mix * hi + (1 - mix) * lo ≤ 1 ∧
      0.5 ≤ 255 * Real.sqrt (mix * hi + (1 - mix) * lo) + 0.5 ∧
      255 * Real.sqrt (mix * hi + (1 - mix) * lo) + 0.5 ≤ 255.5 ∧
      ScoreToRgb_channel Real.rpow ix mix c = some ch ∧
      (ch.val : Int) = ⌊255 * Real.sqrt (mix * hi + (1 - mix) * lo) + 0.5⌋ := by
  obtain ⟨hi, hhi, hi0, hi1⟩ := heatmapAt_range (K := ℝ) (ix + 1) c (by omega) (by omega) hc
  obtain ⟨lo, hlo, lo0, lo1⟩ := heatmapAt_range (K := ℝ) ix c h0 (by omega) hc
  have hv0 : 0 ≤ mix * hi + (1 - mix) * lo := by
    have : 0 ≤ 1 - mix := by linarith
    positivity
  have hv1 : mix * hi + (1 - mix) * lo ≤ 1 := by
    have : 0 ≤ 1 - mix := by linarith
    nlinarith
  have hs0 : 0 ≤ Real.sqrt (mix * hi + (1 - mix) * lo) := Real.sqrt_nonneg _
  have hs1 : Real.sqrt (mix * hi + (1 - mix) * lo) ≤ 1 := by
    exact Real.sqrt_le_iff.2 ⟨by norm_num, by simpa using hv1⟩
  have hx0 : (0.5 : ℝ) ≤ 255 * Real.sqrt (mix * hi + (1 - mix) * lo) + 0.5 := by
    linarith
  have hx1 : 255 * Real.sqrt (mix * hi + (1 - mix) * lo) + 0.5 ≤ 255.5 := by
    norm_num
    linarith
  refine ⟨hi, lo, static_cast_uint8_t (255 * Real.sqrt (mix * hi + (1 - mix) * lo) + 0.5),
    hhi, hlo, hv0, hv1, hx0, hx1, ?_, (static_cast_uint8_t_floor _ hx0 hx1).2.2.2.2⟩
  have hch : ScoreToRgb_channel Real.rpow ix mix c
      = some (static_cast_uint8_t (255 * Real.rpow (mix * hi + (1 - mix) * lo) 0.5 + 0.5)) := by
    simp only [ScoreToRgb_channel, hhi, hlo]
    rfl
  rw [hch, rpow_half]

/-- The colour `ScoreToRgb` returns is made of its three channels. -/
theorem ScoreToRgb_of_channels {K : Type} [LinearOrderedField K] [FloorRing K]
    (pow : K → K → K) (d good bad : K) (r g b : uint8_t)
    (hr : ScoreToRgb_channel pow
      (static_cast_int (ScoreToRgb_clamp (ScoreToRgb_remap d good bad)))
      (ScoreToRgb_clamp (ScoreToRgb_remap d good bad) -
        (static_cast_int (ScoreToRgb_clamp (ScoreToRgb_remap d good bad)) : K)) 0 = some r)
    (hg : ScoreToRgb_channel pow
      (static_cast_int (ScoreToRgb_clamp (ScoreToRgb_remap d good bad)))
      (ScoreToRgb_clamp (ScoreToRgb_remap d good bad) -
        (static_cast_int (ScoreToRgb_clamp (ScoreToRgb_remap d good bad)) : K)) 1 = some g)
    (hb : ScoreToRgb_channel pow
      (static_cast_int (ScoreToRgb_clamp (ScoreToRgb_remap d good bad)))
      (ScoreToRgb_clamp (ScoreToRgb_remap d good bad) -
        (static_cast_int (ScoreToRgb_clamp (ScoreToRgb_remap d good bad)) : K)) 2 = some b) :
    ScoreToRgb pow d good bad = some (r, g, b) := by
  simp [ScoreToRgb, hr, hg, hb]

/-- At a clamped position that is an integer `k` the index is `k`, the mix is zero and each
channel is the floor of `255 * sqrt t + 0.5` for the entry `t` of stop `k` alone. -/
theorem ScoreToRgb_integer_position (d good bad : ℝ) (k : Int)
    (hpos : ScoreToRgb_clamp (ScoreToRgb_remap d good bad) = (k : ℝ)) :
    0 ≤ k ∧ k ≤ 10 ∧
    static_cast_int (ScoreToRgb_clamp (ScoreToRgb_remap d good bad)) = k ∧
    ScoreToRgb_clamp (ScoreToRgb_remap d good bad) -
      (static_cast_int (ScoreToRgb_clamp (ScoreToRgb_remap d good bad)) : ℝ) = 0 ∧
    ∃ (t0 t1 t2 : ℝ) (r g b : uint8_t),
      heatmapAt k 0 = some t0 ∧ heatmapAt k 1 = some t1 ∧ heatmapAt k 2 = some t2 ∧
      ScoreToRgb Real.rpow d good bad = some (r, g, b) ∧
      (r.val : Int) = ⌊255 * Real.sqrt t0 + 0.5⌋ ∧
      (g.val : Int) = ⌊255 * Real.sqrt t1 + 0.5⌋ ∧
      (b.val : Int) = ⌊255 * Real.sqrt t2 + 0.5⌋ := by
  obtain ⟨hi0, hi10⟩ := ScoreToRgb_ix_range (ScoreToRgb_remap d good bad)
  have hix : static_cast_int (ScoreToRgb_clamp (ScoreToRgb_remap d good bad)) = k := by
    rw [static_cast_int_clamp, hpos]
    exact Int.floor_intCast k
  have hmix : ScoreToRgb_clamp (ScoreToRgb_remap d good bad) -
      (static_cast_int (ScoreToRgb_clamp (ScoreToRgb_remap d good bad)) : ℝ) = 0 := by
    rw [hix, hpos]
    exact sub_self _
  rw [hix] at hi0 hi10
  refine ⟨hi0, hi10, hix, hmix, ?_⟩
  have hch : ∀ c, c < 3 → ∃ (t : ℝ) (ch : uint8_t), heatmapAt k c = some t ∧
      ScoreToRgb_channel Real.rpow
        (static_cast_int (ScoreToRgb_clamp (ScoreToRgb_remap d good bad)))
        (ScoreToRgb_clamp (ScoreToRgb_remap d good bad) -
          (static_cast_int (ScoreToRgb_clamp (ScoreToRgb_remap d good bad)) : ℝ)) c = some ch ∧
      (ch.val : Int) = ⌊255 * Real.sqrt t + 0.5⌋ := by
    intro c hc
    obtain ⟨hi, lo, ch, -, hlo, -, -, -, -, hch, hval⟩ :=
      ScoreToRgb_channel_real k 0 c hi0 hi10 (le_refl 0) (by norm_num) hc
    refine ⟨lo, ch, hlo, ?_, ?_⟩
    · rw [hmix, hix]
      exact hch
    · rw [hval]
      congr 3
      norm_num
  obtain ⟨t0, r, h0, hr, hrv⟩ := hch 0 (by norm_num)
  obtain ⟨t1, g, h1, hg, hgv⟩ := hch 1 (by norm_num)
  obtain ⟨t2, b, h2, hb, hbv⟩ := hch 2 (by norm_num)
  exact ⟨t0, t1, t2, r, g, b, h0, h1, h2,
    ScoreToRgb_of_channels Real.rpow d good bad r g b hr hg hb, hrv, hgv, hbv⟩

/-- The colour at position 0 is black. -/
theorem ScoreToRgb_position_zero (d good bad : ℝ)
    (hpos : ScoreToRgb_clamp (ScoreToRgb_remap d good bad) = 0) :
    ScoreToRgb Real.rpow d good bad = some (0, 0, 0) := by
  obtain ⟨-, -, -, -, t0, t1, t2, r, g, b, h0, h1, h2, hrgb, hr, hg, hb⟩ :=
    ScoreToRgb_integer_position d good bad 0 (by simpa using hpos)
  have e0 : t0 = 0 := by
    have : heatmapAt (K := ℝ) 0 0 = some 0 := by simp [heatmapAt, heatmap]
    rw [this] at h0
    exact (Option.some.inj h0).symm
  have e1 : t1 = 0 := by
    have : heatmapAt (K := ℝ) 0 1 = some 0 := by simp [heatmapAt, heatmap]
    rw [this] at h1
    exact (Option.some.inj h1).symm
  have e2 : t2 = 0 := by
    have : heatmapAt (K := ℝ) 0 2 = some 0 := by simp [heatmapAt, heatmap]
    rw [this] at h2
    exact (Option.some.inj h2).symm
  have hfl : ⌊255 * Real.sqrt (0 : ℝ) + 0.5⌋ = 0 := by
    rw [Real.sqrt_zero, Int.floor_eq_iff]
    norm_num
  rw [e0, hfl] at hr
  rw [e1, hfl] at hg
  rw [e2, hfl] at hb
  have hr0 : r = 0 := Fin.ext (by simpa using hr)
  have hg0 : g = 0 := Fin.ext (by simpa using hg)
  have hb0 : b = 0 := Fin.ext (by simpa using hb)
  rw [hrgb, hr0, hg0, hb0]

/-- The colour at position 10 is white. -/
theorem ScoreToRgb_position_ten (d good bad : ℝ)
    (hpos : ScoreToRgb_clamp (ScoreToRgb_remap d good bad) = 10) :
    ScoreToRgb Real.rpow d good bad = some (255, 255, 255) := by
  obtain ⟨-, -, -, -, t0, t1, t2, r, g, b, h0, h1, h2, hrgb, hr, hg, hb⟩ :=
    ScoreToRgb_integer_position d good bad 10 (by simpa using hpos)
  have e0 : t0 = 1 := by
    have : heatmapAt (K := ℝ) 10 0 = some 1 := by simp [heatmapAt, heatmap]
    rw [this] at h0
    exact (Option.some.inj h0).symm
  have e1 : t1 = 1 := by
    have : heatmapAt (K := ℝ) 10 1 = some 1 := by simp [heatmapAt, heatmap]
    rw [this] at h1
    exact (Option.some.inj h1).symm
  have e2 : t2 = 1 := by
    have : heatmapAt (K := ℝ) 10 2 = some 1 := by simp [heatmapAt, heatmap]
    rw [this] at h2
    exact (Option.some.inj h2).symm
  have hfl : ⌊255 * Real.sqrt (1 : ℝ) + 0.5⌋ = 255 := by
    rw [Real.sqrt_one, Int.floor_eq_iff]
    norm_num
  rw [e0, hfl] at hr
  rw [e1, hfl] at hg
  rw [e2, hfl] at hb
  have hr0 : r = 255 := Fin.ext (by have : (r.val : Int) = ((255 : Nat) : Int) := hr; exact_mod_cast this)
  have hg0 : g = 255 := Fin.ext (by have : (g.val : Int) = ((255 : Nat) : Int) := hg; exact_mod_cast this)
  have hb0 : b = 255 := Fin.ext (by have : (b.val : Int) = ((255 : Nat) : Int) := hb; exact_mod_cast this)
  rw [hrgb, hr0, hg0, hb0]

/-- At a distortion of 0 and a positive good threshold the position is 0. -/
theorem ScoreToRgb_clamp_remap_zero (good bad : ℝ) (hgood : 0 < good) :
    ScoreToRgb_clamp (ScoreToRgb_remap 0 good bad) = 0 := by
  rw [ScoreToRgb_remap_low 0 good bad hgood, ScoreToRgb_clamp_of_mem] <;> norm_num

/-- C14: whenever the clamped gradient position of `ScoreToRgb` is an integer `k` (it then
lies in `0..10`, `ix = k` and `mix = 0`), each output channel `c` is exactly the post-gamma
value `floor (255 * sqrt (table[k][c]) + 0.5)` of gradient stop `k`; stop `k + 1` does not
enter it. -/
theorem ScoreToRgb_at_stop (d good bad : ℝ) (k : Int)
    (hpos : ScoreToRgb_clamp (ScoreToRgb_remap d good bad) = (k : ℝ)) :
    0 ≤ k ∧ k ≤ 10 ∧
    static_cast_int (ScoreToRgb_clamp (ScoreToRgb_remap d good bad)) = k ∧
    ScoreToRgb_clamp (ScoreToRgb_remap d good bad) -
      (static_cast_int (ScoreToRgb_clamp (ScoreToRgb_remap d good bad)) : ℝ) = 0 ∧
    ∃ (t0 t1 t2 : ℝ) (r g b : uint8_t),
      heatmapAt k 0 = some t0 ∧ heatmapAt k 1 = some t1 ∧ heatmapAt k 2 = some t2 ∧
      ScoreToRgb Real.rpow d good bad = some (r, g, b) ∧
      (r.val : Int) = ⌊255 * Real.sqrt t0 + 0.5⌋ ∧
      (g.val : Int) = ⌊255 * Real.sqrt t1 + 0.5⌋ ∧
      (b.val : Int) = ⌊255 * Real.sqrt t2 + 0.5⌋ :=
  ScoreToRgb_integer_position d good bad k hpos

/-- Witness of C14 at the stop 3: thresholds 11 and 22, distortion 10. -/
theorem ScoreToRgb_at_stop_witness :
    ScoreToRgb_clamp (ScoreToRgb_remap (10 : ℝ) 11 22) = ((3 : Int) : ℝ) ∧
    ((0 : Int) ≤ 3 ∧ (3 : Int) ≤ 10 ∧
    static_cast_int (ScoreToRgb_clamp (ScoreToRgb_remap (10 : ℝ) 11 22)) = 3 ∧
    ScoreToRgb_clamp (ScoreToRgb_remap (10 : ℝ) 11 22) -
      (static_cast_int (ScoreToRgb_clamp (ScoreToRgb_remap (10 : ℝ) 11 22)) : ℝ) = 0 ∧
    ∃ (t0 t1 t2 : ℝ) (r g b : uint8_t),
      heatmapAt 3 0 = some t0 ∧ heatmapAt 3 1 = some t1 ∧ heatmapAt 3 2 = some t2 ∧
      ScoreToRgb Real.rpow (10 : ℝ) 11 22 = some (r, g, b) ∧
      (r.val : Int) = ⌊255 * Real.sqrt t0 + 0.5⌋ ∧
      (g.val : Int) = ⌊255 * Real.sqrt t1 + 0.5⌋ ∧
      (b.val : Int) = ⌊255 * Real.sqrt t2 + 0.5⌋) :=
  have hpos : ScoreToRgb_clamp (ScoreToRgb_remap (10 : ℝ) 11 22) = ((3 : Int) : ℝ) := by
    rw [ScoreToRgb_remap_low 10 11 22 (by norm_num), ScoreToRgb_clamp_of_mem] <;> norm_num
  ⟨hpos, ScoreToRgb_at_stop 10 11 22 3 hpos⟩

/-- The remapped score at `(661 / 55) * bad`, times 11, is 10. -/
theorem ScoreToRgb_remap_at_white (good bad : ℝ) (hgood : 0 < good) (hlt : good < bad) :
    ScoreToRgb_remap (661 / 55 * bad) good bad * 11 = 10 := by
  have hbad : 0 < bad := by linarith
  rw [ScoreToRgb_remap_high _ good bad (by linarith) (by linarith)]
  have hne : bad * 12 ≠ 0 := by positivity
  have : (661 / 55 * bad - bad) / (bad * 12) = 101 / 110 := by
    field_simp
    ring
  rw [this]
  norm_num

/-- C12: for all real thresholds with `0 < good < bad` a very large distortion yields a
colour at or before the last gradient stop: `(661 / 55) * bad` is where the remapped score
times 11 reaches 10, for every `d >= (661 / 55) * bad` the result of `ScoreToRgb` is exactly
RGB (255, 255, 255), and for no `d` does the gradient index exceed 10, nor is the mix
non-zero at index 10. -/
theorem ScoreToRgb_large_distortion (good bad : ℝ) (hgood : 0 < good) (hlt : good < bad) :
    ScoreToRgb_remap (661 / 55 * bad) good bad * 11 = 10 ∧
    (∀ d : ℝ, 661 / 55 * bad ≤ d → ScoreToRgb Real.rpow d good bad = some (255, 255, 255)) ∧
    (∀ d : ℝ,
      static_cast_int (ScoreToRgb_clamp (ScoreToRgb_remap d good bad)) ≤ 10 ∧
      (static_cast_int (ScoreToRgb_clamp (ScoreToRgb_remap d good bad)) = 10 →
        ScoreToRgb_clamp (ScoreToRgb_remap d good bad) -
          (static_cast_int (ScoreToRgb_clamp (ScoreToRgb_remap d good bad)) : ℝ) = 0)) := by
  refine ⟨ScoreToRgb_remap_at_white good bad hgood hlt, ?_, ?_⟩
  · intro d hd
    apply ScoreToRgb_position_ten
    apply ScoreToRgb_clamp_of_ge
    have hw := ScoreToRgb_remap_at_white good bad hgood hlt
    rcases eq_or_lt_of_le hd with h | h
    · rw [← h, hw]
    · have := ScoreToRgb_remap_strictMono good bad hgood hlt _ _ h
      linarith
  · intro d
    exact ⟨(ScoreToRgb_ix_range _).2, ScoreToRgb_mix_at_last _⟩

/-- Witness of C12 at the thresholds 1 and 2. -/
theorem ScoreToRgb_large_distortion_witness :
    (0 : ℝ) < 1 ∧ (1 : ℝ) < 2 ∧
    (ScoreToRgb_remap (661 / 55 * 2) (1 : ℝ) 2 * 11 = 10 ∧
    (∀ d : ℝ, 661 / 55 * 2 ≤ d → ScoreToRgb Real.rpow d 1 2 = some (255, 255, 255)) ∧
    (∀ d : ℝ,
      static_cast_int (ScoreToRgb_clamp (ScoreToRgb_remap d 1 2)) ≤ 10 ∧
      (static_cast_int (ScoreToRgb_clamp (ScoreToRgb_remap d 1 2)) = 10 →
        ScoreToRgb_clamp (ScoreToRgb_remap d 1 2) -
          (static_cast_int (ScoreToRgb_clamp (ScoreToRgb_remap d 1 2)) : ℝ) = 0))) :=
  ⟨by norm_num, by norm_num, ScoreToRgb_large_distortion 1 2 (by norm_num) (by norm_num)⟩

/-! ### The contents `CreateHeatMapImage` writes -/

theorem storeByte_get (buf : List uint8_t) (i : Nat) (v : uint8_t) (h : i < buf.length) :
    ∃ o, storeByte buf i v = some o ∧ o.length = buf.length ∧
      ∀ p, o[p]? = if p = i then some v else buf[p]? := by
  refine ⟨buf.set i v, by simp [storeByte, h], List.length_set _ _ _, ?_⟩
  intro p
  rw [List.getElem?_set]
  by_cases hp : i = p
  · subst hp
    simp [h]
  · have hp2 : ¬ p = i := fun e => hp e.symm
    simp [hp, hp2]

/-- The inner loop of `CreateHeatMapImage` on row `y`, the row pointers at offset `off`:
the byte at `off + x`, for `x < xsize`, of each buffer is its channel of
`ScoreToRgb(distmap[y][x])`, and every other byte is unchanged. -/
theorem CreateHeatMapImage_row_content {K : Type} [LinearOrderedField K] [FloorRing K]
    (pow : K → K → K) (distmap : Image K) (good bad : K) {xsize ysize y : Nat} (off : Nat)
    (bufs : List uint8_t × List uint8_t × List uint8_t)
    (hd : distmap.HasShape xsize ysize) (hy : y < ysize)
    (hr : off + xsize ≤ bufs.1.length) (hg : off + xsize ≤ bufs.2.1.length)
    (hb : off + xsize ≤ bufs.2.2.length) :
    ∃ o, CreateHeatMapImage_row pow distmap good bad xsize y off bufs = some o ∧
      o.1.length = bufs.1.length ∧ o.2.1.length = bufs.2.1.length ∧
      o.2.2.length = bufs.2.2.length ∧
      ∀ p,
        ((off ≤ p ∧ p < off + xsize) →
          ∃ dv rgb, distmap.get y (p - off) = some dv ∧ ScoreToRgb pow dv good bad = some rgb ∧
            o.1[p]? = some rgb.1 ∧ o.2.1[p]? = some rgb.2.1 ∧ o.2.2[p]? = some rgb.2.2) ∧
        (¬ (off ≤ p ∧ p < off + xsize) →
          o.1[p]? = bufs.1[p]? ∧ o.2.1[p]? = bufs.2.1[p]? ∧ o.2.2[p]? = bufs.2.2[p]?) := by
  unfold CreateHeatMapImage_row
  apply forLoop_inv (fun x (st : List uint8_t × List uint8_t × List uint8_t) =>
      st.1.length = bufs.1.length ∧ st.2.1.length = bufs.2.1.length ∧
      st.2.2.length = bufs.2.2.length ∧
      ∀ p,
        ((off ≤ p ∧ p < off + x) →
          ∃ dv rgb, distmap.get y (p - off) = some dv ∧ ScoreToRgb pow dv good bad = some rgb ∧
            st.1[p]? = some rgb.1 ∧ st.2.1[p]? = some rgb.2.1 ∧ st.2.2[p]? = some rgb.2.2) ∧
        (¬ (off ≤ p ∧ p < off + x) →
          st.1[p]? = bufs.1[p]? ∧ st.2.1[p]? = bufs.2.1[p]? ∧ st.2.2[p]? = bufs.2.2[p]?))
  · refine ⟨rfl, rfl, rfl, ?_⟩
    intro p
    exact ⟨fun h => absurd h (by omega), fun _ => ⟨rfl, rfl, rfl⟩⟩
  · rintro i ⟨sr, sg, sb⟩ hi ⟨h1, h2, h3, hcont⟩
    simp only at h1 h2 h3 hcont
    obtain ⟨dv, hdv⟩ := Image.get_of_hasShape hd hy hi
    obtain ⟨⟨r, g, b⟩, hrgb⟩ := ScoreToRgb_isSome pow dv good bad
    obtain ⟨o1, ho1, hl1, hg1⟩ := storeByte_get sr (off + i) r (by omega)
    obtain ⟨o2, ho2, hl2, hg2⟩ := storeByte_get sg (off + i) g (by omega)
    obtain ⟨o3, ho3, hl3, hg3⟩ := storeByte_get sb (off + i) b (by omega)
    refine ⟨(o1, o2, o3), ?_, by simpa using hl1.trans h1, by simpa using hl2.trans h2,
      by simpa using hl3.trans h3, ?_⟩
    · simp only [hdv, hrgb, ho1, ho2, ho3]
    · intro p
      show ((off ≤ p ∧ p < off + (i + 1)) →
          ∃ dv rgb, distmap.get y (p - off) = some dv ∧ ScoreToRgb pow dv good bad = some rgb ∧
            o1[p]? = some rgb.1 ∧ o2[p]? = some rgb.2.1 ∧ o3[p]? = some rgb.2.2) ∧
        (¬ (off ≤ p ∧ p < off + (i + 1)) →
          o1[p]? = bufs.1[p]? ∧ o2[p]? = bufs.2.1[p]? ∧ o3[p]? = bufs.2.2[p]?)
      rw [hg1 p, hg2 p, hg3 p]
      by_cases hp : p = off + i
      · subst hp
        simp only [if_true]
        refine ⟨fun _ => ⟨dv, (r, g, b), ?_, hrgb, rfl, rfl, rfl⟩, fun h => absurd h (by omega)⟩
        rw [Nat.add_sub_cancel_left]
        exact hdv
      · simp only [if_neg hp]
        constructor
        · intro h
          exact (hcont p).1 ⟨h.1, by omega⟩
        · intro h
          exact (hcont p).2 (fun h2 => h ⟨h2.1, by omega⟩)

/-- What `CreateHeatMapImage` leaves in the three destination buffers, for every stride
with the rows written inside the buffers: a byte at an offset `y * stride + x` of some
pixel holds, in each buffer, its channel of `ScoreToRgb` of one pixel written at that
offset (the same pixel for the three buffers); every other byte is unchanged. -/
theorem CreateHeatMapImage_content {K : Type} [LinearOrderedField K] [FloorRing K]
    (pow : K → K → K) (distmap : Image K) (good bad : K) {xsize ysize stride : Nat}
    (dst_r dst_g dst_b : List uint8_t)
    (hd : distmap.HasShape xsize ysize)
    (hr : RowsInBuffer dst_r stride xsize ysize) (hg : RowsInBuffer dst_g stride xsize ysize)
    (hb : RowsInBuffer dst_b stride xsize ysize) :
    ∃ r g b, CreateHeatMapImage pow distmap good bad xsize ysize dst_r dst_g dst_b stride
        = some (r, g, b) ∧
      r.length = dst_r.length ∧ g.length = dst_g.length ∧ b.length = dst_b.length ∧
      ∀ p,
        (∃ y x, y < ysize ∧ x < xsize ∧ p = y * stride + x ∧
          ∃ dv rgb, distmap.get y x = some dv ∧ ScoreToRgb pow dv good bad = some rgb ∧
            r[p]? = some rgb.1 ∧ g[p]? = some rgb.2.1 ∧ b[p]? = some rgb.2.2) ∨
        ((∀ y x, y < ysize → x < xsize → p ≠ y * stride + x) ∧
          r[p]? = dst_r[p]? ∧ g[p]? = dst_g[p]? ∧ b[p]? = dst_b[p]?) := by
  have key := forLoop_inv
    (fun y (st : (List uint8_t × List uint8_t × List uint8_t) × Nat) =>
      st.2 = y * stride ∧ st.1.1.length = dst_r.length ∧ st.1.2.1.length = dst_g.length ∧
      st.1.2.2.length = dst_b.length ∧
      ∀ p,
        (∃ y2 x, y2 < y ∧ x < xsize ∧ p = y2 * stride + x ∧
          ∃ dv rgb, distmap.get y2 x = some dv ∧ ScoreToRgb pow dv good bad = some rgb ∧
            st.1.1[p]? = some rgb.1 ∧ st.1.2.1[p]? = some rgb.2.1 ∧
            st.1.2.2[p]? = some rgb.2.2) ∨
        ((∀ y2 x, y2 < y → x < xsize → p ≠ y2 * stride + x) ∧
          st.1.1[p]? = dst_r[p]? ∧ st.1.2.1[p]? = dst_g[p]? ∧ st.1.2.2[p]? = dst_b[p]?))
    ysize
    (fun y (st : (List uint8_t × List uint8_t × List uint8_t) × Nat) =>
      match CreateHeatMapImage_row pow distmap good bad xsize y st.2 st.1 with
      | none => none
      | some bufs => some (bufs, st.2 + stride))
    ((dst_r, dst_g, dst_b), 0)
    ⟨by simp, rfl, rfl, rfl, fun p => Or.inr ⟨fun y2 x h => absurd h (Nat.not_lt_zero y2),
      rfl, rfl, rfl⟩⟩
    (by
      rintro i ⟨bufs, off⟩ hi ⟨hoff, h1, h2, h3, hcont⟩
      simp only at hoff h1 h2 h3 hcont
      subst hoff
      obtain ⟨o, ho, hl1, hl2, hl3, hrow⟩ :=
        CreateHeatMapImage_row_content pow distmap good bad (i * stride) bufs hd hi
          (by rw [h1]; exact hr i hi) (by rw [h2]; exact hg i hi) (by rw [h3]; exact hb i hi)
      refine ⟨(o, i * stride + stride), ?_, by simp [Nat.succ_mul], by simpa using hl1.trans h1,
        by simpa using hl2.trans h2, by simpa using hl3.trans h3, ?_⟩
      · simp only [ho]
      · intro p
        show (∃ y2 x, y2 < i + 1 ∧ x < xsize ∧ p = y2 * stride + x ∧
            ∃ dv rgb, distmap.get y2 x = some dv ∧ ScoreToRgb pow dv good bad = some rgb ∧
              o.1[p]? = some rgb.1 ∧ o.2.1[p]? = some rgb.2.1 ∧ o.2.2[p]? = some rgb.2.2) ∨
          ((∀ y2 x, y2 < i + 1 → x < xsize → p ≠ y2 * stride + x) ∧
            o.1[p]? = dst_r[p]? ∧ o.2.1[p]? = dst_g[p]? ∧ o.2.2[p]? = dst_b[p]?)
        by_cases hp : i * stride ≤ p ∧ p < i * stride + xsize
        · obtain ⟨dv, rgb, hdv, hrgb, e1, e2, e3⟩ := (hrow p).1 hp
          exact Or.inl ⟨i, p - i * stride, Nat.lt_succ_self i, by omega, by omega,
            dv, rgb, hdv, hrgb, e1, e2, e3⟩
        · obtain ⟨e1, e2, e3⟩ := (hrow p).2 hp
          rw [e1, e2, e3]
          rcases hcont p with ⟨y2, x, hy2, hx, hpe, rest⟩ | ⟨hnot, f1, f2, f3⟩
          · exact Or.inl ⟨y2, x, Nat.lt_succ_of_lt hy2, hx, hpe, rest⟩
          · refine Or.inr ⟨?_, f1, f2, f3⟩
            intro y2 x hy2 hx hpe
            by_cases hyi : y2 = i
            · subst hyi
              exact hp ⟨by omega, by omega⟩
            · exact hnot y2 x (by omega) hx hpe)
  obtain ⟨⟨⟨r, g, b⟩, off⟩, hloop, -, h1, h2, h3, hcont⟩ := key
  refine ⟨r, g, b, ?_, h1, h2, h3, hcont⟩
  unfold CreateHeatMapImage
  rw [hloop]
  rfl

/-- C11: for all real thresholds with `good > 0`, `ScoreToRgb` at a distortion of 0 yields
the colour of the first gradient stop, RGB (0, 0, 0); so `CreateHeatMapImage` over an
all-zero distortion map (of dimensions `xsize` by `ysize`, the rows written inside the
three buffers) writes 0 to every pixel of the three output planes. -/
theorem ScoreToRgb_zero_is_black (good bad : ℝ) (hgood : 0 < good) (distmap : Image ℝ)
    (xsize ysize stride : Nat) (dst_r dst_g dst_b : List uint8_t)
    (hd : distmap.HasShape xsize ysize)
    (hzero : ∀ y x, y < ysize → x < xsize → distmap.get y x = some 0)
    (hr : RowsInBuffer dst_r stride xsize ysize) (hg : RowsInBuffer dst_g stride xsize ysize)
    (hb : RowsInBuffer dst_b stride xsize ysize) :
    ScoreToRgb Real.rpow 0 good bad = some (0, 0, 0) ∧
    ∃ r g b, CreateHeatMapImage Real.rpow distmap good bad xsize ysize dst_r dst_g dst_b stride
        = some (r, g, b) ∧
      ∀ y x, y < ysize → x < xsize →
        r[y * stride + x]? = some 0 ∧ g[y * stride + x]? = some 0 ∧
        b[y * stride + x]? = some 0 := by
  have hblack : ScoreToRgb Real.rpow 0 good bad = some (0, 0, 0) :=
    ScoreToRgb_position_zero 0 good bad (ScoreToRgb_clamp_remap_zero good bad hgood)
  refine ⟨hblack, ?_⟩
  obtain ⟨r, g, b, hres, -, -, -, hcont⟩ :=
    CreateHeatMapImage_content Real.rpow distmap good bad dst_r dst_g dst_b hd hr hg hb
  refine ⟨r, g, b, hres, ?_⟩
  intro y x hy hx
  rcases hcont (y * stride + x) with ⟨y2, x2, hy2, hx2, -, dv, rgb, hdv, hrgb, e1, e2, e3⟩ |
    ⟨hnot, -⟩
  · rw [hzero y2 x2 hy2 hx2] at hdv
    have hdv0 : dv = 0 := (Option.some.inj hdv).symm
    rw [hdv0, hblack] at hrgb
    have hrgb0 : rgb = (0, 0, 0) := (Option.some.inj hrgb).symm
    rw [hrgb0] at e1 e2 e3
    exact ⟨e1, e2, e3⟩
  · exact absurd rfl (hnot y x hy hx)

/-- Witness of C11: thresholds 1 and 2, an all-zero distortion map of 2 by 2 written with
stride 4 into three buffers of 8 bytes. -/
theorem ScoreToRgb_zero_is_black_witness :
    (0 : ℝ) < 1 ∧ (Image.create 2 2 (0 : ℝ)).HasShape 2 2 ∧
    (∀ y x, y < 2 → x < 2 → (Image.create 2 2 (0 : ℝ)).get y x = some 0) ∧
    RowsInBuffer (List.replicate 8 7) 4 2 2 ∧
    (ScoreToRgb Real.rpow 0 (1 : ℝ) 2 = some (0, 0, 0) ∧
    ∃ r g b, CreateHeatMapImage Real.rpow (Image.create 2 2 (0 : ℝ)) 1 2 2 2
        (List.replicate 8 7) (List.replicate 8 7) (List.replicate 8 7) 4 = some (r, g, b) ∧
      ∀ y x, y < 2 → x < 2 →
        r[y * 4 + x]? = some 0 ∧ g[y * 4 + x]? = some 0 ∧ b[y * 4 + x]? = some 0) :=
  have hzero : ∀ y x, y < 2 → x < 2 → (Image.create 2 2 (0 : ℝ)).get y x = some 0 := by
    intro y x hy hx
    interval_cases y <;> interval_cases x <;> rfl
  ⟨by norm_num, Image.create_hasShape 2 2 0, hzero, by decide,
    ScoreToRgb_zero_is_black 1 2 (by norm_num) (Image.create 2 2 (0 : ℝ)) 2 2 4
      (List.replicate 8 7) (List.replicate 8 7) (List.replicate 8 7)
      (Image.create_hasShape 2 2 0) hzero (by decide) (by decide) (by decide)⟩

/-! ### Distortions below the good threshold -/

/-- The reads of the plane copy stay in bounds on a frame A of 2 by 2 with stride 2 and a
frame B of 2 by 2 with stride 4. -/
theorem sample_strides_copyInBounds :
    CopyInBounds
      ((sampleEnv (sampleFrameOf ℝ 2 2 2 [1, 2, 3, 4])
        (sampleFrameOf ℝ 2 2 4 [5, 6, 0, 0, 7, 8, 0, 0]) true 5).getFrameFilter 0
        (sampleData 2 2).node1)
      ((sampleEnv (sampleFrameOf ℝ 2 2 2 [1, 2, 3, 4])
        (sampleFrameOf ℝ 2 2 4 [5, 6, 0, 0, 7, 8, 0, 0]) true 5).getFrameFilter 0
        (sampleData 2 2).node2) 3 := by
  intro plane hp
  refine ⟨{ stride := 2, data := [1, 2, 3, 4] }, { stride := 4, data := [5, 6, 0, 0, 7, 8, 0, 0] },
    ?_, ?_, ?_, ?_⟩
  · interval_cases plane <;> rfl
  · interval_cases plane <;> rfl
  · show RowsInBuffer [1, 2, 3, 4] 2 2 2
    decide
  · show RowsInBuffer [5, 6, 0, 0, 7, 8, 0, 0] 2 2 2
    decide

/-- C19, counterexample: frame A and frame B are 2 by 2, A with stride 2 and B with
stride 4 (both at least the width); the copy reads row 1 of frame B at offset 2, the
stride of frame A, so `rgb2[0][1][0]` is the padding byte 0 and not the sample 7 that
frame B holds at offset `1 * 4 + 0`; so it is in `butteraugliGetFrame` on these frames. -/
theorem butteraugliGetFrame_copy_counterexample :
    (sampleFrameOf ℝ 2 2 2 [1, 2, 3, 4]).width ≤ 2 ∧
    (sampleFrameOf ℝ 2 2 4 [5, 6, 0, 0, 7, 8, 0, 0]).width ≤ 4 ∧
    ((sampleFrameOf ℝ 2 2 4 [5, 6, 0, 0, 7, 8, 0, 0]).planes[0]?).bind
      (fun p => p.data[1 * p.stride + 0]?) = some 7 ∧
    (∃ rgb1 rgb2,
      butteraugliGetFrame_copyPlanes (sampleFrameOf ℝ 2 2 2 [1, 2, 3, 4])
        (sampleFrameOf ℝ 2 2 4 [5, 6, 0, 0, 7, 8, 0, 0]) 3 2 2
        (CreatePlanes 2 2 3 0) (CreatePlanes 2 2 3 0) = some (rgb1, rgb2) ∧
      planesGet rgb1 0 1 0 = some 3 ∧
      planesGet rgb2 0 1 0 = some 0) ∧
    ∃ rgb1 rgb2 linear1 linear2,
      butteraugliGetFrame_inputs
        (sampleEnv (sampleFrameOf ℝ 2 2 2 [1, 2, 3, 4])
          (sampleFrameOf ℝ 2 2 4 [5, 6, 0, 0, 7, 8, 0, 0]) true 5)
        Real.rpow 0 (sampleData 2 2) = some (rgb1, rgb2, linear1, linear2) ∧
      planesGet rgb1 0 1 0 = some 3 ∧
      planesGet rgb2 0 1 0 = some 0 := by
  have hcopy : ∃ rgb1 rgb2,
      butteraugliGetFrame_copyPlanes (sampleFrameOf ℝ 2 2 2 [1, 2, 3, 4])
        (sampleFrameOf ℝ 2 2 4 [5, 6, 0, 0, 7, 8, 0, 0]) 3 2 2
        (CreatePlanes 2 2 3 0) (CreatePlanes 2 2 3 0) = some (rgb1, rgb2) ∧
      planesGet rgb1 0 1 0 = some 3 ∧
      planesGet rgb2 0 1 0 = some 0 := ⟨_, _, rfl, rfl, rfl⟩
  refine ⟨by decide, by decide, rfl, hcopy, ?_⟩
  obtain ⟨c1, c2, hc, h1, h2⟩ := hcopy
  obtain ⟨rgb1, rgb2, linear1, linear2, hin, hc2, -⟩ :=
    butteraugliGetFrame_inputs_spec
      (sampleEnv (sampleFrameOf ℝ 2 2 2 [1, 2, 3, 4])
        (sampleFrameOf ℝ 2 2 4 [5, 6, 0, 0, 7, 8, 0, 0]) true 5) Real.rpow 0
      (sampleData 2 2) { id := pfRGB24, numPlanes := 3 } rfl (Nat.le_refl 3)
      sample_strides_copyInBounds
  have heq : some (rgb1, rgb2) = some (c1, c2) := hc2.symm.trans hc
  simp only [Option.some.injEq, Prod.mk.injEq] at heq
  obtain ⟨rfl, rfl⟩ := heq
  exact ⟨rgb1, rgb2, linear1, linear2, hin, h1, h2⟩

/-- C19, amended: the plane copy of `butteraugliGetFrame` advances the read pointers of both
frames by the row stride of frame A: whenever the reads stay inside both frames, for every
plane `p`, row `y < height` and column `x < width`, `rgb1[p][y][x]` is frame A's sample at
offset `y * stride(A, p) + x` and `rgb2[p][y][x]` is frame B's byte at offset
`y * stride(A, p) + x`; so frame B is copied faithfully under its own stride when the two
strides are equal. -/
theorem butteraugliGetFrame_copy_strides {K : Type} (src1 src2 : VSFrame K)
    (numPlanes : Nat) (hnp : numPlanes ≤ 3) (hcopy : CopyInBounds src1 src2 numPlanes) :
    ∃ rgb1 rgb2,
      butteraugliGetFrame_copyPlanes src1 src2 numPlanes src1.width src1.height
        (CreatePlanes src1.width src1.height 3 0) (CreatePlanes src1.width src1.height 3 0)
          = some (rgb1, rgb2) ∧
      ∀ p y x, p < numPlanes → y < src1.height → x < src1.width →
        ∃ (pa pb : VSPlane) (a b : uint8_t),
          src1.planes[p]? = some pa ∧ src2.planes[p]? = some pb ∧
          pa.data[y * pa.stride + x]? = some a ∧ pb.data[y * pa.stride + x]? = some b ∧
          planesGet rgb1 p y x = some a ∧ planesGet rgb2 p y x = some b ∧
          (pb.stride = pa.stride → planesGet rgb2 p y x = pb.data[y * pb.stride + x]?) := by
  obtain ⟨hlen, hshape⟩ := CreatePlanes_spec src1.width src1.height 3 (0 : uint8_t)
  obtain ⟨rgb1, rgb2, hres, -, -, -, -, hget⟩ :=
    butteraugliGetFrame_copyPlanes_spec src1 src2 numPlanes _ _ (by omega) (by omega)
      hshape hshape hcopy
  refine ⟨rgb1, rgb2, hres, ?_⟩
  intro p y x hp hy hx
  obtain ⟨pa, pb, hpa, hpb, hra, hrb⟩ := hcopy p hp
  obtain ⟨h1, h2⟩ := hget p y x hp hy hx
  have hia : y * pa.stride + x < pa.data.length := by
    have := hra y hy
    omega
  have hib : y * pa.stride + x < pb.data.length := by
    have := hrb y hy
    omega
  have ea : pa.data[y * pa.stride + x]? = some pa.data[y * pa.stride + x] :=
    List.getElem?_eq_getElem hia
  have eb : pb.data[y * pa.stride + x]? = some pb.data[y * pa.stride + x] :=
    List.getElem?_eq_getElem hib
  have g1 : planesGet rgb1 p y x = some pa.data[y * pa.stride + x] := by
    rw [h1, hpa]
    exact ea
  have g2 : planesGet rgb2 p y x = some pb.data[y * pa.stride + x] := by
    rw [h2, hpa, hpb]
    exact eb
  refine ⟨pa, pb, _, _, hpa, hpb, ea, eb, g1, g2, ?_⟩
  intro hs
  rw [g2, hs, eb]

/-- Witness of the amended C19 on two frames of 2 by 2 samples and stride 4. -/
theorem butteraugliGetFrame_copy_strides_witness :
    (3 : Nat) ≤ 3 ∧ CopyInBounds (sampleFrame ℝ 2 2 4 7) (sampleFrame ℝ 2 2 4 9) 3 ∧
    ∃ rgb1 rgb2,
      butteraugliGetFrame_copyPlanes (sampleFrame ℝ 2 2 4 7) (sampleFrame ℝ 2 2 4 9) 3 2 2
        (CreatePlanes 2 2 3 0) (CreatePlanes 2 2 3 0) = some (rgb1, rgb2) ∧
      ∀ p y x, p < 3 → y < 2 → x < 2 →
        ∃ (pa pb : VSPlane) (a b : uint8_t),
          (sampleFrame ℝ 2 2 4 7).planes[p]? = some pa ∧
          (sampleFrame ℝ 2 2 4 9).planes[p]? = some pb ∧
          pa.data[y * pa.stride + x]? = some a ∧ pb.data[y * pa.stride + x]? = some b ∧
          planesGet rgb1 p y x = some a ∧ planesGet rgb2 p y x = some b ∧
          (pb.stride = pa.stride → planesGet rgb2 p y x = pb.data[y * pb.stride + x]?) :=
  ⟨Nat.le_refl 3, sample_copyInBounds true,
    butteraugliGetFrame_copy_strides (sampleFrame ℝ 2 2 4 7) (sampleFrame ℝ 2 2 4 9) 3
      (Nat.le_refl 3) (sample_copyInBounds true)⟩

/-! ### The gradient position with the special values of IEEE 754 -/

/-- The clamp of lines 58-59 on a finite value. -/
theorem Double.clamp_finite {K : Type} [LinearOrderedField K] (s : K) :
    (((Double.finite s).mul ((kTableSize - 1 : Int) : K)).max 0.0).min
      ((kTableSize - 2 : Int) : K) = Double.finite (ScoreToRgb_clamp s) := by
  unfold ScoreToRgb_clamp
  by_cases h : s * ((kTableSize - 1 : Int) : K) < 0.0
  · have e1 : ((Double.finite s).mul ((kTableSize - 1 : Int) : K)).max 0.0
        = Double.finite (0.0 : K) := by
      simp only [Double.mul, Double.max, Double.lt, h, decide_True, if_true]
    rw [e1, max_eq_right h.le]
    by_cases h2 : ((kTableSize - 2 : Int) : K) < (0.0 : K)
    · simp only [Double.min, Double.gt, h2, decide_True, if_true, min_eq_right h2.le]
    · simp only [Double.min, Double.gt, h2, decide_False, min_eq_left (not_lt.1 h2)]
      rfl
  · have e1 : ((Double.finite s).mul ((kTableSize - 1 : Int) : K)).max 0.0
        = Double.finite (s * ((kTableSize - 1 : Int) : K)) := by
      simp only [Double.mul, Double.max, Double.lt, h, decide_False]
      rfl
    rw [e1, max_eq_left (not_lt.1 h)]
    by_cases h2 : ((kTableSize - 2 : Int) : K) < s * ((kTableSize - 1 : Int) : K)
    · simp only [Double.min, Double.gt, h2, decide_True, if_true, min_eq_right h2.le]
    · simp only [Double.min, Double.gt, h2, decide_False, min_eq_left (not_lt.1 h2)]
      rfl

/-- The clamp of lines 58-59 on an infinity: position 0 for the negative one and position
10 for the positive one. -/
theorem Double.clamp_infinity {K : Type} [LinearOrderedField K] (negative : Bool) :
    (((Double.infinity negative : Double K).mul ((kTableSize - 1 : Int) : K)).max 0.0).min
      ((kTableSize - 2 : Int) : K) = Double.finite (if negative then 0 else 10) := by
  have h11 : ((kTableSize - 1 : Int) : K) = 11 := by simp [kTableSize]
  have h10 : ((kTableSize - 2 : Int) : K) = 10 := by simp [kTableSize]
  rw [h11, h10]
  have hne : (11 : K) ≠ 0 := by norm_num
  have hnl : ¬ (11 : K) < 0 := by norm_num
  have e1 : (Double.infinity negative : Double K).mul 11 = Double.infinity negative := by
    simp only [Double.mul, hne, hnl, if_false]
  rw [e1]
  cases negative
  · simp only [Double.max, Double.lt, Double.min, Double.gt]
    simp
  · have h3 : ¬ (10 : K) < 0.0 := by norm_num
    have h4 : (0.0 : K) = 0 := by norm_num
    simp only [Double.max, Double.lt, Double.min, Double.gt, if_true, h3, decide_False, h4]
    simp

/-- The clamp of lines 58-59 lets a NaN through. -/
theorem Double.clamp_nan {K : Type} [LinearOrderedField K] :
    (((Double.nan : Double K).mul ((kTableSize - 1 : Int) : K)).max 0.0).min
      ((kTableSize - 2 : Int) : K) = Double.nan := by
  simp [Double.mul, Double.max, Double.lt, Double.min, Double.gt]

/-- Where no divisor of the taken branch is zero, the gradient position is finite and is
the clamp of the remap. -/
theorem ScoreToRgb_score_eq {K : Type} [LinearOrderedField K] [FloorRing K] (d good bad : K)
    (hgood : d < good → good ≠ 0) (hbad : ¬ d < good → ¬ d < bad → bad ≠ 0) :
    ScoreToRgb_score d good bad
      = Double.finite (ScoreToRgb_clamp (ScoreToRgb_remap d good bad)) := by
  unfold ScoreToRgb_score ScoreToRgb_remap
  by_cases h1 : d < good
  · simp only [h1, if_true, Double.div, hgood h1, if_false, Double.mul]
    exact Double.clamp_finite _
  · by_cases h2 : d < bad
    · have hne : bad - good ≠ 0 := by
        have : good < bad := lt_of_le_of_lt (not_lt.1 h1) h2
        exact sub_ne_zero.2 (ne_of_gt this)
      simp only [h1, h2, if_true, if_false, Double.div, hne, Double.mul, Double.add]
      exact Double.clamp_finite _
    · have hne : bad * 12 ≠ 0 := mul_ne_zero (hbad h1 h2) (by norm_num)
      simp only [h1, h2, if_false, Double.div, hne, Double.mul, Double.add]
      exact Double.clamp_finite _

/-- The gradient position is a NaN when the remap divides zero by zero: at distortion 0
with a bad threshold 0 and a good threshold that is not positive. -/
theorem ScoreToRgb_score_nan {K : Type} [LinearOrderedField K] [FloorRing K] (good : K)
    (hgood : good ≤ 0) : ScoreToRgb_score 0 good 0 = Double.nan := by
  unfold ScoreToRgb_score
  have h1 : ¬ (0 : K) < good := not_lt.2 hgood
  have h2 : ¬ (0 : K) < 0 := lt_irrefl _
  have e : Double.add (0.45 : K) ((Double.div ((0 : K) - 0) ((0 : K) * 12)).mul 0.5)
      = Double.nan := by
    simp only [Double.div, sub_zero, zero_mul, if_true, Double.mul, Double.add]
  simp only [h1, h2, if_false]
  rw [e, Double.clamp_nan]

/-- Except where the remap divides zero by zero, the gradient position is a finite value
in `[0, 10]`. -/
theorem ScoreToRgb_score_finite {K : Type} [LinearOrderedField K] [FloorRing K]
    (d good bad : K) (h : ¬ (d = 0 ∧ bad = 0 ∧ good ≤ 0)) :
    ∃ pos : K, ScoreToRgb_score d good bad = Double.finite pos ∧ 0 ≤ pos ∧ pos ≤ 10 := by
  by_cases hz : (d < good → good ≠ 0) ∧ (¬ d < good → ¬ d < bad → bad ≠ 0)
  · exact ⟨_, ScoreToRgb_score_eq d good bad hz.1 hz.2,
      ScoreToRgb_clamp_range _⟩
  · unfold ScoreToRgb_score
    by_cases h1 : d < good
    · have hg0 : good = 0 := by
        by_contra hne
        exact hz ⟨fun _ => hne, fun hn => absurd h1 hn⟩
      have hd : d ≠ 0 := by rw [hg0] at h1; exact ne_of_lt h1
      have hd2 : d < 0 := by rw [hg0] at h1; exact h1
      have h3 : (0.3 : K) ≠ 0 := by norm_num
      have h4 : ¬ (0.3 : K) < 0 := by norm_num
      have e : (Double.div d good).mul (0.3 : K) = Double.infinity true := by
        simp only [Double.div, hg0, hd, if_true, if_false, Double.mul, h3, h4, hd2,
          decide_True]
      simp only [h1, if_true]
      rw [e, Double.clamp_infinity]
      exact ⟨0, rfl, le_refl _, by norm_num⟩
    · by_cases h2 : d < bad
      · exact absurd ⟨fun hn => absurd hn h1, fun _ hn => absurd h2 hn⟩ hz
      · have hb0 : bad = 0 := by
          by_contra hne
          exact hz ⟨fun hn => absurd hn h1, fun _ _ => hne⟩
        have hd0 : 0 ≤ d := by rw [hb0] at h2; exact not_lt.1 h2
        have hd : d ≠ 0 := by
          intro hd
          apply h
          refine ⟨hd, hb0, ?_⟩
          rw [hd] at h1
          exact not_lt.1 h1
        have hd2 : ¬ d < 0 := not_lt.2 hd0
        have h3 : (0.5 : K) ≠ 0 := by norm_num
        have h4 : ¬ (0.5 : K) < 0 := by norm_num
        have e : Double.add (0.45 : K) ((Double.div (d - bad) (bad * 12)).mul 0.5)
            = Double.infinity false := by
          simp only [Double.div, hb0, sub_zero, zero_mul, if_true, hd, if_false,
            Double.mul, h3, h4, Double.add, hd2, decide_False]
        simp only [h1, h2, if_false]
        rw [e, Double.clamp_infinity]
        exact ⟨10, rfl, by norm_num, le_refl _⟩

/-- Where no divisor of the taken branch is zero, `ScoreToRgb_ieee` is `ScoreToRgb`. -/
theorem ScoreToRgb_ieee_eq {K : Type} [LinearOrderedField K] [FloorRing K] (pow : K → K → K)
    (d good bad : K) (hgood : d < good → good ≠ 0)
    (hbad : ¬ d < good → ¬ d < bad → bad ≠ 0) :
    ScoreToRgb_ieee pow d good bad = ScoreToRgb pow d good bad := by
  unfold ScoreToRgb_ieee ScoreToRgb
  rw [ScoreToRgb_score_eq d good bad hgood hbad]
  rfl

/-- On a position in `[0, 10]` the conversion `static_cast<int>` is the floor, the index
lies in `0..10` and the fractional part in `[0, 1)`. -/
theorem static_cast_int_position {K : Type} [LinearOrderedField K] [FloorRing K] (pos : K)
    (h0 : 0 ≤ pos) (h10 : pos ≤ 10) :
    static_cast_int pos = ⌊pos⌋ ∧ 0 ≤ static_cast_int pos ∧ static_cast_int pos ≤ 10 ∧
      0 ≤ pos - (static_cast_int pos : K) ∧ pos - (static_cast_int pos : K) < 1 := by
  have hf : static_cast_int pos = ⌊pos⌋ := by
    unfold static_cast_int
    rw [if_pos h0]
  rw [hf]
  refine ⟨rfl, Int.floor_nonneg.2 h0, ?_, sub_nonneg.2 (Int.floor_le _), ?_⟩
  · have : (⌊pos⌋ : K) ≤ ((10 : Int) : K) :=
      le_trans (Int.floor_le _) (by exact_mod_cast h10)
    exact_mod_cast this
  · have := Int.lt_floor_add_one pos
    linarith

/-- The rounded clamp lies in `[0, 10]`. -/
theorem ScoreToRgb_clamp_rounded_range {K : Type} [LinearOrderedField K] (rnd : K → K)
    (score : K) :
    0 ≤ ScoreToRgb_clamp_rounded rnd score ∧ ScoreToRgb_clamp_rounded rnd score ≤ 10 := by
  unfold ScoreToRgb_clamp_rounded kTableSize
  constructor
  · apply le_min
    · exact le_trans (by norm_num) (le_max_right _ _)
    · norm_num
  · exact le_trans (min_le_right _ _) (by norm_num)

/-- C16, the claim as stated fails: at distortion 0 with both thresholds 0 the remap
divides zero by zero, the position after the clamp is a NaN and not a value of `[0, 10]`,
the index `static_cast<int>(position)` is undefined and `ScoreToRgb` reads outside the
gradient table. -/
theorem ScoreToRgb_lookup_counterexample :
    ScoreToRgb_score (0 : ℝ) 0 0 = Double.nan ∧
    (¬ ∃ pos : ℝ,
      ScoreToRgb_score (0 : ℝ) 0 0 = Double.finite pos ∧ 0 ≤ pos ∧ pos ≤ 10) ∧
    (ScoreToRgb_score (0 : ℝ) 0 0).toInt = none ∧
    ScoreToRgb_ieee Real.rpow (0 : ℝ) 0 0 = none := by
  have h := ScoreToRgb_score_nan (0 : ℝ) (le_refl _)
  refine ⟨h, ?_, ?_, ?_⟩
  · rintro ⟨pos, hpos, -⟩
    rw [h] at hpos
    exact Double.noConfusion hpos
  · rw [h]; rfl
  · unfold ScoreToRgb_ieee
    rw [h]

/-- C16, amended: the gradient lookup of `ScoreToRgb` is in bounds for every real
distortion value and every pair of real thresholds, of any order and sign, except at
distortion 0 with a bad threshold 0 and a good threshold that is not positive, where the
remap divides zero by zero: the position after the clamp is a finite value of `[0, 10]`,
`ix` is its floor and lies in `0..10`, `mix = position - ix` lies in `[0, 1)`, and both `ix`
and `ix + 1` are indices of the 12-entry gradient table, where the three channels are read;
at the excepted inputs the position is a NaN.  The bounds come from the clamp and hold for
the clamped value of every finite score, whatever the rounding of the product by 11. -/
theorem ScoreToRgb_lookup_in_bounds (d good bad : ℝ)
    (h : ¬ (d = 0 ∧ bad = 0 ∧ good ≤ 0)) :
    ∃ pos : ℝ, ScoreToRgb_score d good bad = Double.finite pos ∧
      0 ≤ pos ∧ pos ≤ 10 ∧
      (Double.finite pos).toInt = some (static_cast_int pos) ∧
      static_cast_int pos = ⌊pos⌋ ∧
      0 ≤ static_cast_int pos ∧ static_cast_int pos ≤ 10 ∧
      0 ≤ pos - (static_cast_int pos : ℝ) ∧ pos - (static_cast_int pos : ℝ) < 1 ∧
      (heatmap (K := ℝ)).length = 12 ∧
      static_cast_int pos + 1 ≤ 11 ∧
      (∀ c, c < 3 →
        (∃ lo : ℝ, heatmapAt (static_cast_int pos) c = some lo) ∧
        (∃ hi : ℝ, heatmapAt (static_cast_int pos + 1) c = some hi)) ∧
      (∀ good2 : ℝ, good2 ≤ 0 → ScoreToRgb_score (0 : ℝ) good2 0 = Double.nan) ∧
      (∀ (rnd : ℝ → ℝ) (s : ℝ),
        0 ≤ ScoreToRgb_clamp_rounded rnd s ∧ ScoreToRgb_clamp_rounded rnd s ≤ 10 ∧
        0 ≤ static_cast_int (ScoreToRgb_clamp_rounded rnd s) ∧
        static_cast_int (ScoreToRgb_clamp_rounded rnd s) ≤ 10 ∧
        0 ≤ ScoreToRgb_clamp_rounded rnd s
            - (static_cast_int (ScoreToRgb_clamp_rounded rnd s) : ℝ) ∧
        ScoreToRgb_clamp_rounded rnd s
            - (static_cast_int (ScoreToRgb_clamp_rounded rnd s) : ℝ) < 1 ∧
        ∀ c, c < 3 →
          (∃ lo : ℝ, heatmapAt (static_cast_int (ScoreToRgb_clamp_rounded rnd s)) c
            = some lo) ∧
          (∃ hi : ℝ, heatmapAt (static_cast_int (ScoreToRgb_clamp_rounded rnd s) + 1) c
            = some hi)) := by
  obtain ⟨pos, hpos, h0, h10⟩ := ScoreToRgb_score_finite d good bad h
  obtain ⟨hf, hi0, hi10, hm0, hm1⟩ := static_cast_int_position pos h0 h10
  refine ⟨pos, hpos, h0, h10, rfl, hf, hi0, hi10, hm0, hm1, by simp [heatmap], by omega, ?_,
    fun good2 hg => ScoreToRgb_score_nan good2 hg, ?_⟩
  · intro c hc
    exact ⟨heatmapAt_isSome _ c hi0 (by omega) hc,
      heatmapAt_isSome _ c (by omega) (by omega) hc⟩
  · intro rnd s
    obtain ⟨p0, p10⟩ := ScoreToRgb_clamp_rounded_range rnd s
    obtain ⟨-, q0, q10, r0, r1⟩ := static_cast_int_position _ p0 p10
    refine ⟨p0, p10, q0, q10, r0, r1, ?_⟩
    intro c hc
    exact ⟨heatmapAt_isSome _ c q0 (by omega) hc,
      heatmapAt_isSome _ c (by omega) (by omega) hc⟩

/-- Witness of C16 at distortion 0 with a positive good threshold and the bad threshold 0. -/
theorem ScoreToRgb_lookup_in_bounds_witness :
    ¬ ((0 : ℝ) = 0 ∧ (0 : ℝ) = 0 ∧ (1 : ℝ) ≤ 0) ∧
    ∃ pos : ℝ, ScoreToRgb_score (0 : ℝ) 1 0 = Double.finite pos ∧
      0 ≤ pos ∧ pos ≤ 10 ∧
      (Double.finite pos).toInt = some (static_cast_int pos) ∧
      static_cast_int pos = ⌊pos⌋ ∧
      0 ≤ static_cast_int pos ∧ static_cast_int pos ≤ 10 ∧
      0 ≤ pos - (static_cast_int pos : ℝ) ∧ pos - (static_cast_int pos : ℝ) < 1 ∧
      (heatmap (K := ℝ)).length = 12 ∧
      static_cast_int pos + 1 ≤ 11 ∧
      (∀ c, c < 3 →
        (∃ lo : ℝ, heatmapAt (static_cast_int pos) c = some lo) ∧
        (∃ hi : ℝ, heatmapAt (static_cast_int pos + 1) c = some hi)) ∧
      (∀ good2 : ℝ, good2 ≤ 0 → ScoreToRgb_score (0 : ℝ) good2 0 = Double.nan) ∧
      (∀ (rnd : ℝ → ℝ) (s : ℝ),
        0 ≤ ScoreToRgb_clamp_rounded rnd s ∧ ScoreToRgb_clamp_rounded rnd s ≤ 10 ∧
        0 ≤ static_cast_int (ScoreToRgb_clamp_rounded rnd s) ∧
        static_cast_int (ScoreToRgb_clamp_rounded rnd s) ≤ 10 ∧
        0 ≤ ScoreToRgb_clamp_rounded rnd s
            - (static_cast_int (ScoreToRgb_clamp_rounded rnd s) : ℝ) ∧
        ScoreToRgb_clamp_rounded rnd s
            - (static_cast_int (ScoreToRgb_clamp_rounded rnd s) : ℝ) < 1 ∧
        ∀ c, c < 3 →
          (∃ lo : ℝ, heatmapAt (static_cast_int (ScoreToRgb_clamp_rounded rnd s)) c
            = some lo) ∧
          (∃ hi : ℝ, heatmapAt (static_cast_int (ScoreToRgb_clamp_rounded rnd s) + 1) c
            = some hi)) :=
  ⟨by norm_num, ScoreToRgb_lookup_in_bounds 0 1 0 (by norm_num)⟩

/-- The rounding to binary64 is monotone on the non-negative numbers. -/
theorem round_double_mono (x y : ℝ) (hx : 0 ≤ x) (hxy : x ≤ y) :
    round_double x ≤ round_double y :=
  round_to_format_mono 53 (-1022) (by norm_num) x y hx hxy

/-- The rounding to binary64 keeps zero. -/
theorem round_double_zero : round_double (0 : ℝ) = 0 :=
  round_to_format_zero 53 (-1022)

/-- Evaluation of `round_double` at a positive number `x` of the binade `2 ^ e`, in the
normal range: the result is `n` units in the last place, where `n` is `x` in these
units, rounded. -/
theorem round_double_eval (x v : ℝ) (e n : Int) (hx : 0 < x) (h1 : (2 : ℝ) ^ e ≤ x)
    (h2 : x < (2 : ℝ) ^ (e + 1)) (he : -1022 ≤ e)
    (hn : round_half_even (x / (2 : ℝ) ^ (e - 52)) = n)
    (hv : (n : ℝ) * (2 : ℝ) ^ (e - 52) = v) : round_double x = v := by
  unfold round_double
  rw [round_to_format_eval 53 (-1022) x e n (by rwa [abs_of_pos hx]) (by rwa [abs_of_pos hx])
    he (by simpa using hn)]
  simpa using hv

/-- The number 1 is a binary64 value. -/
theorem round_double_one :
    round_double (1 : ℝ) = 1 := by
  apply round_double_eval _ _ (0) 4503599627370496
  · norm_num
  · norm_num
  · norm_num
  · norm_num
  · apply round_half_even_of_near <;> norm_num
  · norm_num

/-- The literal `0.5` is a binary64 value. -/
theorem round_double_half :
    round_double (0.5 : ℝ) = 0.5 := by
  apply round_double_eval _ _ (-1) 4503599627370496
  · norm_num
  · norm_num
  · norm_num
  · norm_num
  · apply round_half_even_of_near <;> norm_num
  · norm_num

/-- The binary64 value of the literal `0.3`, below `0.3`. -/
theorem round_double_three_tenths :
    round_double (0.3 : ℝ) = 5404319552844595 / 18014398509481984 := by
  apply round_double_eval _ _ (-2) 5404319552844595
  · norm_num
  · norm_num
  · norm_num
  · norm_num
  · apply round_half_even_of_near <;> norm_num
  · norm_num

/-- The binary64 value of the literal `0.15`, below `0.15`. -/
theorem round_double_fifteen_hundredths :
    round_double (0.15 : ℝ) = 5404319552844595 / 36028797018963968 := by
  apply round_double_eval _ _ (-3) 5404319552844595
  · norm_num
  · norm_num
  · norm_num
  · norm_num
  · apply round_half_even_of_near <;> norm_num
  · norm_num

/-- The binary64 value of the literal `0.45`, above `0.45`. -/
theorem round_double_forty_five_hundredths :
    round_double (0.45 : ℝ) = 8106479329266893 / 18014398509481984 := by
  apply round_double_eval _ _ (-2) 8106479329266893
  · norm_num
  · norm_num
  · norm_num
  · norm_num
  · apply round_half_even_of_near <;> norm_num
  · norm_num

/-- The binary64 value of `0.3` is kept by the rounding. -/
theorem round_double_three_tenths_idem :
    round_double (5404319552844595 / 18014398509481984 : ℝ)
      = 5404319552844595 / 18014398509481984 := by
  apply round_double_eval _ _ (-2) 5404319552844595
  · norm_num
  · norm_num
  · norm_num
  · norm_num
  · apply round_half_even_of_near <;> norm_num
  · norm_num

/-- The binary64 value of `0.15` is kept by the rounding. -/
theorem round_double_fifteen_hundredths_idem :
    round_double (5404319552844595 / 36028797018963968 : ℝ)
      = 5404319552844595 / 36028797018963968 := by
  apply round_double_eval _ _ (-3) 5404319552844595
  · norm_num
  · norm_num
  · norm_num
  · norm_num
  · apply round_half_even_of_near <;> norm_num
  · norm_num

/-- The binary64 value of `0.45` is kept by the rounding. -/
theorem round_double_forty_five_hundredths_idem :
    round_double (8106479329266893 / 18014398509481984 : ℝ)
      = 8106479329266893 / 18014398509481984 := by
  apply round_double_eval _ _ (-2) 8106479329266893
  · norm_num
  · norm_num
  · norm_num
  · norm_num
  · apply round_half_even_of_near <;> norm_num
  · norm_num

/-- The binary64 sum of the values of `0.3` and `0.15`: the exact sum is half-way between two
binary64 values and goes to the even one, which is below the value of `0.45`. -/
theorem round_double_sum_literals :
    round_double (5404319552844595 / 18014398509481984 + 5404319552844595 / 36028797018963968 : ℝ)
      = 2026619832316723 / 4503599627370496 := by
  apply round_double_eval _ _ (-2) 8106479329266892
  · norm_num
  · norm_num
  · norm_num
  · norm_num
  · rw [round_half_even_tie _ 8106479329266892 (by norm_num)]
    norm_num
  · norm_num

/-- Without rounding the rounded remap is the remap. -/
theorem ScoreToRgb_remap_rounded_id {K : Type} [LinearOrderedField K] (d good bad : K) :
    ScoreToRgb_remap_rounded id d good bad = ScoreToRgb_remap d good bad := rfl

/-- Without rounding the rounded clamp is the clamp. -/
theorem ScoreToRgb_clamp_rounded_id {K : Type} [LinearOrderedField K] (s : K) :
    ScoreToRgb_clamp_rounded id s = ScoreToRgb_clamp s := rfl

/-- The remap under a rounding that is monotone on the non-negative numbers, keeps 0 and 1
and the three rounded literals, and does not round `0.3 + 0.15` above `0.45`: the value of
the first branch is at most that of `0.3`, the second lies between that and the rounded
sum, the third is at least the value of `0.45`, and the remap is non-decreasing on the
non-negative distortions. -/
theorem ScoreToRgb_remap_rounded_mono {K : Type} [LinearOrderedField K] (rnd : K → K)
    (hmono : ∀ x y, 0 ≤ x → x ≤ y → rnd x ≤ rnd y) (h0 : rnd 0 = 0) (h1 : rnd 1 = 1)
    (h3 : rnd (rnd 0.3) = rnd 0.3) (h15 : rnd (rnd 0.15) = rnd 0.15)
    (h45 : rnd (rnd 0.45) = rnd 0.45) (hsum : rnd (rnd 0.3 + rnd 0.15) ≤ rnd 0.45)
    (good bad : K) (hgood : 0 < good) (hlt : good < bad) (d1 d2 : K) (hd : 0 ≤ d1)
    (h12 : d1 ≤ d2) :
    0 ≤ ScoreToRgb_remap_rounded rnd d1 good bad ∧
    ScoreToRgb_remap_rounded rnd d1 good bad ≤ ScoreToRgb_remap_rounded rnd d2 good bad := by
  have hnn : ∀ x, 0 ≤ x → 0 ≤ rnd x := fun x hx => by
    have := hmono 0 x (le_refl _) hx
    rwa [h0] at this
  have c3 : 0 ≤ rnd 0.3 := hnn _ (by norm_num)
  have c15 : 0 ≤ rnd 0.15 := hnn _ (by norm_num)
  have c45 : 0 ≤ rnd 0.45 := hnn _ (by norm_num)
  have c5 : 0 ≤ rnd 0.5 := hnn _ (by norm_num)
  -- the first branch
  have b1 : ∀ d, 0 ≤ d → d < good →
      0 ≤ rnd (rnd (d / good) * rnd 0.3) ∧ rnd (rnd (d / good) * rnd 0.3) ≤ rnd 0.3 := by
    intro d hd0 hdg
    have q0 : 0 ≤ d / good := div_nonneg hd0 hgood.le
    have q1 : d / good ≤ 1 := (div_le_one hgood).2 hdg.le
    have r0 : 0 ≤ rnd (d / good) := hnn _ q0
    have r1 : rnd (d / good) ≤ 1 := by
      have := hmono _ _ q0 q1
      rwa [h1] at this
    have p0 : 0 ≤ rnd (d / good) * rnd 0.3 := mul_nonneg r0 c3
    have p1 : rnd (d / good) * rnd 0.3 ≤ rnd 0.3 := by
      calc rnd (d / good) * rnd 0.3 ≤ 1 * rnd 0.3 := mul_le_mul_of_nonneg_right r1 c3
        _ = rnd 0.3 := one_mul _
    refine ⟨hnn _ p0, ?_⟩
    have := hmono _ _ p0 p1
    rwa [h3] at this
  have m1 : ∀ a b, 0 ≤ a → a ≤ b →
      rnd (rnd (a / good) * rnd 0.3) ≤ rnd (rnd (b / good) * rnd 0.3) := by
    intro a b ha hab
    have q0 : 0 ≤ a / good := div_nonneg ha hgood.le
    have q1 : a / good ≤ b / good := div_le_div_of_nonneg_right hab hgood.le
    have r1 := hmono _ _ q0 q1
    exact hmono _ _ (mul_nonneg (hnn _ q0) c3) (mul_le_mul_of_nonneg_right r1 c3)
  -- the second branch
  have t2 : ∀ d, good ≤ d → d < bad →
      0 ≤ rnd (rnd (rnd (d - good) / rnd (bad - good)) * rnd 0.15) ∧
      rnd (rnd (rnd (d - good) / rnd (bad - good)) * rnd 0.15) ≤ rnd 0.15 := by
    intro d hgd hdb
    have n0 : 0 ≤ d - good := sub_nonneg.2 hgd
    have n1 : d - good ≤ bad - good := by linarith
    have rn0 : 0 ≤ rnd (d - good) := hnn _ n0
    have rn1 : rnd (d - good) ≤ rnd (bad - good) := hmono _ _ n0 n1
    have dn0 : 0 ≤ rnd (bad - good) := le_trans rn0 rn1
    have q0 : 0 ≤ rnd (d - good) / rnd (bad - good) := div_nonneg rn0 dn0
    have q1 : rnd (d - good) / rnd (bad - good) ≤ 1 := div_le_one_of_le₀ rn1 dn0
    have r0 := hnn _ q0
    have r1 : rnd (rnd (d - good) / rnd (bad - good)) ≤ 1 := by
      have := hmono _ _ q0 q1
      rwa [h1] at this
    have p0 : 0 ≤ rnd (rnd (d - good) / rnd (bad - good)) * rnd 0.15 := mul_nonneg r0 c15
    have p1 : rnd (rnd (d - good) / rnd (bad - good)) * rnd 0.15 ≤ rnd 0.15 := by
      calc _ ≤ 1 * rnd 0.15 := mul_le_mul_of_nonneg_right r1 c15
        _ = rnd 0.15 := one_mul _
    refine ⟨hnn _ p0, ?_⟩
    have := hmono _ _ p0 p1
    rwa [h15] at this
  have b2 : ∀ d, good ≤ d → d < bad →
      rnd 0.3 ≤ rnd (rnd 0.3 + rnd (rnd (rnd (d - good) / rnd (bad - good)) * rnd 0.15)) ∧
      rnd (rnd 0.3 + rnd (rnd (rnd (d - good) / rnd (bad - good)) * rnd 0.15))
        ≤ rnd (rnd 0.3 + rnd 0.15) := by
    intro d hgd hdb
    obtain ⟨t0, t1⟩ := t2 d hgd hdb
    constructor
    · have := hmono (rnd 0.3) _ c3 (le_add_of_nonneg_right t0)
      rwa [h3] at this
    · exact hmono _ _ (add_nonneg c3 t0) (add_le_add_left t1 _)
  have m2 : ∀ a b, good ≤ a → a ≤ b → b < bad →
      rnd (rnd 0.3 + rnd (rnd (rnd (a - good) / rnd (bad - good)) * rnd 0.15))
        ≤ rnd (rnd 0.3 + rnd (rnd (rnd (b - good) / rnd (bad - good)) * rnd 0.15)) := by
    intro a b hga hab hbb
    have n0 : 0 ≤ a - good := sub_nonneg.2 hga
    have rn0 : 0 ≤ rnd (a - good) := hnn _ n0
    have rn1 : rnd (a - good) ≤ rnd (b - good) := hmono _ _ n0 (by linarith)
    have dn0 : 0 ≤ rnd (bad - good) := hnn _ (by linarith)
    have q0 : 0 ≤ rnd (a - good) / rnd (bad - good) := div_nonneg rn0 dn0
    have q1 := div_le_div_of_nonneg_right rn1 dn0
    have r1 := hmono _ _ q0 q1
    have p1 := hmono _ _ (mul_nonneg (hnn _ q0) c15) (mul_le_mul_of_nonneg_right r1 c15)
    exact hmono _ _ (add_nonneg c3 (hnn _ (mul_nonneg (hnn _ q0) c15)))
      (add_le_add_left p1 _)
  -- the third branch
  have t3 : ∀ d, bad ≤ d →
      0 ≤ rnd (rnd (rnd (d - bad) / rnd (bad * 12)) * rnd 0.5) := by
    intro d hbd
    have dn0 : 0 ≤ rnd (bad * 12) := hnn _ (by nlinarith)
    exact hnn _ (mul_nonneg (hnn _ (div_nonneg (hnn _ (sub_nonneg.2 hbd)) dn0)) c5)
  have b3 : ∀ d, bad ≤ d →
      rnd 0.45 ≤ rnd (rnd 0.45 + rnd (rnd (rnd (d - bad) / rnd (bad * 12)) * rnd 0.5)) := by
    intro d hbd
    have := hmono (rnd 0.45) _ c45 (le_add_of_nonneg_right (t3 d hbd))
    rwa [h45] at this
  have m3 : ∀ a b, bad ≤ a → a ≤ b →
      rnd (rnd 0.45 + rnd (rnd (rnd (a - bad) / rnd (bad * 12)) * rnd 0.5))
        ≤ rnd (rnd 0.45 + rnd (rnd (rnd (b - bad) / rnd (bad * 12)) * rnd 0.5)) := by
    intro a b hba hab
    have n0 : 0 ≤ a - bad := sub_nonneg.2 hba
    have rn0 : 0 ≤ rnd (a - bad) := hnn _ n0
    have rn1 : rnd (a - bad) ≤ rnd (b - bad) := hmono _ _ n0 (by linarith)
    have dn0 : 0 ≤ rnd (bad * 12) := hnn _ (by nlinarith)
    have q0 : 0 ≤ rnd (a - bad) / rnd (bad * 12) := div_nonneg rn0 dn0
    have q1 := div_le_div_of_nonneg_right rn1 dn0
    have r1 := hmono _ _ q0 q1
    have p1 := hmono _ _ (mul_nonneg (hnn _ q0) c5) (mul_le_mul_of_nonneg_right r1 c5)
    exact hmono _ _ (add_nonneg c45 (hnn _ (mul_nonneg (hnn _ q0) c5)))
      (add_le_add_left p1 _)
  have c3le : rnd 0.3 ≤ rnd (rnd 0.3 + rnd 0.15) := by
    have := hmono (rnd 0.3) _ c3 (le_add_of_nonneg_right c15)
    rwa [h3] at this
  unfold ScoreToRgb_remap_rounded
  by_cases h1g : d1 < good
  · rw [if_pos h1g]
    refine ⟨(b1 d1 hd h1g).1, ?_⟩
    by_cases h2g : d2 < good
    · rw [if_pos h2g]
      exact m1 d1 d2 hd h12
    · rw [if_neg h2g]
      by_cases h2b : d2 < bad
      · rw [if_pos h2b]
        exact le_trans (b1 d1 hd h1g).2 (b2 d2 (not_lt.1 h2g) h2b).1
      · rw [if_neg h2b]
        exact le_trans (b1 d1 hd h1g).2 (le_trans c3le (le_trans hsum (b3 d2 (not_lt.1 h2b))))
  · have hg1 : good ≤ d1 := not_lt.1 h1g
    have h2g : ¬ d2 < good := not_lt.2 (le_trans hg1 h12)
    rw [if_neg h1g, if_neg h2g]
    by_cases h1b : d1 < bad
    · rw [if_pos h1b]
      refine ⟨le_trans c3 (b2 d1 hg1 h1b).1, ?_⟩
      by_cases h2b : d2 < bad
      · rw [if_pos h2b]
        exact m2 d1 d2 hg1 h12 h2b
      · rw [if_neg h2b]
        exact le_trans (b2 d1 hg1 h1b).2 (le_trans hsum (b3 d2 (not_lt.1 h2b)))
    · have hb1 : bad ≤ d1 := not_lt.1 h1b
      have h2b : ¬ d2 < bad := not_lt.2 (le_trans hb1 h12)
      rw [if_neg h1b, if_neg h2b]
      exact ⟨le_trans c45 (b3 d1 hb1), m3 d1 d2 hb1 h12⟩

/-- The threshold 2 is a binary64 value. -/
theorem round_double_two :
    round_double (2 : ℝ) = 2 := by
  apply round_double_eval _ _ (1) 4503599627370496
  · norm_num
  · norm_num
  · norm_num
  · norm_num
  · apply round_half_even_of_near <;> norm_num
  · norm_num

/-- The distortion 3 is a binary64 value. -/
theorem round_double_three :
    round_double (3 : ℝ) = 3 := by
  apply round_double_eval _ _ (1) 6755399441055744
  · norm_num
  · norm_num
  · norm_num
  · norm_num
  · apply round_half_even_of_near <;> norm_num
  · norm_num

/-- The distortion `3 + 2 ^ (-51)` is a binary64 value. -/
theorem round_double_three_next :
    round_double (3 + 1 / 2251799813685248 : ℝ) = 3 + 1 / 2251799813685248 := by
  apply round_double_eval _ _ (1) 6755399441055745
  · norm_num
  · norm_num
  · norm_num
  · norm_num
  · apply round_half_even_of_near <;> norm_num
  · norm_num

/-- The product `2 * 12 = 24` is a binary64 value. -/
theorem round_double_twenty_four :
    round_double (24 : ℝ) = 24 := by
  apply round_double_eval _ _ (4) 6755399441055744
  · norm_num
  · norm_num
  · norm_num
  · norm_num
  · apply round_half_even_of_near <;> norm_num
  · norm_num

/-- The binary64 quotient `1 / 24`. -/
theorem round_double_quotient_low :
    round_double (1 / 24 : ℝ) = 6004799503160661 / 144115188075855872 := by
  apply round_double_eval _ _ (-5) 6004799503160661
  · norm_num
  · norm_num
  · norm_num
  · norm_num
  · apply round_half_even_of_near <;> norm_num
  · norm_num

/-- Halving the binary64 quotient `1 / 24` is exact. -/
theorem round_double_product_low :
    round_double (6004799503160661 / 144115188075855872 * 0.5 : ℝ)
      = 6004799503160661 / 288230376151711744 := by
  apply round_double_eval _ _ (-6) 6004799503160661
  · norm_num
  · norm_num
  · norm_num
  · norm_num
  · apply round_half_even_of_near <;> norm_num
  · norm_num

/-- The binary64 sum of the value of `0.45` and the halved quotient, at distortion 3. -/
theorem round_double_sum_low :
    round_double (8106479329266893 / 18014398509481984 + 6004799503160661 / 288230376151711744 : ℝ)
      = 4240889649107217 / 9007199254740992 := by
  apply round_double_eval _ _ (-2) 8481779298214434
  · norm_num
  · norm_num
  · norm_num
  · norm_num
  · apply round_half_even_of_near <;> norm_num
  · norm_num

/-- The difference `3 + 2 ^ (-51) - 2` is a binary64 value. -/
theorem round_double_difference_high :
    round_double (2251799813685249 / 2251799813685248 : ℝ)
      = 2251799813685249 / 2251799813685248 := by
  apply round_double_eval _ _ (0) 4503599627370498
  · norm_num
  · norm_num
  · norm_num
  · norm_num
  · apply round_half_even_of_near <;> norm_num
  · norm_num

/-- The quotient `(1 + 2 ^ (-51)) / 24` is a binary64 value. -/
theorem round_double_quotient_high :
    round_double (2251799813685249 / 2251799813685248 / 24 : ℝ)
      = 750599937895083 / 18014398509481984 := by
  apply round_double_eval _ _ (-5) 6004799503160664
  · norm_num
  · norm_num
  · norm_num
  · norm_num
  · apply round_half_even_of_near <;> norm_num
  · norm_num

/-- Halving the quotient `(1 + 2 ^ (-51)) / 24` is exact. -/
theorem round_double_product_high :
    round_double (750599937895083 / 18014398509481984 * 0.5 : ℝ)
      = 750599937895083 / 36028797018963968 := by
  apply round_double_eval _ _ (-6) 6004799503160664
  · norm_num
  · norm_num
  · norm_num
  · norm_num
  · apply round_half_even_of_near <;> norm_num
  · norm_num

/-- The binary64 sum of the value of `0.45` and the halved quotient, at distortion
`3 + 2 ^ (-51)`: the exact sum is half-way between two binary64 values and goes to the even
one, the sum at distortion 3. -/
theorem round_double_sum_high :
    round_double (8106479329266893 / 18014398509481984 + 750599937895083 / 36028797018963968 : ℝ)
      = 4240889649107217 / 9007199254740992 := by
  apply round_double_eval _ _ (-2) 8481779298214434
  · norm_num
  · norm_num
  · norm_num
  · norm_num
  · rw [round_half_even_tie _ 8481779298214434 (by norm_num)]
    norm_num
  · norm_num

/-- The binary64 remap at distortion 3 with thresholds 1 and 2. -/
theorem ScoreToRgb_remap_rounded_low :
    ScoreToRgb_remap_rounded round_double (3 : ℝ) 1 2
      = 4240889649107217 / 9007199254740992 := by
  unfold ScoreToRgb_remap_rounded
  rw [if_neg (by norm_num), if_neg (by norm_num)]
  have a1 : (3 : ℝ) - 2 = 1 := by norm_num
  have a2 : (2 : ℝ) * 12 = 24 := by norm_num
  rw [a1, a2, round_double_one, round_double_twenty_four, round_double_quotient_low,
    round_double_half, round_double_product_low, round_double_forty_five_hundredths,
    round_double_sum_low]

/-- The binary64 remap at distortion `3 + 2 ^ (-51)` with thresholds 1 and 2. -/
theorem ScoreToRgb_remap_rounded_high :
    ScoreToRgb_remap_rounded round_double (3 + 1 / 2251799813685248 : ℝ) 1 2
      = 4240889649107217 / 9007199254740992 := by
  unfold ScoreToRgb_remap_rounded
  rw [if_neg (by norm_num), if_neg (by norm_num)]
  have a1 : (3 + 1 / 2251799813685248 : ℝ) - 2
      = 2251799813685249 / 2251799813685248 := by norm_num
  have a2 : (2 : ℝ) * 12 = 24 := by norm_num
  rw [a1, a2, round_double_difference_high, round_double_twenty_four,
    round_double_quotient_high, round_double_half, round_double_product_high,
    round_double_forty_five_hundredths, round_double_sum_high]

/-- C20, the claim as stated fails: with the thresholds 1 and 2 the binary64 evaluation of
the remap sends the two distortions 3 and `3 + 2 ^ (-51)`, both binary64 values, to the same
value `4240889649107217 / 9007199254740992`, so the remap is not strictly increasing. -/
theorem ScoreToRgb_remap_increasing_counterexample :
    (0 : ℝ) < 1 ∧ (1 : ℝ) < 2 ∧ (0 : ℝ) ≤ 3 ∧ (3 : ℝ) < 3 + 1 / 2251799813685248 ∧
    round_double (1 : ℝ) = 1 ∧ round_double (2 : ℝ) = 2 ∧
    round_double (3 : ℝ) = 3 ∧
    round_double (3 + 1 / 2251799813685248 : ℝ) = 3 + 1 / 2251799813685248 ∧
    ScoreToRgb_remap_rounded round_double (3 : ℝ) 1 2
      = 4240889649107217 / 9007199254740992 ∧
    ScoreToRgb_remap_rounded round_double (3 + 1 / 2251799813685248 : ℝ) 1 2
      = 4240889649107217 / 9007199254740992 ∧
    ¬ (ScoreToRgb_remap_rounded round_double (3 : ℝ) 1 2
        < ScoreToRgb_remap_rounded round_double (3 + 1 / 2251799813685248 : ℝ) 1 2) := by
  refine ⟨by norm_num, by norm_num, by norm_num, by norm_num, round_double_one,
    round_double_two, round_double_three, round_double_three_next,
    ScoreToRgb_remap_rounded_low, ScoreToRgb_remap_rounded_high, ?_⟩
  rw [ScoreToRgb_remap_rounded_low, ScoreToRgb_remap_rounded_high]
  exact lt_irrefl _

/-- The binary64 remap is non-negative and non-decreasing on the non-negative
distortions. -/
theorem ScoreToRgb_remap_round_double_mono (good bad : ℝ) (hgood : 0 < good)
    (hlt : good < bad) (d1 d2 : ℝ) (hd : 0 ≤ d1) (h12 : d1 ≤ d2) :
    0 ≤ ScoreToRgb_remap_rounded round_double d1 good bad ∧
    ScoreToRgb_remap_rounded round_double d1 good bad
      ≤ ScoreToRgb_remap_rounded round_double d2 good bad := by
  apply ScoreToRgb_remap_rounded_mono round_double round_double_mono round_double_zero
    round_double_one _ _ _ _ good bad hgood hlt d1 d2 hd h12
  · rw [round_double_three_tenths, round_double_three_tenths_idem]
  · rw [round_double_fifteen_hundredths, round_double_fifteen_hundredths_idem]
  · rw [round_double_forty_five_hundredths, round_double_forty_five_hundredths_idem]
  · rw [round_double_three_tenths, round_double_fifteen_hundredths, round_double_sum_literals,
      round_double_forty_five_hundredths]
    norm_num

/-- The gradient position, the index and the fraction follow a non-decreasing non-negative
score, under a rounding that is monotone on the non-negative numbers. -/
theorem ScoreToRgb_position_rounded_mono {K : Type} [LinearOrderedField K] [FloorRing K]
    (rnd : K → K) (hmono : ∀ x y, 0 ≤ x → x ≤ y → rnd x ≤ rnd y) (s1 s2 : K)
    (h0 : 0 ≤ s1) (h12 : s1 ≤ s2) :
    ScoreToRgb_clamp_rounded rnd s1 ≤ ScoreToRgb_clamp_rounded rnd s2 ∧
    static_cast_int (ScoreToRgb_clamp_rounded rnd s1)
      ≤ static_cast_int (ScoreToRgb_clamp_rounded rnd s2) ∧
    (static_cast_int (ScoreToRgb_clamp_rounded rnd s1)
        = static_cast_int (ScoreToRgb_clamp_rounded rnd s2) →
      rnd (ScoreToRgb_clamp_rounded rnd s1 -
          (static_cast_int (ScoreToRgb_clamp_rounded rnd s1) : K))
        ≤ rnd (ScoreToRgb_clamp_rounded rnd s2 -
          (static_cast_int (ScoreToRgb_clamp_rounded rnd s2) : K))) := by
  have h11 : (0 : K) ≤ ((kTableSize - 1 : Int) : K) := by simp [kTableSize]
  have hp : ScoreToRgb_clamp_rounded rnd s1 ≤ ScoreToRgb_clamp_rounded rnd s2 := by
    unfold ScoreToRgb_clamp_rounded
    apply min_le_min _ (le_refl _)
    apply max_le_max _ (le_refl _)
    exact hmono _ _ (mul_nonneg h0 h11) (mul_le_mul_of_nonneg_right h12 h11)
  obtain ⟨a0, a10⟩ := ScoreToRgb_clamp_rounded_range rnd s1
  obtain ⟨b0, b10⟩ := ScoreToRgb_clamp_rounded_range rnd s2
  obtain ⟨af, -, -, am0, -⟩ := static_cast_int_position _ a0 a10
  obtain ⟨bf, -, -, -, -⟩ := static_cast_int_position _ b0 b10
  refine ⟨hp, ?_, ?_⟩
  · rw [af, bf]
    exact Int.floor_mono hp
  · intro heq
    apply hmono _ _ am0
    rw [heq]
    linarith

/-- C20, amended: for all real thresholds with `0 < good < bad` the score remap of
`ScoreToRgb` is non-decreasing in the distortion over all `d >= 0`, within and across its
three branches, as binary64 arithmetic evaluates it, where every literal and every
operation is rounded; so the clamped gradient position and with it the pair `(ix, mix)` is
non-decreasing in `d`: for `0 <= d1 <= d2` the index of `d1` is at most that of `d2`, and
at equal indices the mix of `d1` is at most that of `d2`.  In exact real arithmetic the
same holds and the remap is moreover strictly increasing. -/
theorem ScoreToRgb_remap_nondecreasing (good bad : ℝ) (hgood : 0 < good) (hlt : good < bad)
    (d1 d2 : ℝ) (h0 : 0 ≤ d1) (h12 : d1 ≤ d2) :
    (ScoreToRgb_remap_rounded round_double d1 good bad
      ≤ ScoreToRgb_remap_rounded round_double d2 good bad ∧
    ScoreToRgb_clamp_rounded round_double (ScoreToRgb_remap_rounded round_double d1 good bad)
      ≤ ScoreToRgb_clamp_rounded round_double
          (ScoreToRgb_remap_rounded round_double d2 good bad) ∧
    static_cast_int (ScoreToRgb_clamp_rounded round_double
        (ScoreToRgb_remap_rounded round_double d1 good bad))
      ≤ static_cast_int (ScoreToRgb_clamp_rounded round_double
          (ScoreToRgb_remap_rounded round_double d2 good bad)) ∧
    (static_cast_int (ScoreToRgb_clamp_rounded round_double
          (ScoreToRgb_remap_rounded round_double d1 good bad))
        = static_cast_int (ScoreToRgb_clamp_rounded round_double
          (ScoreToRgb_remap_rounded round_double d2 good bad)) →
      round_double (ScoreToRgb_clamp_rounded round_double
            (ScoreToRgb_remap_rounded round_double d1 good bad) -
          (static_cast_int (ScoreToRgb_clamp_rounded round_double
            (ScoreToRgb_remap_rounded round_double d1 good bad)) : ℝ))
        ≤ round_double (ScoreToRgb_clamp_rounded round_double
            (ScoreToRgb_remap_rounded round_double d2 good bad) -
          (static_cast_int (ScoreToRgb_clamp_rounded round_double
            (ScoreToRgb_remap_rounded round_double d2 good bad)) : ℝ)))) ∧
    (ScoreToRgb_remap d1 good bad ≤ ScoreToRgb_remap d2 good bad ∧
    (d1 < d2 → ScoreToRgb_remap d1 good bad < ScoreToRgb_remap d2 good bad) ∧
    ScoreToRgb_clamp (ScoreToRgb_remap d1 good bad)
      ≤ ScoreToRgb_clamp (ScoreToRgb_remap d2 good bad) ∧
    static_cast_int (ScoreToRgb_clamp (ScoreToRgb_remap d1 good bad))
      ≤ static_cast_int (ScoreToRgb_clamp (ScoreToRgb_remap d2 good bad)) ∧
    (static_cast_int (ScoreToRgb_clamp (ScoreToRgb_remap d1 good bad))
        = static_cast_int (ScoreToRgb_clamp (ScoreToRgb_remap d2 good bad)) →
      ScoreToRgb_clamp (ScoreToRgb_remap d1 good bad) -
          (static_cast_int (ScoreToRgb_clamp (ScoreToRgb_remap d1 good bad)) : ℝ)
        ≤ ScoreToRgb_clamp (ScoreToRgb_remap d2 good bad) -
          (static_cast_int (ScoreToRgb_clamp (ScoreToRgb_remap d2 good bad)) : ℝ))) := by
  constructor
  · obtain ⟨hs0, hs⟩ := ScoreToRgb_remap_round_double_mono good bad hgood hlt d1 d2 h0 h12
    exact ⟨hs, ScoreToRgb_position_rounded_mono round_double round_double_mono _ _ hs0 hs⟩
  · have hs : ScoreToRgb_remap d1 good bad ≤ ScoreToRgb_remap d2 good bad := by
      rcases eq_or_lt_of_le h12 with h | h
      · rw [h]
      · exact (ScoreToRgb_remap_strictMono good bad hgood hlt d1 d2 h).le
    have hc := ScoreToRgb_clamp_mono _ _ hs
    refine ⟨hs, ScoreToRgb_remap_strictMono good bad hgood hlt d1 d2, hc, ?_, ?_⟩
    · rw [static_cast_int_clamp, static_cast_int_clamp]
      exact Int.floor_mono hc
    · intro heq
      rw [heq]
      linarith

/-- Witness of C20 at the thresholds 1 and 2, across the good threshold. -/
theorem ScoreToRgb_remap_nondecreasing_witness :
    (0 : ℝ) < 1 ∧ (1 : ℝ) < 2 ∧ (0 : ℝ) ≤ 0.5 ∧ (0.5 : ℝ) ≤ 1.5 ∧
    (ScoreToRgb_remap_rounded round_double (0.5 : ℝ) 1 2
      ≤ ScoreToRgb_remap_rounded round_double (1.5 : ℝ) 1 2 ∧
    ScoreToRgb_clamp_rounded round_double (ScoreToRgb_remap_rounded round_double (0.5 : ℝ) 1 2)
      ≤ ScoreToRgb_clamp_rounded round_double
          (ScoreToRgb_remap_rounded round_double (1.5 : ℝ) 1 2) ∧
    static_cast_int (ScoreToRgb_clamp_rounded round_double
        (ScoreToRgb_remap_rounded round_double (0.5 : ℝ) 1 2))
      ≤ static_cast_int (ScoreToRgb_clamp_rounded round_double
          (ScoreToRgb_remap_rounded round_double (1.5 : ℝ) 1 2)) ∧
    (static_cast_int (ScoreToRgb_clamp_rounded round_double
          (ScoreToRgb_remap_rounded round_double (0.5 : ℝ) 1 2))
        = static_cast_int (ScoreToRgb_clamp_rounded round_double
          (ScoreToRgb_remap_rounded round_double (1.5 : ℝ) 1 2)) →
      round_double (ScoreToRgb_clamp_rounded round_double
            (ScoreToRgb_remap_rounded round_double (0.5 : ℝ) 1 2) -
          (static_cast_int (ScoreToRgb_clamp_rounded round_double
            (ScoreToRgb_remap_rounded round_double (0.5 : ℝ) 1 2)) : ℝ))
        ≤ round_double (ScoreToRgb_clamp_rounded round_double
            (ScoreToRgb_remap_rounded round_double (1.5 : ℝ) 1 2) -
          (static_cast_int (ScoreToRgb_clamp_rounded round_double
            (ScoreToRgb_remap_rounded round_double (1.5 : ℝ) 1 2)) : ℝ)))) ∧
    (ScoreToRgb_remap (0.5 : ℝ) 1 2 ≤ ScoreToRgb_remap (1.5 : ℝ) 1 2 ∧
    ((0.5 : ℝ) < (1.5 : ℝ) → ScoreToRgb_remap (0.5 : ℝ) 1 2 < ScoreToRgb_remap (1.5 : ℝ) 1 2) ∧
    ScoreToRgb_clamp (ScoreToRgb_remap (0.5 : ℝ) 1 2)
      ≤ ScoreToRgb_clamp (ScoreToRgb_remap (1.5 : ℝ) 1 2) ∧
    static_cast_int (ScoreToRgb_clamp (ScoreToRgb_remap (0.5 : ℝ) 1 2))
      ≤ static_cast_int (ScoreToRgb_clamp (ScoreToRgb_remap (1.5 : ℝ) 1 2)) ∧
    (static_cast_int (ScoreToRgb_clamp (ScoreToRgb_remap (0.5 : ℝ) 1 2))
        = static_cast_int (ScoreToRgb_clamp (ScoreToRgb_remap (1.5 : ℝ) 1 2)) →
      ScoreToRgb_clamp (ScoreToRgb_remap (0.5 : ℝ) 1 2) -
          (static_cast_int (ScoreToRgb_clamp (ScoreToRgb_remap (0.5 : ℝ) 1 2)) : ℝ)
        ≤ ScoreToRgb_clamp (ScoreToRgb_remap (1.5 : ℝ) 1 2) -
          (static_cast_int (ScoreToRgb_clamp (ScoreToRgb_remap (1.5 : ℝ) 1 2)) : ℝ))) :=
  ⟨by norm_num, by norm_num, by norm_num, by norm_num,
    ScoreToRgb_remap_nondecreasing 1 2 (by norm_num) (by norm_num) 0.5 1.5 (by norm_num)
      (by norm_num)⟩

/-! ### The colour channels in binary64 arithmetic -/

/-- Without rounding the rounded function is `ScoreToRgb`. -/
theorem ScoreToRgb_rounded_id {K : Type} [LinearOrderedField K] [FloorRing K]
    (pow : K → K → K) (d good bad : K) :
    ScoreToRgb_rounded id pow d good bad = ScoreToRgb pow d good bad := rfl

end Butteraugli
